import Mathlib

/-!
# libsshqt: session, channel and process state machines

A shallow embedding of `src/libsshqt.cpp`.  Each C++ object is a Lean
structure holding its member variables; each member function is a Lean
function from the object (and the results of the libssh calls it makes) to the
updated object.  Signals, calls out to libssh and critical diagnostics are
appended to a per-object effect log in program order.  Debug output
(`LIBSSHQT_DEBUG`) is not modelled, assertions (`Q_ASSERT`) are taken as
compiled out, and slots connected by the caller do not run.
-/

set_option autoImplicit false

/-! ## libssh constants (from the libssh headers) -/

/-- The libssh return code `SSH_OK`. -/
def SSH_OK : Int := 0
/-- The libssh return code `SSH_ERROR`. -/
def SSH_ERROR : Int := -1
/-- The libssh return code `SSH_AGAIN`. -/
def SSH_AGAIN : Int := -2
/-- The libssh return code `SSH_EOF`. -/
def SSH_EOF : Int := -127

/-- The libssh authentication result `SSH_AUTH_SUCCESS`. -/
def SSH_AUTH_SUCCESS : Int := 0
/-- The libssh authentication result `SSH_AUTH_DENIED`. -/
def SSH_AUTH_DENIED : Int := 1
/-- The libssh authentication result `SSH_AUTH_PARTIAL`. -/
def SSH_AUTH_PARTIAL : Int := 2
/-- The libssh authentication result `SSH_AUTH_INFO`. -/
def SSH_AUTH_INFO : Int := 3
/-- The libssh authentication result `SSH_AUTH_AGAIN`. -/
def SSH_AUTH_AGAIN : Int := 4
/-- The libssh authentication result `SSH_AUTH_ERROR`. -/
def SSH_AUTH_ERROR : Int := -1

/-- The libssh host check result `SSH_SERVER_ERROR`. -/
def SSH_SERVER_ERROR : Int := -1
/-- The libssh host check result `SSH_SERVER_NOT_KNOWN`. -/
def SSH_SERVER_NOT_KNOWN : Int := 0
/-- The libssh host check result `SSH_SERVER_KNOWN_OK`. -/
def SSH_SERVER_KNOWN_OK : Int := 1
/-- The libssh host check result `SSH_SERVER_KNOWN_CHANGED`. -/
def SSH_SERVER_KNOWN_CHANGED : Int := 2
/-- The libssh host check result `SSH_SERVER_FOUND_OTHER`. -/
def SSH_SERVER_FOUND_OTHER : Int := 3
/-- The libssh host check result `SSH_SERVER_FILE_NOT_FOUND`. -/
def SSH_SERVER_FILE_NOT_FOUND : Int := 4

/-! ## LibsshQtClient: data model -/

/-- Session states, `LibsshQtClient::StateFlag`, in the order of the
`switch` of `setState`. -/
inductive StateFlag where
  | StateClosed
  | StateClosing
  | StateConnecting
  | StateIsKnown
  | StateUnknownHost
  | StateAuthChoose
  | StateAuthContinue
  | StateAuthNone
  | StateAuthAutoPubkey
  | StateAuthPassword
  | StateAuthInteractive
  | StateAuthFailed
  | StateOpened
  | StateError
  deriving DecidableEq, Repr

/-- Host verification result, `LibsshQtClient::HostFlag`. -/
inductive HostFlag where
  | HostKnown
  | HostUnknown
  | HostKeyChanged
  | HostKeyTypeChanged
  | HostKnownHostsFileMissing
  deriving DecidableEq, Repr

/-- Modelled from the spec: the header declaring `HostFlag` is missing; the
enumerators are taken to carry the libssh `SSH_SERVER_*` values they are named
after, which is what `static_cast< HostFlag >( known )` in `processState`
relies on.  Only called with one of the four unknown-host codes. -/
def HostFlag.ofInt (known : Int) : HostFlag :=
  if known = SSH_SERVER_NOT_KNOWN then .HostUnknown
  else if known = SSH_SERVER_KNOWN_CHANGED then .HostKeyChanged
  else if known = SSH_SERVER_FOUND_OTHER then .HostKeyTypeChanged
  else if known = SSH_SERVER_FILE_NOT_FOUND then .HostKnownHostsFileMissing
  else .HostKnown

/-- One authentication method flag, `LibsshQtClient::UseAuthFlag`. -/
inductive UseAuthFlag where
  | UseAuthEmpty
  | UseAuthNone
  | UseAuthAutoPubKey
  | UseAuthPassword
  | UseAuthInteractive
  deriving DecidableEq, Repr

/-- Modelled from the spec: the header declaring the `UseAuths` flag set
(`QFlags` over `UseAuthFlag`) is missing; the four method flags are taken to be
distinct single bits and `UseAuthEmpty` to be zero, so a flag set is one bit
per method. -/
structure UseAuths where
  none : Bool
  autoPubKey : Bool
  password : Bool
  interactive : Bool
  deriving DecidableEq, Repr

namespace UseAuths

/-- The empty flag set, the value of `UseAuthEmpty`. -/
def empty : UseAuths := ⟨false, false, false, false⟩

/-- The operator `flags & flag` read as a truth value. -/
def test (s : UseAuths) : UseAuthFlag → Bool
  | .UseAuthEmpty => false
  | .UseAuthNone => s.none
  | .UseAuthAutoPubKey => s.autoPubKey
  | .UseAuthPassword => s.password
  | .UseAuthInteractive => s.interactive

/-- The operator `flags |= flag`. -/
def set (s : UseAuths) : UseAuthFlag → UseAuths
  | .UseAuthEmpty => s
  | .UseAuthNone => { s with none := true }
  | .UseAuthAutoPubKey => { s with autoPubKey := true }
  | .UseAuthPassword => { s with password := true }
  | .UseAuthInteractive => { s with interactive := true }

/-- The operator `flags &= ~flag`. -/
def clear (s : UseAuths) : UseAuthFlag → UseAuths
  | .UseAuthEmpty => s
  | .UseAuthNone => { s with none := false }
  | .UseAuthAutoPubKey => { s with autoPubKey := false }
  | .UseAuthPassword => { s with password := false }
  | .UseAuthInteractive => { s with interactive := false }

end UseAuths

/-- The libssh options the session sets through `LIBSSHQT_SET_OPT`. -/
inductive SshOption where
  | SSH_OPTIONS_USER
  | SSH_OPTIONS_HOST
  | SSH_OPTIONS_PORT
  | SSH_OPTIONS_LOG_VERBOSITY
  deriving DecidableEq, Repr

/-- What a session does that is visible from outside: the Qt signals it
emits, the libssh calls that change the library session, and the critical
diagnostics it prints. -/
inductive ClientEffect where
  | closed
  | unknownHost
  | chooseAuth
  | authFailed
  | opened
  | error
  | doCleanup
  | doProcessState
  | ssh_options_set (opt : SshOption)
  | ssh_disconnect
  | critical
  deriving DecidableEq, Repr

/-- The member variables of `LibsshQtClient`.  A socket notifier is `none`
while the pointer is null and `some enabled` once created; `timer_` is true
while the zero-delay single-shot timer is armed. -/
structure LibsshQtClient where
  state_ : StateFlag
  process_state_running_ : Bool
  enable_writable_nofifier_ : Bool
  username_ : String
  hostname_ : String
  port_ : Nat
  password_ : String
  read_notifier_ : Option Bool
  write_notifier_ : Option Bool
  unknown_host_type_ : HostFlag
  use_auths_ : UseAuths
  failed_auths_ : UseAuths
  succeeded_auth_ : UseAuthFlag
  timer_ : Bool
  log : List ClientEffect
  deriving DecidableEq, Repr

/-- Qt's `QString::toLower()` on the ASCII letters, which is all the
comparison with "ssh" in `setUrl` can see: no character outside ASCII
lower-cases to `s` or `h`. -/
def QString.toLower (s : String) : String :=
  ⟨s.data.map Char.toLower⟩

/-- The parts of a `QUrl` that `setUrl` reads: `scheme()`, `port()` (which is
-1 when the URL has no port), `host()` and `userName()`. -/
structure QUrl where
  scheme : String
  port : Int
  host : String
  userName : String
  deriving DecidableEq, Repr

namespace LibsshQtClient

/-- The constructor: a closed session on port 22 with no auth method
requested or failed.  The libssh calls of the constructor (`ssh_new`,
`ssh_set_blocking`, the verbosity option) are not logged. -/
def new : LibsshQtClient :=
  { state_ := .StateClosed
    process_state_running_ := false
    enable_writable_nofifier_ := false
    username_ := ""
    hostname_ := ""
    port_ := 22
    password_ := ""
    read_notifier_ := none
    write_notifier_ := none
    unknown_host_type_ := .HostKnown
    use_auths_ := UseAuths.empty
    failed_auths_ := UseAuths.empty
    succeeded_auth_ := .UseAuthEmpty
    timer_ := false
    log := [] }

/-- Append one effect to the log. -/
def emit (c : LibsshQtClient) (e : ClientEffect) : LibsshQtClient :=
  { c with log := c.log ++ [e] }

/-- The call `timer_.start()`. -/
def timerStart (c : LibsshQtClient) : LibsshQtClient :=
  { c with timer_ := true }

/-- The macro `LIBSSHQT_SET_OPT`: a critical diagnostic when the state is not
`StateClosed`, then `ssh_options_set` all the same, and a second diagnostic
when that call returns non-zero (`rc`). -/
def LIBSSHQT_SET_OPT (c : LibsshQtClient) (opt : SshOption) (rc : Int) : LibsshQtClient :=
  let c := if c.state_ ≠ .StateClosed then c.emit .critical else c
  let c := c.emit (.ssh_options_set opt)
  if rc ≠ 0 then c.emit .critical else c

/-- The setter `setUsername`. -/
def setUsername (c : LibsshQtClient) (username : String) (rc : Int) : LibsshQtClient :=
  LIBSSHQT_SET_OPT { c with username_ := username } .SSH_OPTIONS_USER rc

/-- The setter `setHostname`. -/
def setHostname (c : LibsshQtClient) (hostname : String) (rc : Int) : LibsshQtClient :=
  LIBSSHQT_SET_OPT { c with hostname_ := hostname } .SSH_OPTIONS_HOST rc

/-- The setter `setPort`; the argument is the value before its conversion to
`quint16`. -/
def setPort (c : LibsshQtClient) (port : Int) (rc : Int) : LibsshQtClient :=
  LIBSSHQT_SET_OPT { c with port_ := (port % 65536).toNat } .SSH_OPTIONS_PORT rc

/-- The getter `username`. -/
def username (c : LibsshQtClient) : String := c.username_

/-- The getter `hostname`. -/
def hostname (c : LibsshQtClient) : String := c.hostname_

/-- The getter `port`. -/
def port (c : LibsshQtClient) : Nat := c.port_

/-- The function `setUrl`; `rcPort`, `rcHost` and `rcUser` are the results of
the three `ssh_options_set` calls. -/
def setUrl (c : LibsshQtClient) (url : QUrl) (rcPort rcHost rcUser : Int) : LibsshQtClient :=
  if QString.toLower url.scheme = "ssh" then
    let c := if url.port > -1 then c.setPort url.port rcPort else c.setPort 22 rcPort
    let c := c.setHostname url.host rcHost
    c.setUsername url.userName rcUser
  else
    c.emit .critical

/-- The query `isOpen`. -/
def isOpen (c : LibsshQtClient) : Bool := c.state_ = .StateOpened

/-- The function `setState`: nothing when the state is already `state`,
otherwise the state changes and the signal of the new state is emitted. -/
def setState (c : LibsshQtClient) (state : StateFlag) : LibsshQtClient :=
  if c.state_ = state then c
  else
    let c := { c with state_ := state }
    match state with
    | .StateClosed => c.emit .closed
    | .StateClosing => c
    | .StateConnecting => c
    | .StateIsKnown => c
    | .StateUnknownHost => c.emit .unknownHost
    | .StateAuthChoose => c.emit .chooseAuth
    | .StateAuthContinue => c
    | .StateAuthNone => c
    | .StateAuthAutoPubkey => c
    | .StateAuthPassword => c
    | .StateAuthInteractive => c
    | .StateAuthFailed => c.emit .authFailed
    | .StateOpened => c.emit .opened
    | .StateError => c.emit .error

/-- The overload `connectToHost()`. -/
def connectToHost (c : LibsshQtClient) : LibsshQtClient :=
  if c.state_ = .StateClosed then (c.setState .StateConnecting).timerStart else c

/-- The overload `connectToHost(hostName)`. -/
def connectToHostName (c : LibsshQtClient) (hostName : String) (rcHost rcPort : Int) :
    LibsshQtClient :=
  if c.state_ = .StateClosed then
    ((c.setHostname hostName rcHost).setPort 22 rcPort).connectToHost
  else c

/-- The overload `connectToHost(hostName, port)`; `port` is an
`unsigned int`. -/
def connectToHostPort (c : LibsshQtClient) (hostName : String) (port : Nat)
    (rcHost rcPort : Int) : LibsshQtClient :=
  if c.state_ = .StateClosed then
    ((c.setHostname hostName rcHost).setPort (port % 4294967296) rcPort).connectToHost
  else c

/-- The function `disconnectFromHost`. -/
def disconnectFromHost (c : LibsshQtClient) : LibsshQtClient :=
  if c.state_ ≠ .StateClosed ∧ c.state_ ≠ .StateClosing then
    let c := c.setState .StateClosing
    let c := c.emit .doCleanup
    let c := { c with read_notifier_ := none }
    let c := { c with write_notifier_ := none }
    let c := c.emit .ssh_disconnect
    c.setState .StateClosed
  else c

/-- The function `enableDisableAuth`. -/
def enableDisableAuth (c : LibsshQtClient) (enabled : Bool) (auth : UseAuthFlag) :
    LibsshQtClient :=
  if enabled then
    let c := { c with use_auths_ := c.use_auths_.set auth }
    if c.state_ = .StateAuthChoose ∨ c.state_ = .StateAuthFailed then
      (c.setState .StateAuthContinue).timerStart
    else c
  else
    { c with use_auths_ := c.use_auths_.clear auth }

/-- The function `useNoneAuth`. -/
def useNoneAuth (c : LibsshQtClient) (enabled : Bool) : LibsshQtClient :=
  c.enableDisableAuth enabled .UseAuthNone

/-- The function `useAutoKeyAuth`. -/
def useAutoKeyAuth (c : LibsshQtClient) (enabled : Bool) : LibsshQtClient :=
  c.enableDisableAuth enabled .UseAuthAutoPubKey

/-- The function `usePasswordAuth`. -/
def usePasswordAuth (c : LibsshQtClient) (enabled : Bool) (password : String) :
    LibsshQtClient :=
  { c.enableDisableAuth enabled .UseAuthPassword with password_ := password }

/-- The function `useInteractiveAuth`. -/
def useInteractiveAuth (c : LibsshQtClient) (enabled : Bool) : LibsshQtClient :=
  c.enableDisableAuth enabled .UseAuthInteractive

/-- The getter `failedAuths`. -/
def failedAuths (c : LibsshQtClient) : UseAuths := c.failed_auths_

/-- The getter `unknownHostType`. -/
def unknownHostType (c : LibsshQtClient) : HostFlag := c.unknown_host_type_

/-- The getter `state`. -/
def state (c : LibsshQtClient) : StateFlag := c.state_

/-- The function `enableWritableNotifier`. -/
def enableWritableNotifier (c : LibsshQtClient) : LibsshQtClient :=
  if c.process_state_running_ then
    { c with enable_writable_nofifier_ := true }
  else
    match c.write_notifier_ with
    | some _ => { c with write_notifier_ := some true }
    | none => c

/-- The function `tryNextAuth`: first the method of the current auth state is
recorded as failed, then the next state is chosen. -/
def tryNextAuth (c : LibsshQtClient) : LibsshQtClient :=
  let c :=
    match c.state_ with
    | .StateAuthNone => { c with failed_auths_ := c.failed_auths_.set .UseAuthNone }
    | .StateAuthAutoPubkey => { c with failed_auths_ := c.failed_auths_.set .UseAuthAutoPubKey }
    | .StateAuthPassword => { c with failed_auths_ := c.failed_auths_.set .UseAuthPassword }
    | .StateAuthInteractive => { c with failed_auths_ := c.failed_auths_.set .UseAuthInteractive }
    | _ => c
  if c.use_auths_ = UseAuths.empty ∧ c.failed_auths_ = UseAuths.empty then
    c.setState .StateAuthChoose
  else if c.use_auths_ = UseAuths.empty then
    c.setState .StateAuthFailed
  else if c.use_auths_.test .UseAuthNone then
    let c := { c with use_auths_ := c.use_auths_.clear .UseAuthNone }
    (c.setState .StateAuthNone).timerStart
  else if c.use_auths_.test .UseAuthAutoPubKey then
    let c := { c with use_auths_ := c.use_auths_.clear .UseAuthAutoPubKey }
    (c.setState .StateAuthAutoPubkey).timerStart
  else if c.use_auths_.test .UseAuthPassword then
    let c := { c with use_auths_ := c.use_auths_.clear .UseAuthPassword }
    (c.setState .StateAuthPassword).timerStart
  else if c.use_auths_.test .UseAuthInteractive then
    let c := { c with use_auths_ := c.use_auths_.clear .UseAuthInteractive }
    (c.setState .StateAuthInteractive).timerStart
  else c

/-- The function `setUpNotifiers`: each missing notifier is created
enabled. -/
def setUpNotifiers (c : LibsshQtClient) : LibsshQtClient :=
  let c := if c.read_notifier_ = none then { c with read_notifier_ := some true } else c
  if c.write_notifier_ = none then { c with write_notifier_ := some true } else c

/-- The function `handleAuthResponse`. -/
def handleAuthResponse (c : LibsshQtClient) (rc : Int) (auth : UseAuthFlag) : LibsshQtClient :=
  if rc = SSH_AUTH_AGAIN then c.enableWritableNotifier
  else if rc = SSH_AUTH_ERROR then c.setState .StateError
  else if rc = SSH_AUTH_DENIED then c.tryNextAuth
  else if rc = SSH_AUTH_PARTIAL then c.tryNextAuth
  else if rc = SSH_AUTH_SUCCESS then
    (({ c with succeeded_auth_ := auth }).setState .StateOpened).timerStart
  else c.emit .critical

/-- The function `processState`; `rc` is the result of the one libssh call
the current state makes (`ssh_connect`, `ssh_is_server_known` or
`ssh_userauth_*`), and is not looked at in the states that make none. -/
def processState (c : LibsshQtClient) (rc : Int) : LibsshQtClient :=
  match c.state_ with
  | .StateClosed => c
  | .StateClosing => c
  | .StateUnknownHost => c
  | .StateAuthChoose => c
  | .StateAuthFailed => c
  | .StateError => c
  | .StateConnecting =>
    let c :=
      if rc ≠ SSH_ERROR ∧ (c.read_notifier_ = none ∨ c.write_notifier_ = none) then
        c.setUpNotifiers
      else c
    if rc = SSH_AGAIN then c.enableWritableNotifier
    else if rc = SSH_ERROR then c.setState .StateError
    else if rc = SSH_OK then (c.setState .StateIsKnown).timerStart
    else c.emit .critical
  | .StateIsKnown =>
    if rc = SSH_SERVER_ERROR then c.setState .StateError
    else if rc = SSH_SERVER_NOT_KNOWN ∨ rc = SSH_SERVER_KNOWN_CHANGED ∨
        rc = SSH_SERVER_FOUND_OTHER ∨ rc = SSH_SERVER_FILE_NOT_FOUND then
      ({ c with unknown_host_type_ := HostFlag.ofInt rc }).setState .StateUnknownHost
    else if rc = SSH_SERVER_KNOWN_OK then
      ({ c with unknown_host_type_ := .HostKnown }).tryNextAuth
    else c.emit .critical
  | .StateAuthContinue => c.tryNextAuth
  | .StateAuthNone => c.handleAuthResponse rc .UseAuthNone
  | .StateAuthAutoPubkey => c.handleAuthResponse rc .UseAuthAutoPubKey
  | .StateAuthPassword => c.handleAuthResponse rc .UseAuthPassword
  | .StateAuthInteractive => c
  | .StateOpened => c.emit .doProcessState

/-- The function `processStateGuard`, the slot of the timer and of both
socket notifiers.  After the step the source calls
`write_notifier_->setEnabled(true)` whenever `enable_writable_nofifier_` is
set, without testing the pointer: the result is `none` when the pointer is
null there, which stands for the null dereference. -/
def processStateGuard (c : LibsshQtClient) (rc : Int) : Option LibsshQtClient :=
  if c.process_state_running_ then some c
  else
    let c := { c with process_state_running_ := true }
    let c := c.processState rc
    let c := { c with process_state_running_ := false }
    if c.enable_writable_nofifier_ then
      match c.write_notifier_ with
      | some _ => some { c with write_notifier_ := some true }
      | none => none
    else some c

/-- The slot `handleSocketReadable`; `none` stands for the dereference of a
null `read_notifier_`, or for a failed `processStateGuard`. -/
def handleSocketReadable (c : LibsshQtClient) (rc : Int) : Option LibsshQtClient :=
  match c.read_notifier_ with
  | none => none
  | some _ =>
    let c := { c with read_notifier_ := some false }
    match c.processStateGuard rc with
    | none => none
    | some c =>
      match c.read_notifier_ with
      | none => none
      | some _ => some { c with read_notifier_ := some true }

/-- The slot `handleSocketWritable`; `none` stands for the dereference of a
null `write_notifier_`, or for a failed `processStateGuard`. -/
def handleSocketWritable (c : LibsshQtClient) (rc : Int) : Option LibsshQtClient :=
  let c := { c with enable_writable_nofifier_ := false }
  match c.write_notifier_ with
  | none => none
  | some _ => ({ c with write_notifier_ := some false }).processStateGuard rc

end LibsshQtClient

/-! ## LibsshQtChannel: data model -/

/-- End-of-stream marker of a channel, `LibsshQtChannel::EofState`. -/
inductive EofState where
  | EofNotSent
  | EofQueued
  | EofSent
  deriving DecidableEq, Repr

/-- Output handling policy of a process stream,
`LibsshQtProcess::OutputBehaviourFlag`. -/
inductive OutputBehaviourFlag where
  | OutputManual
  | OutputToQDebug
  | OutputToDevNull
  deriving DecidableEq, Repr

/-- What a channel or process does that is visible from outside, in program
order: requests to the session, libssh calls, Qt signals, diagnostics and the
lines printed by the output handlers. -/
inductive ChannelEffect where
  | enableWritableNotifier
  | ssh_channel_read_nonblocking (count : Int) (is_stderr : Bool)
  | ssh_channel_write (data : List UInt8)
  | ssh_channel_send_eof
  | ssh_channel_close
  | ssh_channel_free
  | ssh_channel_new
  | ssh_channel_open_session
  | ssh_channel_request_exec (command : String)
  | ssh_channel_get_exit_status
  | queueCheckIo
  | readyRead
  | bytesWritten (bytes : Int)
  | stderrReadyRead
  | readChannelFinished
  | closed
  | opened
  | error
  | finished (exit_code : Int)
  | qDebugLine (line : List UInt8)
  | qDebugPrefixed (pre : String) (line : List UInt8)
  | critical
  | fatal
  deriving DecidableEq, Repr

/-- The member variables of `LibsshQtChannel`.  `channel_` is true while the
handle pointer is non-null, `device_open_` while the `QIODevice` is open. -/
structure LibsshQtChannel where
  channel_ : Bool
  device_open_ : Bool
  eof_state_ : EofState
  buffer_size_ : Int
  write_size_ : Int
  read_buffer_ : List UInt8
  write_buffer_ : List UInt8
  log : List ChannelEffect
  deriving DecidableEq, Repr

/-- What `ssh_channel_read_nonblocking` leaves behind: the bytes it stored in
the caller's array and the count it returned. -/
structure ReadResult where
  data : List UInt8
  ret : Int
  deriving DecidableEq, Repr

/-- The behaviour of the channel handle during one `checkIo`: the result of
`ssh_channel_poll(channel_, false)`, of `ssh_channel_read_nonblocking` as a
function of the requested count, and of `ssh_channel_write` as a function of
the bytes offered. -/
structure ChannelIo where
  poll : Int
  read : Int → ReadResult
  write : List UInt8 → Int

/-- The local array `char data[count]` after a read stored `data` in it: exactly
`count` cells, the cells the read did not fill shown as zero. -/
def readArray (count : Int) (data : List UInt8) : List UInt8 :=
  (data ++ List.replicate count.toNat 0).take count.toNat

/-- Qt's `QByteArray::append(const char *str, int len)`: a negative `len`
stands for the length up to the first zero byte, and nothing is appended when
`len` is zero. -/
def QByteArray.append (buf str : List UInt8) (len : Int) : List UInt8 :=
  if len < 0 then buf ++ str.takeWhile (fun b => b ≠ 0)
  else buf ++ str.take len.toNat

/-- Qt's `QByteArray::remove(0, len)`: nothing when `len` is not positive,
otherwise the first `len` bytes go (all of them when there are fewer). -/
def QByteArray.remove0 (buf : List UInt8) (len : Int) : List UInt8 :=
  if len ≤ 0 then buf else buf.drop len.toNat

namespace LibsshQtChannel

/-- The constructor: no handle, EOF not sent, both caps 16 KiB. -/
def new : LibsshQtChannel :=
  { channel_ := false
    device_open_ := false
    eof_state_ := .EofNotSent
    buffer_size_ := 1024 * 16
    write_size_ := 1024 * 16
    read_buffer_ := []
    write_buffer_ := []
    log := [] }

/-- Append one effect to the log. -/
def emit (ch : LibsshQtChannel) (e : ChannelEffect) : LibsshQtChannel :=
  { ch with log := ch.log ++ [e] }

/-- The function `setWriteSize` with the assertion compiled out; the test
reads the member `write_size_`, not the argument. -/
def setWriteSize (ch : LibsshQtChannel) (write_size : Int) : LibsshQtChannel :=
  if ch.write_size_ ≥ 4096 then { ch with write_size_ := write_size }
  else { ch with write_size_ := 4096 }

/-- The function `setReadBufferSize` with the assertion compiled out. -/
def setReadBufferSize (ch : LibsshQtChannel) (buffer_size : Int) : LibsshQtChannel :=
  if buffer_size ≥ 4096 then { ch with buffer_size_ := buffer_size }
  else { ch with buffer_size_ := 4096 }

/-- The getter `getBufferSize`. -/
def getBufferSize (ch : LibsshQtChannel) : Int := ch.buffer_size_

/-- The getter `getWriteSize`. -/
def getWriteSize (ch : LibsshQtChannel) : Int := ch.write_size_

/-- The function `sendEof`. -/
def sendEof (ch : LibsshQtChannel) : LibsshQtChannel :=
  if ch.eof_state_ = .EofNotSent then { ch with eof_state_ := .EofQueued } else ch

/-- The getter `eofState`. -/
def eofState (ch : LibsshQtChannel) : EofState := ch.eof_state_

/-- The function `bytesAvailable`; the base class has nothing buffered
because the device is opened `Unbuffered`. -/
def bytesAvailable (ch : LibsshQtChannel) : Int := ch.read_buffer_.length

/-- The function `bytesToWrite`. -/
def bytesToWrite (ch : LibsshQtChannel) : Int := ch.write_buffer_.length

/-- Qt's `QIODevice::atEnd()`: true when the device is not open, or when no
bytes are available. -/
def atEnd (ch : LibsshQtChannel) : Bool :=
  !ch.device_open_ || ch.bytesAvailable == 0

/-- The function `canReadLine`; the base class call is false because the
device is opened `Unbuffered`. -/
def canReadLine (ch : LibsshQtChannel) : Bool :=
  false || ch.read_buffer_.contains 10 ||
    decide (ch.buffer_size_ ≤ ch.read_buffer_.length) ||
    (ch.device_open_ == false && ch.atEnd == false)

/-- The function `open`. -/
def «open» (ch : LibsshQtChannel) : LibsshQtChannel :=
  { ch with device_open_ := true }

/-- The function `close`; `is_open` is the result of `ssh_channel_is_open`. -/
def close (ch : LibsshQtChannel) (is_open : Int) : LibsshQtChannel :=
  if ch.channel_ then
    let ch := if is_open ≠ 0 then ch.emit .ssh_channel_close else ch
    let ch := ch.emit .ssh_channel_free
    { ch with channel_ := false, device_open_ := false }
  else ch

/-- What `checkIo` has decided by the time it reaches its `emit`
statements. -/
structure Transfer where
  ch : LibsshQtChannel
  emit_ready_read : Bool
  emit_bytes_written : Bool
  written : Int

/-- The read half of `checkIo` (poll, cap, read, append), for a channel whose
handle is non-null. -/
def checkIoRead (ch : LibsshQtChannel) (io : ChannelIo) : LibsshQtChannel × Bool :=
  let read_available := io.poll
  if read_available > 0 then
    let max_read := ch.buffer_size_ - ch.read_buffer_.length
    let read_available := if read_available > max_read then max_read else read_available
    if read_available > 0 then
      let r := io.read read_available
      let data := readArray read_available r.data ++ [0]
      let read_size := r.ret
      let ch := ch.emit (.ssh_channel_read_nonblocking read_available false)
      let ch := { ch with read_buffer_ := QByteArray.append ch.read_buffer_ data read_size }
      (ch, decide (read_size > 0))
    else (ch, false)
  else (ch, false)

/-- The write half of `checkIo` (cap, write, remove from the front, ask for
the writable notification, send a queued EOF), for a channel whose handle is
non-null. -/
def checkIoWrite (ch : LibsshQtChannel) (io : ChannelIo) : LibsshQtChannel × Bool × Int :=
  let writable : Int := ch.write_buffer_.length
  let writable := if writable > ch.write_size_ then ch.write_size_ else writable
  let (ch, emit_bytes_written, written) :=
    if writable > 0 then
      let chunk := ch.write_buffer_.take writable.toNat
      let written := io.write chunk
      let ch := ch.emit (.ssh_channel_write chunk)
      let ch := { ch with write_buffer_ := QByteArray.remove0 ch.write_buffer_ written }
      (ch, decide (written > 0), written)
    else (ch, false, 0)
  let ch := if ch.write_buffer_.length > 0 then ch.emit .enableWritableNotifier else ch
  let ch :=
    if ch.eof_state_ = .EofQueued ∧ ch.write_buffer_.length = 0 then
      { ch.emit .ssh_channel_send_eof with eof_state_ := .EofSent }
    else ch
  (ch, emit_bytes_written, written)

/-- The function `checkIo` up to its `emit` statements, for a channel whose
handle is non-null. -/
def checkIoTransfer (ch : LibsshQtChannel) (io : ChannelIo) : Transfer :=
  let (ch, emit_ready_read) := ch.checkIoRead io
  let (ch, emit_bytes_written, written) := ch.checkIoWrite io
  ⟨ch, emit_ready_read, emit_bytes_written, written⟩

/-- The function `checkIo` of a channel with no slot connected to its
signals. -/
def checkIo (ch : LibsshQtChannel) (io : ChannelIo) : LibsshQtChannel :=
  if !ch.channel_ then ch
  else
    let t := ch.checkIoTransfer io
    let ch := if t.emit_ready_read then t.ch.emit .readyRead else t.ch
    if t.emit_bytes_written then ch.emit (.bytesWritten t.written) else ch

/-- The function `readData`: the bytes copied out and the channel left
behind.  `queueCheckIo` is virtual and is recorded as a request. -/
def readData (ch : LibsshQtChannel) (maxlen : Int) : LibsshQtChannel × List UInt8 :=
  let ch := ch.emit .queueCheckIo
  let data_size : Int := ch.read_buffer_.length
  let copy_len := if maxlen > data_size then data_size else maxlen
  ({ ch with read_buffer_ := QByteArray.remove0 ch.read_buffer_ copy_len },
    ch.read_buffer_.take copy_len.toNat)

/-- The function `writeData`; `len` is the length of `data`.  The result is
the channel left behind and the returned count. -/
def writeData (ch : LibsshQtChannel) (data : List UInt8) : LibsshQtChannel × Int :=
  if ch.eof_state_ = .EofNotSent then
    let ch := ch.emit .enableWritableNotifier
    ({ ch with write_buffer_ := QByteArray.append ch.write_buffer_ data data.length },
      data.length)
  else
    (ch.emit .critical, 0)

end LibsshQtChannel

/-! ## LibsshQtProcess: data model -/

/-- Process states, `LibsshQtProcess::StateFlag`, in the order of the
`switch` of `LibsshQtProcess::setState`. -/
inductive ProcessStateFlag where
  | StateClosed
  | StateClosing
  | StateWaitClient
  | StateOpening
  | StateExec
  | StateOpen
  | StateError
  | StateClientError
  deriving DecidableEq, Repr

/-- The member variables of `LibsshQtProcess` on top of those of its base
class `LibsshQtChannel`.  The stderr device `stderr_` is its buffer
`stderr_buffer_` and its open flag `stderr_open_`. -/
structure LibsshQtProcess extends LibsshQtChannel where
  state_ : ProcessStateFlag
  exit_code_ : Int
  command_ : String
  stderr_buffer_ : List UInt8
  stderr_open_ : Bool
  stdout_behaviour_ : OutputBehaviourFlag
  stderr_behaviour_ : OutputBehaviourFlag
  stdout_output_prefix_ : String
  stderr_output_prefix_ : String
  timer_ : Bool
  deriving DecidableEq, Repr

/-- The behaviour of the session and of the channel handle during one
`LibsshQtProcess::processState` step: the session state, whether
`ssh_channel_new` returns a handle, the result `rc` of
`ssh_channel_open_session` or `ssh_channel_request_exec`, the primary stream
and stderr polls and reads made by `checkIo`, the two polls made after
`checkIo`, and the results of `ssh_channel_get_exit_status` and
`ssh_channel_is_open`. -/
structure ProcessIo where
  client_state : StateFlag
  channel_new_ok : Bool
  rc : Int
  io : ChannelIo
  poll_stderr : Int
  read_stderr : Int → ReadResult
  eof_poll_stdout : Int
  eof_poll_stderr : Int
  exit_status : Int
  channel_is_open : Int

/-- Qt's `QIODevice::readLine()` on a buffer served by `readData`: the bytes
up to and including the first newline, or all of them when there is none, and
the bytes left. -/
def readLineSplit (buf : List UInt8) : List UInt8 × List UInt8 :=
  match buf.indexOf? 10 with
  | some i => (buf.take (i + 1), buf.drop (i + 1))
  | none => (buf, [])

/-- The function `handleOutput`: the effects of one line under a policy. -/
def handleOutput (behaviour : OutputBehaviourFlag) (pre : String) (line : List UInt8) :
    List ChannelEffect :=
  match behaviour with
  | .OutputManual => []
  | .OutputToDevNull => []
  | .OutputToQDebug =>
    let line := if line.getLast? = some 10 then line.dropLast else line
    if pre.isEmpty then [.qDebugLine line] else [.qDebugPrefixed pre line]

namespace LibsshQtProcess

/-- The constructor: closed, exit code -1, both streams printed through
`qDebug` with their prefixes. -/
def new : LibsshQtProcess :=
  { LibsshQtChannel.new with
    state_ := .StateClosed
    exit_code_ := -1
    command_ := ""
    stderr_buffer_ := []
    stderr_open_ := false
    stdout_behaviour_ := .OutputToQDebug
    stderr_behaviour_ := .OutputToQDebug
    stdout_output_prefix_ := "Remote stdout:"
    stderr_output_prefix_ := "Remote stderr:"
    timer_ := false }

/-- Append one effect to the log. -/
def emit (p : LibsshQtProcess) (e : ChannelEffect) : LibsshQtProcess :=
  { p with log := p.log ++ [e] }

/-- The function `queueCheckIo`. -/
def queueCheckIo (p : LibsshQtProcess) : LibsshQtProcess :=
  { p with timer_ := true }

/-- The function `setCommand`. -/
def setCommand (p : LibsshQtProcess) (command : String) : LibsshQtProcess :=
  { p with command_ := command }

/-- The getter `exitCode`. -/
def exitCode (p : LibsshQtProcess) : Int := p.exit_code_

/-- The getter `state`. -/
def state (p : LibsshQtProcess) : ProcessStateFlag := p.state_

/-- The function `LibsshQtProcess::setState`. -/
def setState (p : LibsshQtProcess) (state : ProcessStateFlag) : LibsshQtProcess :=
  if p.state_ = state then p
  else
    let p := { p with state_ := state }
    match state with
    | .StateClosed => p.emit .closed
    | .StateClosing => p
    | .StateWaitClient => p
    | .StateOpening => p
    | .StateExec => p
    | .StateOpen => p.emit .opened
    | .StateError => p.emit .error
    | .StateClientError => p.emit .error

/-- The function `LibsshQtProcessStderr::canReadLine`; Qt's `atEnd()` is
true on a device that is not open. -/
def stderrCanReadLine (p : LibsshQtProcess) : Bool :=
  false || p.stderr_buffer_.contains 10 ||
    decide (p.buffer_size_ ≤ p.stderr_buffer_.length) ||
    (p.stderr_open_ == false && (!p.stderr_open_ || p.stderr_buffer_.length == 0) == false)

/-- The loop of `handleStdoutOutput`: while `canReadLine()`, one line is read
(through `readData`, which calls `queueCheckIo`, here the timer) and handed
to `handleOutput`.  `readLine()` is modelled on a readable device.  Every pass
over a non-empty buffer consumes a byte, so `fuel` at least the buffer length
plus one covers the loop. -/
def stdoutLoop : Nat → LibsshQtProcess → LibsshQtProcess
  | 0, p => p
  | fuel + 1, p =>
    if p.canReadLine then
      let (line, rest) := readLineSplit p.read_buffer_
      let p := p.queueCheckIo
      let p := { p with read_buffer_ := rest }
      let p := { p with log := p.log ++ handleOutput p.stdout_behaviour_ p.stdout_output_prefix_ line }
      stdoutLoop fuel p
    else p

/-- The function `handleStdoutOutput`. -/
def handleStdoutOutput (p : LibsshQtProcess) : LibsshQtProcess :=
  if p.stdout_behaviour_ = .OutputManual then p
  else stdoutLoop (p.read_buffer_.length + 1) p

/-- The loop of `handleStderrOutput`, as `stdoutLoop` on the stderr
device. -/
def stderrLoop : Nat → LibsshQtProcess → LibsshQtProcess
  | 0, p => p
  | fuel + 1, p =>
    if p.stderrCanReadLine then
      let (line, rest) := readLineSplit p.stderr_buffer_
      let p := p.queueCheckIo
      let p := { p with stderr_buffer_ := rest }
      let p := { p with log := p.log ++ handleOutput p.stderr_behaviour_ p.stderr_output_prefix_ line }
      stderrLoop fuel p
    else p

/-- The function `handleStderrOutput`. -/
def handleStderrOutput (p : LibsshQtProcess) : LibsshQtProcess :=
  if p.stderr_behaviour_ = .OutputManual then p
  else stderrLoop (p.stderr_buffer_.length + 1) p

/-- The function `setStdoutBehaviour`; the slot `handleStdoutOutput` stays
connected to `readyRead` exactly while the policy is not `OutputManual`. -/
def setStdoutBehaviour (p : LibsshQtProcess) (behaviour : OutputBehaviourFlag) (pre : String) :
    LibsshQtProcess :=
  let p := { p with stdout_behaviour_ := behaviour, stdout_output_prefix_ := pre }
  if behaviour = .OutputManual then p else p.handleStdoutOutput

/-- The function `setStderrBehaviour`. -/
def setStderrBehaviour (p : LibsshQtProcess) (behaviour : OutputBehaviourFlag) (pre : String) :
    LibsshQtProcess :=
  let p := { p with stderr_behaviour_ := behaviour, stderr_output_prefix_ := pre }
  if behaviour = .OutputManual then p else p.handleStderrOutput

/-- The function `openChannel`. -/
def openChannel (p : LibsshQtProcess) : LibsshQtProcess :=
  if p.state_ = .StateClosed then
    let p := p.setState .StateWaitClient
    { p with timer_ := true }
  else p

/-- The function `closeChannel`; `is_open` is the result of
`ssh_channel_is_open` asked by `close()`. -/
def closeChannel (p : LibsshQtProcess) (is_open : Int) : LibsshQtProcess :=
  if p.state_ ≠ .StateClosed ∧ p.state_ ≠ .StateClosing then
    let p := p.setState .StateClosing
    let p := p.emit .readChannelFinished
    let p := p.handleStdoutOutput
    let p := p.handleStderrOutput
    let p := { p with toLibsshQtChannel := p.toLibsshQtChannel.close is_open }
    let p := { p with stderr_open_ := false }
    p.setState .StateClosed
  else p

/-- The function `handleClientError`. -/
def handleClientError (p : LibsshQtProcess) : LibsshQtProcess :=
  p.setState .StateClientError

/-- The stderr half of `LibsshQtProcess::checkIo`: the whole array of
`read_size` cells is appended, whatever count the read returned. -/
def checkIoStderr (p : LibsshQtProcess) (pio : ProcessIo) : LibsshQtProcess :=
  let read_size := pio.poll_stderr
  if read_size > 0 then
    let max_read := p.buffer_size_ - p.stderr_buffer_.length
    let read_size := if read_size > max_read then max_read else read_size
    if read_size > 0 then
      let r := pio.read_stderr read_size
      let data := readArray read_size r.data
      let read := r.ret
      let p := p.emit (.ssh_channel_read_nonblocking read_size true)
      let p := { p with stderr_buffer_ := QByteArray.append p.stderr_buffer_ data read_size }
      if read > 0 then (p.emit .stderrReadyRead).handleStderrOutput else p
    else p
  else p

/-- The function `LibsshQtProcess::checkIo`: the base class `checkIo` with
the slot `handleStdoutOutput` run at `emit readyRead()`, then the stderr
half. -/
def checkIo (p : LibsshQtProcess) (pio : ProcessIo) : LibsshQtProcess :=
  if !p.channel_ then p
  else
    let t := p.toLibsshQtChannel.checkIoTransfer pio.io
    let p := { p with toLibsshQtChannel := t.ch }
    let p := if t.emit_ready_read then (p.emit .readyRead).handleStdoutOutput else p
    let p := if t.emit_bytes_written then p.emit (.bytesWritten t.written) else p
    if !p.channel_ then p else p.checkIoStderr pio

/-- The function `LibsshQtProcess::processState`.  A failed
`ssh_channel_new` is fatal: the effect is recorded and the step ends. -/
def processState (p : LibsshQtProcess) (pio : ProcessIo) : LibsshQtProcess :=
  match p.state_ with
  | .StateClosed => p
  | .StateClosing => p
  | .StateError => p
  | .StateClientError => p
  | .StateWaitClient =>
    if pio.client_state = .StateOpened then
      let p := p.setState .StateOpening
      { p with timer_ := true }
    else p
  | .StateOpening =>
    if !p.channel_ && !pio.channel_new_ok then (p.emit .ssh_channel_new).emit .fatal
    else
      let p := if !p.channel_ then { p.emit .ssh_channel_new with channel_ := true } else p
      let p := p.emit .ssh_channel_open_session
      if pio.rc = SSH_AGAIN then p.emit .enableWritableNotifier
      else if pio.rc = SSH_ERROR then p.setState .StateError
      else if pio.rc = SSH_OK then
        let p := p.setState .StateExec
        { p with timer_ := true }
      else p.emit .critical
  | .StateExec =>
    let p := p.emit (.ssh_channel_request_exec p.command_)
    if pio.rc = SSH_AGAIN then p.emit .enableWritableNotifier
    else if pio.rc = SSH_ERROR then p.setState .StateError
    else if pio.rc = SSH_OK then
      let p := { p with toLibsshQtChannel := p.toLibsshQtChannel.«open» }
      let p := { p with stderr_open_ := true }
      let p := p.setState .StateOpen
      { p with timer_ := true }
    else p.emit .critical
  | .StateOpen =>
    let p := p.checkIo pio
    if p.state_ = .StateOpen ∧ pio.eof_poll_stdout = SSH_EOF ∧ pio.eof_poll_stderr = SSH_EOF then
      let p := { p.emit .ssh_channel_get_exit_status with exit_code_ := pio.exit_status }
      let p := p.closeChannel pio.channel_is_open
      p.emit (.finished p.exit_code_)
    else p

end LibsshQtProcess

/-! ## Definitions used to state the properties of the session -/

/-- The method an auth state attempts, `UseAuthEmpty` for the other states. -/
def authMethodOfState : StateFlag → UseAuthFlag
  | .StateAuthNone => .UseAuthNone
  | .StateAuthAutoPubkey => .UseAuthAutoPubKey
  | .StateAuthPassword => .UseAuthPassword
  | .StateAuthInteractive => .UseAuthInteractive
  | _ => .UseAuthEmpty

/-- The methods dispatched by `n` successive calls of `tryNextAuth`, in call
order: a call dispatches when it leaves the session in an auth state. -/
def dispatchedAuths : Nat → LibsshQtClient → List UseAuthFlag
  | 0, _ => []
  | n + 1, c =>
    let c := c.tryNextAuth
    if authMethodOfState c.state_ = .UseAuthEmpty then dispatchedAuths n c
    else authMethodOfState c.state_ :: dispatchedAuths n c

/-- The fixed priority order of the auth methods. -/
def authPriority : List UseAuthFlag :=
  [.UseAuthNone, .UseAuthAutoPubKey, .UseAuthPassword, .UseAuthInteractive]

/-- The method `tryNextAuth` dispatches from a requested set: the first one in
priority order, `UseAuthEmpty` when the set is empty. -/
def UseAuths.first (u : UseAuths) : UseAuthFlag :=
  if u.none then .UseAuthNone
  else if u.autoPubKey then .UseAuthAutoPubKey
  else if u.password then .UseAuthPassword
  else if u.interactive then .UseAuthInteractive
  else .UseAuthEmpty

/-- One thing that can happen to the auth machinery during a connection
attempt: the caller enables or disables a method, or the session runs one
`processState` step in which the libssh call returns `rc`. -/
inductive AuthOp where
  | enable (m : UseAuthFlag)
  | disable (m : UseAuthFlag)
  | step (rc : Int)
  deriving DecidableEq, Repr

/-- The session after one `AuthOp`. -/
def applyAuthOp (c : LibsshQtClient) : AuthOp → LibsshQtClient
  | .enable m => c.enableDisableAuth true m
  | .disable m => c.enableDisableAuth false m
  | .step rc => c.processState rc

/-- What has happened to the auth methods since a connection attempt began:
the methods that were enabled at some point (those requested at the start
included), those the caller disabled at some point, and those whose auth state
the session entered. -/
structure AuthHistory where
  enabled : UseAuths
  disabled : UseAuths
  attempted : UseAuths
  deriving DecidableEq, Repr

/-- The history at the start of a connection attempt. -/
def AuthHistory.start (c : LibsshQtClient) : AuthHistory :=
  { enabled := c.use_auths_
    disabled := UseAuths.empty
    attempted := UseAuths.empty.set (authMethodOfState c.state_) }

/-- The history after `op` has left the session in `c`. -/
def AuthHistory.record (h : AuthHistory) (op : AuthOp) (c : LibsshQtClient) : AuthHistory :=
  { enabled := match op with
      | .enable m => h.enabled.set m
      | _ => h.enabled
    disabled := match op with
      | .disable m => h.disabled.set m
      | _ => h.disabled
    attempted := h.attempted.set (authMethodOfState c.state_) }

/-- A connection attempt: the operations applied in order, with the history
kept alongside. -/
def runAuthOps : List AuthOp → LibsshQtClient × AuthHistory → LibsshQtClient × AuthHistory
  | [], r => r
  | op :: ops, (c, h) =>
    let c1 := applyAuthOp c op
    runAuthOps ops (c1, h.record op c1)

/-- The statement about `failedAuths()` for one connection attempt that starts
in `c` and consists of `ops`: if it ends in `StateAuthFailed`, the failed
methods are exactly the attempted ones, every method enabled and never
disabled is among them, and all of them were enabled. -/
def FailedAuthsExact (c : LibsshQtClient) (ops : List AuthOp) : Prop :=
  let r := runAuthOps ops (c, AuthHistory.start c)
  r.1.state_ = .StateAuthFailed →
    (∀ m, r.1.failedAuths.test m = r.2.attempted.test m) ∧
    (∀ m, r.2.enabled.test m = true → r.2.disabled.test m = false →
      r.1.failedAuths.test m = true) ∧
    (∀ m, r.1.failedAuths.test m = true → r.2.enabled.test m = true)

/-- The invariant of a connection attempt that began with no failed method,
for one method: `isFailed` and `isDone` say that the state is
`StateAuthFailed`, respectively `StateError` or `StateOpened`; `cur` that the
state is the auth state of the method; the others that the method is
requested, failed, was enabled, was disabled, was attempted. -/
def authInvAt (isFailed isDone cur u f e d a : Bool) : Bool :=
  (!isFailed || !u) && (!u || e) && (!a || e) && (!f || a) &&
    (isDone || ((a == (f || cur)) && (!(e && !d) || u || a)))

/-- The invariant of a connection attempt that began with no failed
method. -/
def AuthInv (c : LibsshQtClient) (h : AuthHistory) : Prop :=
  ∀ m, authInvAt (decide (c.state_ = .StateAuthFailed))
    (decide (c.state_ = .StateError ∨ c.state_ = .StateOpened))
    (decide (authMethodOfState c.state_ = m ∧ m ≠ .UseAuthEmpty))
    (c.use_auths_.test m) (c.failed_auths_.test m)
    (h.enabled.test m) (h.disabled.test m) (h.attempted.test m) = true

/-- A session whose first connection attempt failed with the None method and
that has been disconnected and told to connect again. -/
def secondAttempt : LibsshQtClient :=
  (((((((LibsshQtClient.new.useNoneAuth true).connectToHost).processState SSH_OK).processState
    SSH_SERVER_KNOWN_OK).processState SSH_AUTH_DENIED).disconnectFromHost).connectToHost)

/-- A session that has None enabled and has just been told to connect for the
first time. -/
def firstAttempt : LibsshQtClient :=
  (LibsshQtClient.new.useNoneAuth true).connectToHost

/-! ## Definitions used to state the properties of channels and processes -/

/-- A session that was given the host name "a" while closed and has been told
to connect. -/
def connectingToA : LibsshQtClient :=
  (LibsshQtClient.new.setHostname "a" 0).connectToHost

/-- The channel after one `checkIo` per element of `ios`, in order. -/
def checkIoRun : List ChannelIo → LibsshQtChannel → LibsshQtChannel
  | [], ch => ch
  | io :: ios, ch => checkIoRun ios (ch.checkIo io)

/-- How often EOF has been sent to the handle according to a log. -/
def eofSentCount (log : List ChannelEffect) : Nat :=
  log.count .ssh_channel_send_eof

/-- The state of EOF sequencing after `sendEof` on a non-empty write buffer:
either EOF is still queued behind unwritten bytes and has not been sent since
the log held `sent` EOFs, or the buffer is empty and it has been sent once. -/
def EofDeferred (sent : Nat) (r : LibsshQtChannel) : Prop :=
  r.channel_ = true ∧
  ((r.write_buffer_ ≠ [] ∧ r.eof_state_ = .EofQueued ∧ eofSentCount r.log = sent) ∨
   (r.write_buffer_ = [] ∧ r.eof_state_ = .EofSent ∧ eofSentCount r.log = sent + 1))

/-- The handle behaviour in which nothing is readable and every write is
accepted whole. -/
def acceptAll : ChannelIo :=
  { poll := 0, read := fun _ => ⟨[], 0⟩, write := fun d => d.length }

/-- One channel operation of the consumer or the event loop. -/
inductive ChannelOp where
  | sendEof
  | writeData (data : List UInt8)
  | readData (maxlen : Int)
  | checkIo (io : ChannelIo)
  | close (is_open : Int)

/-- The channel after one `ChannelOp`. -/
def applyChannelOp (ch : LibsshQtChannel) : ChannelOp → LibsshQtChannel
  | .sendEof => ch.sendEof
  | .writeData data => (ch.writeData data).1
  | .readData maxlen => (ch.readData maxlen).1
  | .checkIo io => ch.checkIo io
  | .close is_open => ch.close is_open

/-- The EOF states a channel goes through under a sequence of operations,
the state it starts in left out. -/
def eofTrace : List ChannelOp → LibsshQtChannel → List EofState
  | [], _ => []
  | op :: ops, ch => (applyChannelOp ch op).eof_state_ :: eofTrace ops (applyChannelOp ch op)

/-- The position of an EOF state in the order NotSent, Queued, Sent. -/
def eofRank : EofState → Nat
  | .EofNotSent => 0
  | .EofQueued => 1
  | .EofSent => 2

/-- One move of the EOF state: never back, and at most one place forward. -/
def EofAdvance (a b : EofState) : Prop :=
  eofRank a ≤ eofRank b ∧ eofRank b ≤ eofRank a + 1

/-- The effects appended to a log `before` that has grown into `after`. -/
def effectsSince (before after : List ChannelEffect) : List ChannelEffect :=
  after.drop before.length

/-- The byte count the read cap allows `checkIo` to request: the smaller of
what the poll reports and what is left under `buffer_size_`. -/
def readCount (ch : LibsshQtChannel) (io : ChannelIo) : Int :=
  min io.poll (ch.buffer_size_ - ch.read_buffer_.length)

/-- The byte count `checkIo` may offer the handle: the smaller of the write
buffer size and `write_size_`. -/
def writeCount (ch : LibsshQtChannel) : Int :=
  min ch.write_buffer_.length ch.write_size_

/-- The chunks handed to `ssh_channel_write` according to a list of
effects. -/
def writesOf (effs : List ChannelEffect) : List (List UInt8) :=
  effs.filterMap (fun e => match e with
    | .ssh_channel_write d => some d
    | _ => none)

/-- The counts carried by the `bytesWritten` signals in a list of effects. -/
def bytesWrittenOf (effs : List ChannelEffect) : List Int :=
  effs.filterMap (fun e => match e with
    | .bytesWritten n => some n
    | _ => none)

/-- The counts and stream selectors of the `ssh_channel_read_nonblocking`
calls in a list of effects. -/
def readsOf (effs : List ChannelEffect) : List (Int × Bool) :=
  effs.filterMap (fun e => match e with
    | .ssh_channel_read_nonblocking n s => some (n, s)
    | _ => none)

/-- The bytes the handle accepted over a run of `checkIo` steps: of every
chunk handed to `ssh_channel_write`, the first `written` bytes, `written`
being what the handle returned for that chunk. -/
def acceptedBytes : List ChannelIo → LibsshQtChannel → List UInt8
  | [], _ => []
  | io :: ios, ch =>
    ((writesOf (effectsSince ch.log (ch.checkIo io).log)).map
        (fun d => d.take (io.write d).toNat)).flatten ++
      acceptedBytes ios (ch.checkIo io)

/-- The exit codes carried by the `finished` signals in a list of effects. -/
def finishedOf (effs : List ChannelEffect) : List Int :=
  effs.filterMap (fun e => match e with
    | .finished n => some n
    | _ => none)

/-- Whether an effect belongs to the end of a run: the exit status read or
the `finished` signal. -/
def isFinal : ChannelEffect → Bool
  | .finished _ => true
  | .ssh_channel_get_exit_status => true
  | _ => false

/-- A part of a step that leaves the process state and exit code alone and
neither reads the exit status nor emits `finished`. -/
def Quiet (p q : LibsshQtProcess) : Prop :=
  q.state_ = p.state_ ∧ q.exit_code_ = p.exit_code_ ∧
  ∃ X, q.log = p.log ++ X ∧ ∀ e ∈ X, isFinal e = false

/-- How often a list of effects reads the exit status from the handle. -/
def exitStatusReads (effs : List ChannelEffect) : Nat :=
  effs.count .ssh_channel_get_exit_status

/-- A process in `StateOpen` on an open handle with nothing buffered. -/
def openProcess : LibsshQtProcess :=
  { LibsshQtProcess.new with
    state_ := .StateOpen
    channel_ := true
    device_open_ := true
    stderr_open_ := true }

/-- A step in which nothing is readable or writable and both sub-streams
poll end-of-stream, the exit status being 0. -/
def remoteEof : ProcessIo :=
  { client_state := .StateOpened
    channel_new_ok := true
    rc := SSH_OK
    io := acceptAll
    poll_stderr := 0
    read_stderr := fun _ => ⟨[], 0⟩
    eof_poll_stdout := SSH_EOF
    eof_poll_stderr := SSH_EOF
    exit_status := 0
    channel_is_open := 1 }

/-- A fresh channel whose handle has been opened. -/
def idleChannel : LibsshQtChannel :=
  { LibsshQtChannel.new with channel_ := true }
/-! ## Definitions used to state the properties of the transition tables -/

/-- The notification the specification gives each session state on entry:
`closed`, `unknownHost`, `chooseAuth`, `authFailed`, `opened` and `error` for
the six states that have one, none for the others. -/
def stateNotification : StateFlag → Option ClientEffect
  | .StateClosed => some .closed
  | .StateUnknownHost => some .unknownHost
  | .StateAuthChoose => some .chooseAuth
  | .StateAuthFailed => some .authFailed
  | .StateOpened => some .opened
  | .StateError => some .error
  | _ => none

/-- The session as the connect step of `processState` leaves it before the
result code is looked at: the socket notifiers are set up unless the connect
failed or both exist already. -/
def afterConnectCall (c : LibsshQtClient) (rc : Int) : LibsshQtClient :=
  if rc ≠ SSH_ERROR ∧ (c.read_notifier_ = none ∨ c.write_notifier_ = none) then
    c.setUpNotifiers
  else c

/-- The process as the `StateOpening` step leaves it before the result of
`ssh_channel_open_session` is looked at: a handle is created when there is
none, and the open request is made. -/
def afterOpenCall (p : LibsshQtProcess) : LibsshQtProcess :=
  (if !p.channel_ then { p.emit .ssh_channel_new with channel_ := true } else p).emit
    .ssh_channel_open_session

/-- The process as the `StateExec` step leaves it before the result of
`ssh_channel_request_exec` is looked at. -/
def afterExecCall (p : LibsshQtProcess) : LibsshQtProcess :=
  p.emit (.ssh_channel_request_exec p.command_)

/-- A step in which the remote command has printed the single byte `a`
without a newline and exited with status 0: one byte is readable, the read
returns it, and both sub-streams poll end-of-stream afterwards. -/
def unterminatedOutput : ProcessIo :=
  { remoteEof with io := { acceptAll with poll := 1, read := fun _ => ⟨[97], 1⟩ } }

/-- A session that has dispatched the None method in its first attempt. -/
def tryingNone : LibsshQtClient :=
  (firstAttempt.processState SSH_OK).processState SSH_SERVER_KNOWN_OK

/-! ## Further source functions, and definitions used to state the properties of reads, guards and frames -/

/-- The function `markCurrentHostKnown`; `rc` is the result of
`ssh_write_knownhost`.  The result is the session left behind and the
returned flag. -/
def LibsshQtClient.markCurrentHostKnown (c : LibsshQtClient) (rc : Int) :
    LibsshQtClient × Bool :=
  if rc = SSH_OK then (c, true)
  else if rc = SSH_ERROR then (c, false)
  else (c.emit .critical, false)

/-- What a `readData` call leaves behind: the process, the bytes copied to
the caller's array and the returned count `copy_len`. -/
structure ReadOutcome where
  p : LibsshQtProcess
  data : List UInt8
  ret : Int
  deriving DecidableEq

/-- The function `LibsshQtChannel::readData` called on a process, whose
`queueCheckIo` starts the timer. -/
def LibsshQtProcess.readData (p : LibsshQtProcess) (maxlen : Int) : ReadOutcome :=
  let p := p.queueCheckIo
  let copy_len := maxlen
  let data_size : Int := p.read_buffer_.length
  let copy_len := if copy_len > data_size then data_size else copy_len
  ⟨{ p with read_buffer_ := QByteArray.remove0 p.read_buffer_ copy_len },
    p.read_buffer_.take copy_len.toNat, copy_len⟩

/-- The function `LibsshQtProcessStderr::readData`. -/
def LibsshQtProcess.stderrReadData (p : LibsshQtProcess) (maxlen : Int) : ReadOutcome :=
  let p := p.queueCheckIo
  let copy_len := maxlen
  let data_size : Int := p.stderr_buffer_.length
  let copy_len := if copy_len > data_size then data_size else copy_len
  ⟨{ p with stderr_buffer_ := QByteArray.remove0 p.stderr_buffer_ copy_len },
    p.stderr_buffer_.take copy_len.toNat, copy_len⟩

/-- One thing that can happen to a process: a call made by the caller or by
the session, or one `processState` step of the event loop. -/
inductive ProcessOp where
  | openChannel
  | closeChannel (is_open : Int)
  | handleClientError
  | setCommand (command : String)
  | readData (maxlen : Int)
  | stderrReadData (maxlen : Int)
  | writeData (data : List UInt8)
  | sendEof
  | step (pio : ProcessIo)

/-- The process after one `ProcessOp`. -/
def applyProcessOp (p : LibsshQtProcess) : ProcessOp → LibsshQtProcess
  | .openChannel => p.openChannel
  | .closeChannel is_open => p.closeChannel is_open
  | .handleClientError => p.handleClientError
  | .setCommand command => p.setCommand command
  | .readData maxlen => (p.readData maxlen).p
  | .stderrReadData maxlen => (p.stderrReadData maxlen).p
  | .writeData data => { p with toLibsshQtChannel := (p.toLibsshQtChannel.writeData data).1 }
  | .sendEof => { p with toLibsshQtChannel := p.toLibsshQtChannel.sendEof }
  | .step pio => p.processState pio

/-- Whether an operation is the `StateOpen` step that finds both sub-streams
at end-of-stream. -/
def detectsEof (p : LibsshQtProcess) : ProcessOp → Bool
  | .step pio =>
    decide (p.state_ = .StateOpen ∧ pio.eof_poll_stdout = SSH_EOF ∧
      pio.eof_poll_stderr = SSH_EOF)
  | _ => false

/-- The states a process goes through under a sequence of operations, up to
and not including the first operation that detects remote EOF; the state it
starts in comes first. -/
def statesBeforeEof : List ProcessOp → LibsshQtProcess → List LibsshQtProcess
  | [], p => [p]
  | op :: ops, p =>
    if detectsEof p op then [p] else p :: statesBeforeEof ops (applyProcessOp p op)

/-- The statement about `exitCode()` for the run that `openChannel` starts on
`p` and that continues with `ops`: every state reached before remote EOF is
detected has exit code -1. -/
def ExitCodeSentinel (p : LibsshQtProcess) (ops : List ProcessOp) : Prop :=
  ∀ q ∈ statesBeforeEof ops p.openChannel, q.exitCode = -1

/-- A process that has run its command once on an opened session: opened,
executed, and closed on remote EOF with exit status 0. -/
def finishedRun : LibsshQtProcess :=
  ((((LibsshQtProcess.new.openChannel.processState remoteEof).processState
    remoteEof).processState remoteEof).processState remoteEof)

/-- A step in which the stderr poll reports four bytes and the read stores
only the byte `a` and returns 1; neither sub-stream is at end-of-stream. -/
def shortStderrRead : ProcessIo :=
  { remoteEof with
    poll_stderr := 4
    read_stderr := fun _ => ⟨[97], 1⟩
    eof_poll_stdout := 0
    eof_poll_stderr := 0 }

/-- One thing that can happen to a session that waits for the decision on an
unknown host, short of `disconnectFromHost`. -/
inductive HostDecisionOp where
  | step (rc : Int)
  | markCurrentHostKnown (rc : Int)
  | connectToHost
  | connectToHostName (hostName : String) (rcHost rcPort : Int)
  | connectToHostPort (hostName : String) (port : Nat) (rcHost rcPort : Int)
  | enableDisableAuth (enabled : Bool) (auth : UseAuthFlag)

/-- The session after one `HostDecisionOp`. -/
def applyHostDecisionOp (c : LibsshQtClient) : HostDecisionOp → LibsshQtClient
  | .step rc => c.processState rc
  | .markCurrentHostKnown rc => (c.markCurrentHostKnown rc).1
  | .connectToHost => c.connectToHost
  | .connectToHostName hostName rcHost rcPort => c.connectToHostName hostName rcHost rcPort
  | .connectToHostPort hostName port rcHost rcPort =>
    c.connectToHostPort hostName port rcHost rcPort
  | .enableDisableAuth enabled auth => c.enableDisableAuth enabled auth

/-- A session whose host check has just reported a changed key. -/
def hostKeyChanged : LibsshQtClient :=
  (firstAttempt.processState SSH_OK).processState SSH_SERVER_KNOWN_CHANGED

/-- A session that requested only the Interactive method and has been
dispatched to it. -/
def tryingInteractive : LibsshQtClient :=
  (((LibsshQtClient.new.useInteractiveAuth true).connectToHost).processState
    SSH_OK).processState SSH_SERVER_KNOWN_OK

/-- A session whose first connection attempt asked for the writable
notification and was then given up: `connectToHost`, one guarded step in
which `ssh_connect` reports retry, `disconnectFromHost`, and `connectToHost`
again.  The request flag is still set and both notifiers are gone. -/
def staleWritableRequest : LibsshQtClient :=
  { LibsshQtClient.new with
    state_ := .StateConnecting
    enable_writable_nofifier_ := true
    timer_ := true
    log := [.doCleanup, .ssh_disconnect, .closed] }


/-! ## Theorems about the session -/

/-- From any session, `n` calls of `tryNextAuth` dispatch the first `n`
requested methods in priority order. -/
theorem dispatched_eq (n : Nat) (c : LibsshQtClient) :
    dispatchedAuths n c = (authPriority.filter (fun m => c.use_auths_.test m)).take n := by
  induction n generalizing c with
  | zero => simp [dispatchedAuths]
  | succ n ih =>
    have key : ∀ (u : UseAuths) (s : StateFlag), c.use_auths_ = u → c.state_ = s →
        (c.tryNextAuth).use_auths_ =
          (if u.none then u.clear .UseAuthNone
           else if u.autoPubKey then u.clear .UseAuthAutoPubKey
           else if u.password then u.clear .UseAuthPassword
           else u.clear .UseAuthInteractive) ∧
        authMethodOfState (c.tryNextAuth).state_ =
          (if u.none then .UseAuthNone
           else if u.autoPubKey then .UseAuthAutoPubKey
           else if u.password then .UseAuthPassword
           else if u.interactive then .UseAuthInteractive else .UseAuthEmpty) := by
      intro u s hu hs
      obtain ⟨a, b, d, e⟩ := u
      unfold LibsshQtClient.tryNextAuth
      cases s <;> cases a <;> cases b <;> cases d <;> cases e <;>
        simp [hu, hs, LibsshQtClient.setState, LibsshQtClient.emit, LibsshQtClient.timerStart,
          UseAuths.empty, UseAuths.test, UseAuths.clear, UseAuths.set, authMethodOfState] <;>
        split_ifs <;> simp_all [authMethodOfState]
    obtain ⟨h1, h2⟩ := key c.use_auths_ c.state_ rfl rfl
    rw [dispatchedAuths]
    simp only [h2, ih, h1]
    obtain ⟨a, b, d, e⟩ := c.use_auths_
    cases a <;> cases b <;> cases d <;> cases e <;>
      simp [authPriority, UseAuths.test, UseAuths.clear]

/-- Membership after `|=`. -/
theorem UseAuths.test_set (u : UseAuths) (a m : UseAuthFlag) :
    (u.set a).test m = (u.test m || decide (a = m ∧ m ≠ .UseAuthEmpty)) := by
  cases a <;> cases m <;> simp [UseAuths.set, UseAuths.test]

/-- Membership after `&= ~`. -/
theorem UseAuths.test_clear (u : UseAuths) (a m : UseAuthFlag) :
    (u.clear a).test m = (u.test m && !decide (a = m ∧ m ≠ .UseAuthEmpty)) := by
  cases a <;> cases m <;> simp [UseAuths.clear, UseAuths.test]

/-- Nothing is in the empty flag set. -/
theorem UseAuths.test_empty (m : UseAuthFlag) : UseAuths.empty.test m = false := by
  cases m <;> rfl

/-- The method dispatched from a set is a member of it. -/
theorem UseAuths.test_first (u : UseAuths) :
    u.first = .UseAuthEmpty ∨ u.test u.first = true := by
  obtain ⟨a, b, d, e⟩ := u
  cases a <;> cases b <;> cases d <;> cases e <;> simp [UseAuths.first, UseAuths.test]

/-- What `tryNextAuth` does to the auth bookkeeping and the state. -/
theorem tryNextAuth_spec (c : LibsshQtClient) :
    (c.tryNextAuth).failed_auths_ = c.failed_auths_.set (authMethodOfState c.state_) ∧
    (c.tryNextAuth).use_auths_ = c.use_auths_.clear c.use_auths_.first ∧
    authMethodOfState (c.tryNextAuth).state_ = c.use_auths_.first ∧
    ((c.tryNextAuth).state_ = .StateAuthFailed → c.use_auths_ = UseAuths.empty) ∧
    (c.tryNextAuth).state_ ≠ .StateError ∧ (c.tryNextAuth).state_ ≠ .StateOpened := by
  have key : ∀ (u : UseAuths) (s : StateFlag), c.use_auths_ = u → c.state_ = s →
      (c.tryNextAuth).failed_auths_ = c.failed_auths_.set (authMethodOfState s) ∧
      (c.tryNextAuth).use_auths_ = u.clear u.first ∧
      authMethodOfState (c.tryNextAuth).state_ = u.first ∧
      ((c.tryNextAuth).state_ = .StateAuthFailed → u = UseAuths.empty) ∧
      (c.tryNextAuth).state_ ≠ .StateError ∧ (c.tryNextAuth).state_ ≠ .StateOpened := by
    intro u s hu hs
    obtain ⟨a, b, d, e⟩ := u
    unfold LibsshQtClient.tryNextAuth
    cases s <;> cases a <;> cases b <;> cases d <;> cases e <;>
      simp [hu, hs, LibsshQtClient.setState, LibsshQtClient.emit, LibsshQtClient.timerStart,
        UseAuths.empty, UseAuths.test, UseAuths.clear, UseAuths.set, UseAuths.first,
        authMethodOfState] <;>
      split_ifs <;> simp_all [authMethodOfState]
  exact key c.use_auths_ c.state_ rfl rfl

/-- In an auth state whose libssh call is made, a denied or partial result is
handled by `tryNextAuth`. -/
theorem processState_denied (c : LibsshQtClient) (rc : Int)
    (hs : c.state_ = .StateAuthNone ∨ c.state_ = .StateAuthAutoPubkey ∨
      c.state_ = .StateAuthPassword)
    (hrc : rc = SSH_AUTH_DENIED ∨ rc = SSH_AUTH_PARTIAL) :
    c.processState rc = c.tryNextAuth := by
  unfold LibsshQtClient.processState
  rcases hs with hs | hs | hs <;> rcases hrc with rfl | rfl <;>
    simp [hs, LibsshQtClient.handleAuthResponse, SSH_AUTH_DENIED, SSH_AUTH_PARTIAL,
      SSH_AUTH_AGAIN, SSH_AUTH_ERROR]

/-- C1: starting with no failed method, `n` successive calls of `tryNextAuth`
(one per denied method) dispatch the first `n` of the enabled and not yet
failed methods in the order None, AutoPubKey, Password, Interactive, each
method at most once, and all of them once four calls have been made. -/
theorem tryNextAuth_dispatches_enabled_in_priority_order (c : LibsshQtClient) (n : Nat)
    (hf : c.failed_auths_ = UseAuths.empty) :
    dispatchedAuths n c =
      (authPriority.filter (fun m => c.use_auths_.test m && !c.failed_auths_.test m)).take n ∧
    (dispatchedAuths n c).Nodup ∧
    (4 ≤ n → dispatchedAuths n c =
      authPriority.filter (fun m => c.use_auths_.test m && !c.failed_auths_.test m)) := by
  have h1 : dispatchedAuths n c =
      (authPriority.filter (fun m => c.use_auths_.test m && !c.failed_auths_.test m)).take n := by
    rw [dispatched_eq, hf]
    simp [UseAuths.test_empty]
  have hp : authPriority.Nodup := by decide
  refine ⟨h1, ?_, ?_⟩
  · rw [h1]
    exact ((hp.sublist (List.filter_sublist _)).sublist (List.take_sublist _ _))
  · intro hn
    rw [h1]
    apply List.take_of_length_le
    exact le_trans (List.length_filter_le _ _) hn

/-- C1 (witness): with None and Password enabled, five calls dispatch None and
then Password. -/
theorem tryNextAuth_dispatches_enabled_in_priority_order_witness :
    dispatchedAuths 5
        ({ LibsshQtClient.new with
            state_ := .StateIsKnown, use_auths_ := ⟨true, false, true, false⟩ }) =
      [.UseAuthNone, .UseAuthPassword] ∧
    (dispatchedAuths 5
        ({ LibsshQtClient.new with
            state_ := .StateIsKnown, use_auths_ := ⟨true, false, true, false⟩ })).Nodup :=
  ⟨(tryNextAuth_dispatches_enabled_in_priority_order
    ({ LibsshQtClient.new with
        state_ := .StateIsKnown, use_auths_ := ⟨true, false, true, false⟩ }) 5
    (by decide)).1,
   (tryNextAuth_dispatches_enabled_in_priority_order
    ({ LibsshQtClient.new with
        state_ := .StateIsKnown, use_auths_ := ⟨true, false, true, false⟩ }) 5
    (by decide)).2.1⟩

/-- No method is the method of a state outside authentication. -/
theorem cur_empty (m : UseAuthFlag) :
    decide (UseAuthFlag.UseAuthEmpty = m ∧ m ≠ .UseAuthEmpty) = false := by
  cases m <;> simp

/-- The states `StateError` and `StateOpened` attempt no method. -/
theorem cur_false_of_done (s : StateFlag) (m : UseAuthFlag) :
    decide (s = .StateError ∨ s = .StateOpened) = true →
      decide (authMethodOfState s = m ∧ m ≠ .UseAuthEmpty) = false := by
  cases s <;> cases m <;> decide

/-- The invariant holds when a connection attempt begins with no failed
method. -/
theorem authInv_start (c : LibsshQtClient) (hs : c.state_ = .StateConnecting)
    (hf : c.failed_auths_ = UseAuths.empty) : AuthInv c (AuthHistory.start c) := by
  intro m
  simp only [AuthHistory.start, hs, hf, authMethodOfState, UseAuths.test_set,
    UseAuths.test_empty, cur_empty]
  generalize c.use_auths_.test m = u
  revert u
  decide

/-- Every `processState` step either leaves state and bookkeeping alone, or
moves to a state outside authentication with the bookkeeping unchanged, or is
a `tryNextAuth` from the same state and bookkeeping. -/
theorem processState_cases (c : LibsshQtClient) (rc : Int) :
    ((c.processState rc).state_ = c.state_ ∧
      (c.processState rc).use_auths_ = c.use_auths_ ∧
      (c.processState rc).failed_auths_ = c.failed_auths_) ∨
    (((c.processState rc).state_ = .StateError ∨ (c.processState rc).state_ = .StateOpened ∨
        (authMethodOfState (c.processState rc).state_ = .UseAuthEmpty ∧
          (c.processState rc).state_ ≠ .StateAuthFailed ∧
          authMethodOfState c.state_ = .UseAuthEmpty ∧
          c.state_ ≠ .StateError ∧ c.state_ ≠ .StateOpened)) ∧
      (c.processState rc).use_auths_ = c.use_auths_ ∧
      (c.processState rc).failed_auths_ = c.failed_auths_) ∨
    (∃ c1 : LibsshQtClient, c1.state_ = c.state_ ∧ c1.use_auths_ = c.use_auths_ ∧
      c1.failed_auths_ = c.failed_auths_ ∧ c.state_ ≠ .StateError ∧ c.state_ ≠ .StateOpened ∧
      c.processState rc = c1.tryNextAuth) := by
  have hE : ∀ (d : LibsshQtClient) (e : ClientEffect),
      (d.emit e).state_ = d.state_ ∧ (d.emit e).use_auths_ = d.use_auths_ ∧
      (d.emit e).failed_auths_ = d.failed_auths_ := fun d e => ⟨rfl, rfl, rfl⟩
  have hW : ∀ d : LibsshQtClient,
      (d.enableWritableNotifier).state_ = d.state_ ∧
      (d.enableWritableNotifier).use_auths_ = d.use_auths_ ∧
      (d.enableWritableNotifier).failed_auths_ = d.failed_auths_ := by
    intro d
    unfold LibsshQtClient.enableWritableNotifier
    split_ifs
    · exact ⟨rfl, rfl, rfl⟩
    · cases d.write_notifier_ <;> exact ⟨rfl, rfl, rfl⟩
  have hN : ∀ d : LibsshQtClient,
      (d.setUpNotifiers).state_ = d.state_ ∧ (d.setUpNotifiers).use_auths_ = d.use_auths_ ∧
      (d.setUpNotifiers).failed_auths_ = d.failed_auths_ := by
    intro d
    unfold LibsshQtClient.setUpNotifiers
    dsimp only
    split_ifs <;> exact ⟨rfl, rfl, rfl⟩
  have hS : ∀ (d : LibsshQtClient) (s : StateFlag),
      (d.setState s).state_ = s ∧ (d.setState s).use_auths_ = d.use_auths_ ∧
      (d.setState s).failed_auths_ = d.failed_auths_ := by
    intro d s
    unfold LibsshQtClient.setState
    split_ifs with h
    · exact ⟨h, rfl, rfl⟩
    · cases s <;> exact ⟨rfl, rfl, rfl⟩
  have hA : ∀ (d : LibsshQtClient) (a : UseAuthFlag),
      (c.state_ ≠ .StateError ∧ c.state_ ≠ .StateOpened) → d.state_ = c.state_ →
      d.use_auths_ = c.use_auths_ → d.failed_auths_ = c.failed_auths_ →
      ((d.handleAuthResponse rc a).state_ = c.state_ ∧
        (d.handleAuthResponse rc a).use_auths_ = c.use_auths_ ∧
        (d.handleAuthResponse rc a).failed_auths_ = c.failed_auths_) ∨
      (((d.handleAuthResponse rc a).state_ = .StateError ∨
          (d.handleAuthResponse rc a).state_ = .StateOpened ∨
          (authMethodOfState (d.handleAuthResponse rc a).state_ = .UseAuthEmpty ∧
            (d.handleAuthResponse rc a).state_ ≠ .StateAuthFailed ∧
            authMethodOfState c.state_ = .UseAuthEmpty ∧
            c.state_ ≠ .StateError ∧ c.state_ ≠ .StateOpened)) ∧
        (d.handleAuthResponse rc a).use_auths_ = c.use_auths_ ∧
        (d.handleAuthResponse rc a).failed_auths_ = c.failed_auths_) ∨
      (∃ c1 : LibsshQtClient, c1.state_ = c.state_ ∧ c1.use_auths_ = c.use_auths_ ∧
        c1.failed_auths_ = c.failed_auths_ ∧ c.state_ ≠ .StateError ∧
        c.state_ ≠ .StateOpened ∧ d.handleAuthResponse rc a = c1.tryNextAuth) := by
    intro d a hne h1 h2 h3
    unfold LibsshQtClient.handleAuthResponse
    split_ifs
    · left
      obtain ⟨w1, w2, w3⟩ := hW d
      exact ⟨w1.trans h1, w2.trans h2, w3.trans h3⟩
    · right; left
      obtain ⟨w1, w2, w3⟩ := hS d .StateError
      exact ⟨Or.inl w1, w2.trans h2, w3.trans h3⟩
    · right; right
      exact ⟨d, h1, h2, h3, hne.1, hne.2, rfl⟩
    · right; right
      exact ⟨d, h1, h2, h3, hne.1, hne.2, rfl⟩
    · right; left
      obtain ⟨w1, w2, w3⟩ := hS { d with succeeded_auth_ := a } .StateOpened
      exact ⟨Or.inr (Or.inl w1), w2.trans h2, w3.trans h3⟩
    · left
      exact ⟨h1, h2, h3⟩
  unfold LibsshQtClient.processState
  split
  case h_1 hs => exact Or.inl ⟨rfl, rfl, rfl⟩
  case h_2 hs => exact Or.inl ⟨rfl, rfl, rfl⟩
  case h_3 hs => exact Or.inl ⟨rfl, rfl, rfl⟩
  case h_4 hs => exact Or.inl ⟨rfl, rfl, rfl⟩
  case h_5 hs => exact Or.inl ⟨rfl, rfl, rfl⟩
  case h_6 hs => exact Or.inl ⟨rfl, rfl, rfl⟩
  case h_13 hs => exact Or.inl ⟨rfl, rfl, rfl⟩
  case h_14 hs => exact Or.inl ⟨rfl, rfl, rfl⟩
  case h_9 hs => exact Or.inr (Or.inr ⟨c, rfl, rfl, rfl, by simp [hs], by simp [hs], rfl⟩)
  case h_10 hs => exact hA c .UseAuthNone (by simp [hs]) rfl rfl rfl
  case h_11 hs => exact hA c .UseAuthAutoPubKey (by simp [hs]) rfl rfl rfl
  case h_12 hs => exact hA c .UseAuthPassword (by simp [hs]) rfl rfl rfl
  case h_7 hs =>
    have hc : ∀ d : LibsshQtClient, d = c ∨ d = c.setUpNotifiers →
        d.state_ = c.state_ ∧ d.use_auths_ = c.use_auths_ ∧
        d.failed_auths_ = c.failed_auths_ := by
      rintro d (rfl | rfl)
      · exact ⟨rfl, rfl, rfl⟩
      · exact hN c
    have hd : ∀ d : LibsshQtClient, (d.state_ = c.state_ ∧ d.use_auths_ = c.use_auths_ ∧
        d.failed_auths_ = c.failed_auths_) →
        ((if rc = SSH_AGAIN then d.enableWritableNotifier
          else if rc = SSH_ERROR then d.setState .StateError
          else if rc = SSH_OK then (d.setState .StateIsKnown).timerStart
          else d.emit .critical).state_ = c.state_ ∧
         (if rc = SSH_AGAIN then d.enableWritableNotifier
          else if rc = SSH_ERROR then d.setState .StateError
          else if rc = SSH_OK then (d.setState .StateIsKnown).timerStart
          else d.emit .critical).use_auths_ = c.use_auths_ ∧
         (if rc = SSH_AGAIN then d.enableWritableNotifier
          else if rc = SSH_ERROR then d.setState .StateError
          else if rc = SSH_OK then (d.setState .StateIsKnown).timerStart
          else d.emit .critical).failed_auths_ = c.failed_auths_) ∨
        (((if rc = SSH_AGAIN then d.enableWritableNotifier
          else if rc = SSH_ERROR then d.setState .StateError
          else if rc = SSH_OK then (d.setState .StateIsKnown).timerStart
          else d.emit .critical).state_ = .StateError ∨
          (if rc = SSH_AGAIN then d.enableWritableNotifier
          else if rc = SSH_ERROR then d.setState .StateError
          else if rc = SSH_OK then (d.setState .StateIsKnown).timerStart
          else d.emit .critical).state_ = .StateIsKnown) ∧
         (if rc = SSH_AGAIN then d.enableWritableNotifier
          else if rc = SSH_ERROR then d.setState .StateError
          else if rc = SSH_OK then (d.setState .StateIsKnown).timerStart
          else d.emit .critical).use_auths_ = c.use_auths_ ∧
         (if rc = SSH_AGAIN then d.enableWritableNotifier
          else if rc = SSH_ERROR then d.setState .StateError
          else if rc = SSH_OK then (d.setState .StateIsKnown).timerStart
          else d.emit .critical).failed_auths_ = c.failed_auths_) := by
      rintro d ⟨h1, h2, h3⟩
      split_ifs
      · left
        obtain ⟨w1, w2, w3⟩ := hW d
        exact ⟨w1.trans h1, w2.trans h2, w3.trans h3⟩
      · right
        obtain ⟨w1, w2, w3⟩ := hS d .StateError
        exact ⟨Or.inl w1, w2.trans h2, w3.trans h3⟩
      · right
        obtain ⟨w1, w2, w3⟩ := hS d .StateIsKnown
        exact ⟨Or.inr w1, w2.trans h2, w3.trans h3⟩
      · left
        exact ⟨h1, h2, h3⟩
    have hx : (if rc ≠ SSH_ERROR ∧ (c.read_notifier_ = none ∨ c.write_notifier_ = none) then
        c.setUpNotifiers else c) = c ∨
        (if rc ≠ SSH_ERROR ∧ (c.read_notifier_ = none ∨ c.write_notifier_ = none) then
        c.setUpNotifiers else c) = c.setUpNotifiers := by
      split_ifs
      · exact Or.inr rfl
      · exact Or.inl rfl
    rcases hd _ (hc _ hx) with h | ⟨h | h, h2, h3⟩
    · exact Or.inl h
    · exact Or.inr (Or.inl ⟨Or.inl h, h2, h3⟩)
    · exact Or.inr (Or.inl ⟨Or.inr (Or.inr ⟨by rw [h]; rfl, by rw [h]; simp,
        by rw [hs]; rfl, by simp [hs], by simp [hs]⟩), h2, h3⟩)
  case h_8 hs =>
    split_ifs
    · obtain ⟨w1, w2, w3⟩ := hS c .StateError
      exact Or.inr (Or.inl ⟨Or.inl w1, w2, w3⟩)
    · obtain ⟨w1, w2, w3⟩ := hS { c with unknown_host_type_ := HostFlag.ofInt rc } .StateUnknownHost
      exact Or.inr (Or.inl ⟨Or.inr (Or.inr ⟨by rw [w1]; rfl, by rw [w1]; simp,
        by rw [hs]; rfl, by simp [hs], by simp [hs]⟩), w2, w3⟩)
    · exact Or.inr (Or.inr ⟨{ c with unknown_host_type_ := .HostKnown }, rfl, rfl, rfl,
        by simp [hs], by simp [hs], rfl⟩)
    · exact Or.inl ⟨rfl, rfl, rfl⟩

/-- What `enableDisableAuth` does to the auth bookkeeping and the state. -/
theorem enableDisableAuth_spec (c : LibsshQtClient) (m : UseAuthFlag) :
    (c.enableDisableAuth true m).use_auths_ = c.use_auths_.set m ∧
    (c.enableDisableAuth true m).failed_auths_ = c.failed_auths_ ∧
    (c.enableDisableAuth true m).state_ =
      (if c.state_ = .StateAuthChoose ∨ c.state_ = .StateAuthFailed then .StateAuthContinue
        else c.state_) ∧
    (c.enableDisableAuth false m).use_auths_ = c.use_auths_.clear m ∧
    (c.enableDisableAuth false m).failed_auths_ = c.failed_auths_ ∧
    (c.enableDisableAuth false m).state_ = c.state_ := by
  refine ⟨?_, ?_, ?_, rfl, rfl, rfl⟩ <;>
    · unfold LibsshQtClient.enableDisableAuth
      simp only [if_true]
      split_ifs with h <;>
        simp [LibsshQtClient.setState, LibsshQtClient.timerStart, LibsshQtClient.emit]
      rcases h with h | h <;> simp [h]

/-- Every operation of a connection attempt keeps the invariant. -/
theorem authInv_step (c : LibsshQtClient) (h : AuthHistory) (op : AuthOp)
    (hi : AuthInv c h) :
    AuthInv (applyAuthOp c op) (h.record op (applyAuthOp c op)) := by
  intro m'
  have hm := hi m'
  cases op with
  | enable m =>
    obtain ⟨e1, e2, e3, -, -, -⟩ := enableDisableAuth_spec c m
    simp only [applyAuthOp, AuthHistory.record, e1, e2, e3, UseAuths.test_set]
    revert hm
    generalize c.use_auths_.test m' = u
    generalize c.failed_auths_.test m' = f
    generalize h.enabled.test m' = e
    generalize h.disabled.test m' = d
    generalize h.attempted.test m' = a
    generalize decide (m = m' ∧ m' ≠ .UseAuthEmpty) = j
    cases hs : c.state_ <;> cases m' <;>
      simp only [authMethodOfState, if_true, if_false, reduceCtorEq,
        or_false, false_or, or_true, true_or, or_self] <;>
      revert u f e d a j <;> decide
  | disable m =>
    obtain ⟨-, -, -, e1, e2, e3⟩ := enableDisableAuth_spec c m
    simp only [applyAuthOp, AuthHistory.record, e1, e2, e3, UseAuths.test_set,
      UseAuths.test_clear]
    have hk := cur_false_of_done c.state_ m'
    revert hm hk
    generalize c.use_auths_.test m' = u
    generalize c.failed_auths_.test m' = f
    generalize h.enabled.test m' = e
    generalize h.disabled.test m' = d
    generalize h.attempted.test m' = a
    generalize decide (m = m' ∧ m' ≠ .UseAuthEmpty) = j
    generalize decide (c.state_ = .StateAuthFailed) = sf
    generalize decide (c.state_ = .StateError ∨ c.state_ = .StateOpened) = sd
    generalize decide (authMethodOfState c.state_ = m' ∧ m' ≠ .UseAuthEmpty) = k
    revert u f e d a j sf sd k
    decide
  | step rc =>
    simp only [applyAuthOp, AuthHistory.record]
    rcases processState_cases c rc with ⟨e3, e1, e2⟩ | ⟨e3, e1, e2⟩ | ⟨c1, s1, u1, f1, n1, n2, e⟩
    · simp only [e1, e2, e3, UseAuths.test_set]
      have hk := cur_false_of_done c.state_ m'
      revert hm hk
      generalize c.use_auths_.test m' = u
      generalize c.failed_auths_.test m' = f
      generalize h.enabled.test m' = e
      generalize h.disabled.test m' = d
      generalize h.attempted.test m' = a
      generalize decide (c.state_ = .StateAuthFailed) = sf
      generalize decide (c.state_ = .StateError ∨ c.state_ = .StateOpened) = sd
      generalize decide (authMethodOfState c.state_ = m' ∧ m' ≠ .UseAuthEmpty) = k
      revert u f e d a sf sd k
      decide
    · simp only [e1, e2, UseAuths.test_set]
      have hk := cur_false_of_done c.state_ m'
      rcases e3 with e3 | e3 | ⟨e3, e4, e5, e6, e7⟩
      · simp only [e3, authMethodOfState, cur_empty]
        revert hm hk
        generalize c.use_auths_.test m' = u
        generalize c.failed_auths_.test m' = f
        generalize h.enabled.test m' = e
        generalize h.disabled.test m' = d
        generalize h.attempted.test m' = a
        generalize decide (c.state_ = .StateAuthFailed) = sf
        generalize decide (c.state_ = .StateError ∨ c.state_ = .StateOpened) = sd
        generalize decide (authMethodOfState c.state_ = m' ∧ m' ≠ .UseAuthEmpty) = k
        revert u f e d a sf sd k
        decide
      · simp only [e3, authMethodOfState, cur_empty]
        revert hm hk
        generalize c.use_auths_.test m' = u
        generalize c.failed_auths_.test m' = f
        generalize h.enabled.test m' = e
        generalize h.disabled.test m' = d
        generalize h.attempted.test m' = a
        generalize decide (c.state_ = .StateAuthFailed) = sf
        generalize decide (c.state_ = .StateError ∨ c.state_ = .StateOpened) = sd
        generalize decide (authMethodOfState c.state_ = m' ∧ m' ≠ .UseAuthEmpty) = k
        revert u f e d a sf sd k
        decide
      · have hd : decide (c.state_ = .StateError ∨ c.state_ = .StateOpened) = false := by
          simp [e6, e7]
        rw [hd, e5, cur_empty] at hm
        simp only [e3, e4, cur_empty, decide_False]
        revert hm
        generalize c.use_auths_.test m' = u
        generalize c.failed_auths_.test m' = f
        generalize h.enabled.test m' = e
        generalize h.disabled.test m' = d
        generalize h.attempted.test m' = a
        generalize decide (c.state_ = .StateAuthFailed) = sf
        generalize decide ((c.processState rc).state_ = .StateError ∨
          (c.processState rc).state_ = .StateOpened) = sd
        revert u f e d a sf sd
        decide
    · obtain ⟨t1, t2, t3, t4, t5, t6⟩ := tryNextAuth_spec c1
      rw [s1, f1] at t1
      rw [u1] at t2 t3 t4
      have hd : decide (c.state_ = .StateError ∨ c.state_ = .StateOpened) = false := by
        simp [n1, n2]
      have hd' : decide ((c1.tryNextAuth).state_ = .StateError ∨
          (c1.tryNextAuth).state_ = .StateOpened) = false := by
        simp [t5, t6]
      have hj : decide (c.use_auths_.first = m' ∧ m' ≠ .UseAuthEmpty) = true →
          c.use_auths_.test m' = true := by
        intro hj
        simp only [decide_eq_true_eq] at hj
        rcases UseAuths.test_first c.use_auths_ with h0 | h0
        · exact absurd (hj.1.symm.trans h0) hj.2
        · rw [← hj.1]; exact h0
      have hf : decide ((c1.tryNextAuth).state_ = .StateAuthFailed) = true →
          c.use_auths_.test m' = false := by
        intro hf
        simp only [decide_eq_true_eq] at hf
        rw [t4 hf]
        exact UseAuths.test_empty m'
      rw [hd] at hm
      simp only [e, t1, t2, t3, hd', UseAuths.test_set, UseAuths.test_clear]
      revert hm hj hf
      generalize c.use_auths_.test m' = u
      generalize c.failed_auths_.test m' = f
      generalize h.enabled.test m' = e
      generalize h.disabled.test m' = d
      generalize h.attempted.test m' = a
      generalize decide (c.state_ = .StateAuthFailed) = sf
      generalize decide ((c1.tryNextAuth).state_ = .StateAuthFailed) = sf'
      generalize decide (authMethodOfState c.state_ = m' ∧ m' ≠ .UseAuthEmpty) = k
      generalize decide (c.use_auths_.first = m' ∧ m' ≠ .UseAuthEmpty) = j
      revert u f e d a sf sf' k j
      decide

/-- A whole connection attempt keeps the invariant. -/
theorem authInv_run (ops : List AuthOp) (c : LibsshQtClient) (h : AuthHistory)
    (hi : AuthInv c h) :
    AuthInv (runAuthOps ops (c, h)).1 (runAuthOps ops (c, h)).2 := by
  induction ops generalizing c h with
  | nil => exact hi
  | cons op ops ih => exact ih _ _ (authInv_step c h op hi)

/-- C2 (amended): in a connection attempt that starts with `failedAuths()`
empty, when the session reaches `StateAuthFailed` the failed methods are
exactly the methods attempted in the attempt; every method that was enabled
and never disabled is among them, and each of them was enabled.  So a method
enabled and disabled again without being attempted is not in
`failedAuths()`. -/
theorem failedAuths_exact_first_attempt (c : LibsshQtClient) (ops : List AuthOp)
    (hs : c.state_ = .StateConnecting) (hf : c.failed_auths_ = UseAuths.empty) :
    FailedAuthsExact c ops := by
  intro hr
  generalize hrr : runAuthOps ops (c, AuthHistory.start c) = r at hr
  have hi := authInv_run ops c (AuthHistory.start c) (authInv_start c hs hf)
  rw [hrr] at hi
  show (∀ m, r.1.failedAuths.test m = r.2.attempted.test m) ∧
    (∀ m, r.2.enabled.test m = true → r.2.disabled.test m = false →
      r.1.failedAuths.test m = true) ∧
    (∀ m, r.1.failedAuths.test m = true → r.2.enabled.test m = true)
  have hc : ∀ m, decide (authMethodOfState r.1.state_ = m ∧ m ≠ .UseAuthEmpty) = false := by
    intro m
    rw [hr]
    exact cur_empty m
  have hd : decide (r.1.state_ = .StateError ∨ r.1.state_ = .StateOpened) = false := by
    simp [hr]
  have hF : decide (r.1.state_ = .StateAuthFailed) = true := by simp [hr]
  have key : ∀ m, authInvAt true false false (r.1.use_auths_.test m) (r.1.failed_auths_.test m)
      (r.2.enabled.test m) (r.2.disabled.test m) (r.2.attempted.test m) = true := by
    intro m
    have := hi m
    rw [hF, hd, hc m] at this
    exact this
  refine ⟨?_, ?_, ?_⟩ <;> intro m <;> have hm := key m <;> revert hm <;>
    simp only [LibsshQtClient.failedAuths] <;>
    generalize r.1.use_auths_.test m = u <;>
    generalize r.1.failed_auths_.test m = f <;>
    generalize r.2.enabled.test m = e <;>
    generalize r.2.disabled.test m = d <;>
    generalize r.2.attempted.test m = a <;>
    revert u f e d a <;> decide

/-- C2 (counterexample): `failed_auths_` is never cleared, so in a second
connection attempt that only enables Password and is denied, `failedAuths()`
at `StateAuthFailed` also holds None, which was neither enabled nor attempted
in that attempt. -/
theorem failedAuths_second_attempt_counterexample :
    secondAttempt.state_ = .StateConnecting ∧
    (runAuthOps [.enable .UseAuthPassword, .step SSH_OK, .step SSH_SERVER_KNOWN_OK,
        .step SSH_AUTH_DENIED] (secondAttempt, AuthHistory.start secondAttempt)).1.state_ =
      .StateAuthFailed ∧
    ¬ FailedAuthsExact secondAttempt
      [.enable .UseAuthPassword, .step SSH_OK, .step SSH_SERVER_KNOWN_OK,
        .step SSH_AUTH_DENIED] := by
  refine ⟨by decide, by decide, fun h => ?_⟩
  have h1 := (h (by decide)).1 .UseAuthNone
  revert h1
  decide

/-- C2 (witness): a first attempt with None enabled and denied ends in
`StateAuthFailed` with exactly None failed. -/
theorem failedAuths_exact_first_attempt_witness :
    firstAttempt.state_ = .StateConnecting ∧ firstAttempt.failed_auths_ = UseAuths.empty ∧
    (runAuthOps [.step SSH_OK, .step SSH_SERVER_KNOWN_OK, .step SSH_AUTH_DENIED]
      (firstAttempt, AuthHistory.start firstAttempt)).1.state_ = .StateAuthFailed ∧
    FailedAuthsExact firstAttempt [.step SSH_OK, .step SSH_SERVER_KNOWN_OK, .step SSH_AUTH_DENIED] :=
  ⟨by decide, by decide, by decide, failedAuths_exact_first_attempt _ _ (by decide) (by decide)⟩

/-! ## Theorems about option setters, channels and processes -/

/-- The macro `LIBSSHQT_SET_OPT` changes neither the stored options nor the
state. -/
theorem setter_fields (c : LibsshQtClient) (opt : SshOption) (rc : Int) :
    (c.LIBSSHQT_SET_OPT opt rc).hostname_ = c.hostname_ ∧
    (c.LIBSSHQT_SET_OPT opt rc).username_ = c.username_ ∧
    (c.LIBSSHQT_SET_OPT opt rc).port_ = c.port_ ∧
    (c.LIBSSHQT_SET_OPT opt rc).state_ = c.state_ := by
  unfold LibsshQtClient.LIBSSHQT_SET_OPT
  dsimp only
  split_ifs <;> simp [LibsshQtClient.emit]

/-- The macro `LIBSSHQT_SET_OPT` leaves `hostname_` alone. -/
theorem setOpt_hostname (c : LibsshQtClient) (opt : SshOption) (rc : Int) :
    (c.LIBSSHQT_SET_OPT opt rc).hostname_ = c.hostname_ := (setter_fields c opt rc).1

/-- The macro `LIBSSHQT_SET_OPT` leaves `username_` alone. -/
theorem setOpt_username (c : LibsshQtClient) (opt : SshOption) (rc : Int) :
    (c.LIBSSHQT_SET_OPT opt rc).username_ = c.username_ := (setter_fields c opt rc).2.1

/-- The macro `LIBSSHQT_SET_OPT` leaves `port_` alone. -/
theorem setOpt_port (c : LibsshQtClient) (opt : SshOption) (rc : Int) :
    (c.LIBSSHQT_SET_OPT opt rc).port_ = c.port_ := (setter_fields c opt rc).2.2.1

/-- C8: for a URL whose scheme lower-cases to "ssh", `setUrl` with port 2222
stores the host, the user name and 2222; with the port omitted (`port()` is
-1) it stores port 22; a URL with another scheme leaves host name, user name
and port unchanged. -/
theorem setUrl_roundtrip (c : LibsshQtClient) (url : QUrl) (rcPort rcHost rcUser : Int) :
    (QString.toLower url.scheme = "ssh" → url.port = 2222 →
      (c.setUrl url rcPort rcHost rcUser).hostname = url.host ∧
      (c.setUrl url rcPort rcHost rcUser).username = url.userName ∧
      (c.setUrl url rcPort rcHost rcUser).port = 2222) ∧
    (QString.toLower url.scheme = "ssh" → url.port = -1 →
      (c.setUrl url rcPort rcHost rcUser).hostname = url.host ∧
      (c.setUrl url rcPort rcHost rcUser).username = url.userName ∧
      (c.setUrl url rcPort rcHost rcUser).port = 22) ∧
    (QString.toLower url.scheme ≠ "ssh" →
      (c.setUrl url rcPort rcHost rcUser).hostname = c.hostname ∧
      (c.setUrl url rcPort rcHost rcUser).username = c.username ∧
      (c.setUrl url rcPort rcHost rcUser).port = c.port) := by
  refine ⟨?_, ?_, ?_⟩
  · intro hs hp
    simp [LibsshQtClient.setUrl, hs, hp, LibsshQtClient.setUsername,
      LibsshQtClient.setHostname, LibsshQtClient.setPort, LibsshQtClient.hostname,
      LibsshQtClient.username, LibsshQtClient.port, setOpt_hostname, setOpt_username,
      setOpt_port]
  · intro hs hp
    simp [LibsshQtClient.setUrl, hs, hp, LibsshQtClient.setUsername,
      LibsshQtClient.setHostname, LibsshQtClient.setPort, LibsshQtClient.hostname,
      LibsshQtClient.username, LibsshQtClient.port, setOpt_hostname, setOpt_username,
      setOpt_port]
  · intro hs
    simp [LibsshQtClient.setUrl, hs, LibsshQtClient.emit, LibsshQtClient.hostname,
      LibsshQtClient.username, LibsshQtClient.port]

/-- C8 (witness): an upper-case SSH URL with port 2222, an ssh URL without port,
and an http URL. -/
theorem setUrl_roundtrip_witness :
    ((LibsshQtClient.new.setUrl ⟨"SSH", 2222, "example.org", "alice"⟩ 0 0 0).hostname =
        "example.org" ∧
      (LibsshQtClient.new.setUrl ⟨"SSH", 2222, "example.org", "alice"⟩ 0 0 0).username = "alice" ∧
      (LibsshQtClient.new.setUrl ⟨"SSH", 2222, "example.org", "alice"⟩ 0 0 0).port = 2222) ∧
    (LibsshQtClient.new.setUrl ⟨"ssh", -1, "example.org", "alice"⟩ 0 0 0).port = 22 ∧
    (LibsshQtClient.new.setUrl ⟨"http", 80, "example.org", "alice"⟩ 0 0 0).port = 22 :=
  ⟨(setUrl_roundtrip LibsshQtClient.new ⟨"SSH", 2222, "example.org", "alice"⟩ 0 0 0).1 (by decide) (by decide),
   ((setUrl_roundtrip LibsshQtClient.new ⟨"ssh", -1, "example.org", "alice"⟩ 0 0 0).2.1 (by decide)
      (by decide)).2.2,
   ((setUrl_roundtrip LibsshQtClient.new ⟨"http", 80, "example.org", "alice"⟩ 0 0 0).2.2 (by decide)).2.2⟩

/-- C10 (failing input): in `StateConnecting`, after the host name "a" was set
while closed, `setHostname("b")` prints the diagnostic and still stores "b"
and sets the libssh option; `setUsername` and `setPort` store their argument
too. -/
theorem setHostname_not_closed_overwrites :
    connectingToA.state_ = .StateConnecting ∧
    connectingToA.hostname = "a" ∧
    (connectingToA.setHostname "b" 0).hostname = "b" ∧
    (connectingToA.setHostname "b" 0).log =
      connectingToA.log ++ [.critical, .ssh_options_set .SSH_OPTIONS_HOST] ∧
    (connectingToA.setUsername "u" 0).username = "u" ∧
    (connectingToA.setPort 2222 0).port = 2222 := by
  decide

/-- In every state the three setters store their argument. -/
theorem setters_store_in_every_state (c : LibsshQtClient) (v : String) (p : Int) (rc : Int) :
    (c.setHostname v rc).hostname = v ∧ (c.setUsername v rc).username = v ∧
    (c.setPort p rc).port = (p % 65536).toNat := by
  simp [LibsshQtClient.setUsername, LibsshQtClient.setHostname, LibsshQtClient.setPort,
    LibsshQtClient.hostname, LibsshQtClient.username, LibsshQtClient.port, setOpt_hostname,
    setOpt_username, setOpt_port]

/-- The read half of `checkIo` touches only the read buffer and the log, and
sends no EOF. -/
theorem checkIoRead_frame (ch : LibsshQtChannel) (io : ChannelIo) :
    (ch.checkIoRead io).1.write_buffer_ = ch.write_buffer_ ∧
    (ch.checkIoRead io).1.eof_state_ = ch.eof_state_ ∧
    (ch.checkIoRead io).1.channel_ = ch.channel_ ∧
    (ch.checkIoRead io).1.device_open_ = ch.device_open_ ∧
    (ch.checkIoRead io).1.buffer_size_ = ch.buffer_size_ ∧
    (ch.checkIoRead io).1.write_size_ = ch.write_size_ ∧
    eofSentCount (ch.checkIoRead io).1.log = eofSentCount ch.log := by
  unfold LibsshQtChannel.checkIoRead
  dsimp only
  split_ifs <;> simp [LibsshQtChannel.emit, eofSentCount, List.count_append]

/-- The write half of `checkIo` leaves the read buffer, the handle and the caps
alone. -/
theorem checkIoWrite_frame (ch : LibsshQtChannel) (io : ChannelIo) :
    (ch.checkIoWrite io).1.read_buffer_ = ch.read_buffer_ ∧
    (ch.checkIoWrite io).1.channel_ = ch.channel_ ∧
    (ch.checkIoWrite io).1.device_open_ = ch.device_open_ ∧
    (ch.checkIoWrite io).1.buffer_size_ = ch.buffer_size_ ∧
    (ch.checkIoWrite io).1.write_size_ = ch.write_size_ := by
  unfold LibsshQtChannel.checkIoWrite
  dsimp only
  split_ifs <;> simp [LibsshQtChannel.emit]

/-- The write half of `checkIo` sends EOF exactly when EOF is queued and the
write buffer is empty after the write. -/
theorem checkIoWrite_eof (ch : LibsshQtChannel) (io : ChannelIo) :
    ((ch.checkIoWrite io).1.eof_state_ =
      if ch.eof_state_ = .EofQueued ∧ (ch.checkIoWrite io).1.write_buffer_ = [] then .EofSent
      else ch.eof_state_) ∧
    (eofSentCount (ch.checkIoWrite io).1.log =
      if ch.eof_state_ = .EofQueued ∧ (ch.checkIoWrite io).1.write_buffer_ = [] then
        eofSentCount ch.log + 1
      else eofSentCount ch.log) := by
  unfold LibsshQtChannel.checkIoWrite
  dsimp only
  split_ifs <;> simp_all [LibsshQtChannel.emit, eofSentCount, List.count_append]

/-- An empty write buffer stays empty through the write half of `checkIo`. -/
theorem checkIoWrite_nil (ch : LibsshQtChannel) (io : ChannelIo)
    (h : ch.write_buffer_ = []) : (ch.checkIoWrite io).1.write_buffer_ = [] := by
  unfold LibsshQtChannel.checkIoWrite
  simp only [h]
  split_ifs <;> simp_all [LibsshQtChannel.emit]
  omega

/-- On an open handle `checkIo` sends EOF exactly when EOF is queued and the
write buffer is empty after the write. -/
theorem checkIo_eof (ch : LibsshQtChannel) (io : ChannelIo) (hc : ch.channel_ = true) :
    (ch.checkIo io).channel_ = true ∧
    ((ch.checkIo io).eof_state_ =
      if ch.eof_state_ = .EofQueued ∧ (ch.checkIo io).write_buffer_ = [] then .EofSent
      else ch.eof_state_) ∧
    (eofSentCount (ch.checkIo io).log =
      if ch.eof_state_ = .EofQueued ∧ (ch.checkIo io).write_buffer_ = [] then
        eofSentCount ch.log + 1
      else eofSentCount ch.log) ∧
    (ch.write_buffer_ = [] → (ch.checkIo io).write_buffer_ = []) := by
  obtain ⟨r1, r2, r3, -, -, -, r7⟩ := checkIoRead_frame ch io
  obtain ⟨-, w2, -, -, -⟩ := checkIoWrite_frame (ch.checkIoRead io).1 io
  obtain ⟨e1, e2⟩ := checkIoWrite_eof (ch.checkIoRead io).1 io
  have e3 := checkIoWrite_nil (ch.checkIoRead io).1 io
  rw [r2] at e1 e2
  rw [r7] at e2
  rw [r1] at e3
  rw [r3] at w2
  have hlog : ∀ (d : LibsshQtChannel) (e : ChannelEffect), e ≠ .ssh_channel_send_eof →
      eofSentCount (d.emit e).log = eofSentCount d.log := by
    intro d e he
    have h0 : List.count ChannelEffect.ssh_channel_send_eof [e] = 0 :=
      List.count_eq_zero.mpr (by simpa using he.symm)
    simp [LibsshQtChannel.emit, eofSentCount, List.count_append, h0]
  unfold LibsshQtChannel.checkIo LibsshQtChannel.checkIoTransfer
  simp only [hc, Bool.not_true, Bool.false_eq_true, if_false]
  split_ifs <;>
    simp only [LibsshQtChannel.emit, eofSentCount, List.count_append] <;>
    simp_all [LibsshQtChannel.emit, eofSentCount, List.count_append]

/-- One `checkIo` keeps the EOF sequencing state. -/
theorem eofDeferred_checkIo (sent : Nat) (r : LibsshQtChannel) (io : ChannelIo)
    (h : EofDeferred sent r) : EofDeferred sent (r.checkIo io) := by
  obtain ⟨hc, h⟩ := h
  obtain ⟨c1, c2, c3, c4⟩ := checkIo_eof r io hc
  refine ⟨c1, ?_⟩
  rcases h with ⟨hw, he, hn⟩ | ⟨hw, he, hn⟩
  · by_cases hb : (r.checkIo io).write_buffer_ = []
    · right
      rw [he] at c2 c3
      simp only [hb, and_self, if_true] at c2 c3
      exact ⟨hb, c2, by rw [c3, hn]⟩
    · left
      rw [he] at c2 c3
      simp only [hb, and_false, if_false] at c2 c3
      exact ⟨hb, c2, by rw [c3, hn]⟩
  · right
    rw [he] at c2 c3
    simp only [reduceCtorEq, false_and, if_false] at c2 c3
    exact ⟨c4 hw, c2, by rw [c3, hn]⟩

/-- A run of `checkIo` steps keeps the EOF sequencing state. -/
theorem eofDeferred_run (sent : Nat) (ios : List ChannelIo) (r : LibsshQtChannel)
    (h : EofDeferred sent r) : EofDeferred sent (checkIoRun ios r) := by
  induction ios generalizing r with
  | nil => exact h
  | cons io ios ih => exact ih _ (eofDeferred_checkIo sent r io h)

/-- C4: after `sendEof()` on an open handle with a non-empty write buffer (EOF
not sent before), at every later point of a run of `checkIo` steps: while the
write buffer is still non-empty the EOF state is `EofQueued` and no EOF has
been sent to the handle, and once it is empty the state is `EofSent` and EOF
has been sent exactly once. -/
theorem sendEof_deferred_until_drained (ch : LibsshQtChannel) (ios : List ChannelIo)
    (hc : ch.channel_ = true) (he : ch.eof_state_ ≠ .EofSent)
    (hw : ch.write_buffer_ ≠ []) :
    ch.sendEof.eof_state_ = .EofQueued ∧
    eofSentCount ch.sendEof.log = eofSentCount ch.log ∧
    ((checkIoRun ios ch.sendEof).write_buffer_ ≠ [] →
      (checkIoRun ios ch.sendEof).eof_state_ = .EofQueued ∧
      eofSentCount (checkIoRun ios ch.sendEof).log = eofSentCount ch.log) ∧
    ((checkIoRun ios ch.sendEof).write_buffer_ = [] →
      (checkIoRun ios ch.sendEof).eof_state_ = .EofSent ∧
      eofSentCount (checkIoRun ios ch.sendEof).log = eofSentCount ch.log + 1) := by
  have hq : ch.sendEof = { ch with eof_state_ := .EofQueued } := by
    unfold LibsshQtChannel.sendEof
    cases h : ch.eof_state_
    · simp
    · simp only [reduceCtorEq, if_false]
      cases ch
      simp_all
    · exact absurd h he
  have h0 : EofDeferred (eofSentCount ch.log) ch.sendEof := by
    rw [hq]
    exact ⟨hc, Or.inl ⟨hw, rfl, rfl⟩⟩
  obtain ⟨-, h⟩ := eofDeferred_run _ ios _ h0
  refine ⟨by rw [hq], by rw [hq], ?_, ?_⟩
  · intro hb
    rcases h with ⟨_, h2, h3⟩ | ⟨h1, _, _⟩
    · exact ⟨h2, h3⟩
    · exact absurd h1 hb
  · intro hb
    rcases h with ⟨h1, _, _⟩ | ⟨_, h2, h3⟩
    · exact absurd hb h1
    · exact ⟨h2, h3⟩

/-- C4 (witness): with two bytes buffered and a handle that takes one byte per
step, EOF is still queued after the first step and sent after the second. -/
theorem sendEof_deferred_until_drained_witness :
    (checkIoRun [{ acceptAll with write := fun _ => 1 }]
      ({ LibsshQtChannel.new with channel_ := true, write_buffer_ := [1, 2] }).sendEof).eof_state_ = .EofQueued ∧
    (checkIoRun [{ acceptAll with write := fun _ => 1 }, acceptAll]
      ({ LibsshQtChannel.new with channel_ := true, write_buffer_ := [1, 2] }).sendEof).eof_state_ = .EofSent := 
  ⟨((sendEof_deferred_until_drained { LibsshQtChannel.new with channel_ := true, write_buffer_ := [1, 2] }
      [{ acceptAll with write := fun _ => 1 }] (by decide) (by decide) (by decide)).2.2.1
      (by decide)).1,
   ((sendEof_deferred_until_drained { LibsshQtChannel.new with channel_ := true, write_buffer_ := [1, 2] }
      [{ acceptAll with write := fun _ => 1 }, acceptAll] (by decide) (by decide) (by decide)).2.2.2
      (by decide)).1⟩

/-- The only change `checkIo` makes to the EOF state is from queued to sent. -/
theorem checkIo_eof_any (ch : LibsshQtChannel) (io : ChannelIo) :
    (ch.checkIo io).eof_state_ = ch.eof_state_ ∨
    (ch.eof_state_ = .EofQueued ∧ (ch.checkIo io).eof_state_ = .EofSent) := by
  by_cases hc : ch.channel_ = true
  · obtain ⟨-, c2, -, -⟩ := checkIo_eof ch io hc
    by_cases h : ch.eof_state_ = .EofQueued ∧ (ch.checkIo io).write_buffer_ = []
    · rw [if_pos h] at c2
      exact Or.inr ⟨h.1, c2⟩
    · rw [if_neg h] at c2
      exact Or.inl c2
  · left
    simp [LibsshQtChannel.checkIo, hc]

/-- Every channel operation moves the EOF state by at most one place, never
back. -/
theorem applyChannelOp_eof (ch : LibsshQtChannel) (op : ChannelOp) :
    EofAdvance ch.eof_state_ (applyChannelOp ch op).eof_state_ := by
  cases op with
  | sendEof =>
    simp only [applyChannelOp, LibsshQtChannel.sendEof]
    cases h : ch.eof_state_ <;> simp [EofAdvance, eofRank, h]
  | writeData data =>
    simp only [applyChannelOp, LibsshQtChannel.writeData]
    split_ifs <;> simp [EofAdvance, LibsshQtChannel.emit]
  | readData maxlen =>
    simp [applyChannelOp, LibsshQtChannel.readData, EofAdvance, LibsshQtChannel.emit]
  | checkIo io =>
    simp only [applyChannelOp]
    rcases checkIo_eof_any ch io with h | ⟨h1, h2⟩
    · rw [h]; simp [EofAdvance]
    · rw [h1, h2]; simp [EofAdvance, eofRank]
  | close is_open =>
    simp only [applyChannelOp, LibsshQtChannel.close]
    split_ifs <;> simp [EofAdvance, LibsshQtChannel.emit]

/-- C5: under every sequence of `sendEof`, `writeData`, `readData`, `checkIo`
and `close` the EOF state moves forward only, one place at a time in the order
`EofNotSent`, `EofQueued`, `EofSent`; no operation takes it from `EofNotSent`
to `EofSent`. -/
theorem eof_state_monotonic (ops : List ChannelOp) (ch : LibsshQtChannel) :
    List.Chain EofAdvance ch.eof_state_ (eofTrace ops ch) ∧
    (∀ op, ¬ (ch.eof_state_ = .EofNotSent ∧ (applyChannelOp ch op).eof_state_ = .EofSent)) := by
  constructor
  · induction ops generalizing ch with
    | nil => exact List.Chain.nil
    | cons op ops ih => exact List.Chain.cons (applyChannelOp_eof ch op) (ih _)
  · rintro op ⟨h1, h2⟩
    have h := applyChannelOp_eof ch op
    rw [h1, h2] at h
    simp [EofAdvance, eofRank] at h

/-- The effects since a log that has been extended are the extension. -/
theorem effectsSince_append (l e : List ChannelEffect) : effectsSince l (l ++ e) = e := by
  simp [effectsSince]

/-- The local read array has exactly as many cells as were requested. -/
theorem readArray_length (n : Int) (data : List UInt8) :
    (readArray n data).length = n.toNat := by
  simp [readArray]

/-- The length up to the first zero byte of a zero-terminated array is at most
the array length without the terminator. -/
theorem takeWhile_terminated_length (l : List UInt8) :
    ((l ++ [0]).takeWhile (fun b => b ≠ 0)).length ≤ l.length := by
  induction l with
  | nil => simp
  | cons a l ih =>
    by_cases h : a = 0
    · simp [List.takeWhile_cons, h]
    · simp only [ne_eq] at ih
      simp only [List.cons_append, List.takeWhile_cons, ne_eq, h, not_false_eq_true,
        decide_True, if_true, List.length_cons]
      omega

/-- Appending from a zero-terminated array of `n` cells with a count of at most
`n` grows the buffer by at most `n` bytes, also when the count is negative. -/
theorem append_length_le (buf arr : List UInt8) (len : Int) (n : Nat)
    (harr : arr.length = n) (hlen : len ≤ n) :
    (QByteArray.append buf (arr ++ [0]) len).length ≤ buf.length + n := by
  unfold QByteArray.append
  split_ifs with h
  · have := takeWhile_terminated_length arr
    simp only [List.length_append]
    omega
  · simp only [List.length_append, List.length_take, List.length_singleton]
    omega

/-- The read half of `checkIo` in closed form: one read of `readCount` bytes when
that count is positive, nothing otherwise. -/
theorem checkIoRead_spec (ch : LibsshQtChannel) (io : ChannelIo) :
    (ch.checkIoRead io).1 =
      if 0 < readCount ch io then
        { ch with
          read_buffer_ := QByteArray.append ch.read_buffer_
            (readArray (readCount ch io) (io.read (readCount ch io)).data ++ [0])
            (io.read (readCount ch io)).ret
          log := ch.log ++ [.ssh_channel_read_nonblocking (readCount ch io) false] }
      else ch := by
  unfold LibsshQtChannel.checkIoRead readCount
  dsimp only
  by_cases h1 : io.poll > 0
  · by_cases h2 : io.poll > ch.buffer_size_ - ch.read_buffer_.length
    · have hm : min io.poll (ch.buffer_size_ - ↑ch.read_buffer_.length) =
          ch.buffer_size_ - ↑ch.read_buffer_.length := min_eq_right (le_of_lt h2)
      simp only [h1, h2, if_true, hm]
      split_ifs <;> simp_all [LibsshQtChannel.emit]
    · have hm : min io.poll (ch.buffer_size_ - ↑ch.read_buffer_.length) = io.poll :=
        min_eq_left (not_lt.mp h2)
      simp only [h1, h2, if_true, if_false, hm]
      simp [LibsshQtChannel.emit, h1]
  · have hm : ¬ 0 < min io.poll (ch.buffer_size_ - ↑ch.read_buffer_.length) := by
      intro h
      exact h1 (lt_of_lt_of_le h (min_le_left _ _))
    simp only [h1, if_false, hm]

/-- The write half of `checkIo` in closed form. -/
theorem checkIoWrite_spec (ch : LibsshQtChannel) (io : ChannelIo) :
    (ch.checkIoWrite io).1.write_buffer_ =
      (if 0 < writeCount ch then
        QByteArray.remove0 ch.write_buffer_
          (io.write (ch.write_buffer_.take (writeCount ch).toNat))
       else ch.write_buffer_) ∧
    (ch.checkIoWrite io).1.log =
      ch.log ++
      (if 0 < writeCount ch then
        [.ssh_channel_write (ch.write_buffer_.take (writeCount ch).toNat)] else []) ++
      (if (ch.checkIoWrite io).1.write_buffer_ ≠ [] then [.enableWritableNotifier] else []) ++
      (if ch.eof_state_ = .EofQueued ∧ (ch.checkIoWrite io).1.write_buffer_ = [] then
        [.ssh_channel_send_eof] else []) ∧
    (ch.checkIoWrite io).2.1 =
      decide (0 < writeCount ch ∧
        0 < io.write (ch.write_buffer_.take (writeCount ch).toNat)) ∧
    (ch.checkIoWrite io).2.2 =
      (if 0 < writeCount ch then io.write (ch.write_buffer_.take (writeCount ch).toNat)
       else 0) := by
  unfold LibsshQtChannel.checkIoWrite writeCount
  dsimp only
  by_cases h2 : (ch.write_buffer_.length : Int) > ch.write_size_
  · have hm : min (ch.write_buffer_.length : Int) ch.write_size_ = ch.write_size_ :=
      min_eq_right (le_of_lt h2)
    simp only [h2, if_true, hm]
    split_ifs <;> simp_all [LibsshQtChannel.emit]
  · have hm : min (ch.write_buffer_.length : Int) ch.write_size_ = ch.write_buffer_.length :=
      min_eq_left (not_lt.mp h2)
    simp only [h2, if_false, hm]
    split_ifs <;> simp_all [LibsshQtChannel.emit]

/-- The reads, writes and `bytesWritten` signals among the effects of one
`checkIo`. -/
theorem effects_shape (r : Int) (d : List UInt8) (n : Int)
    (c1 c2 c3 c4 c5 c6 : Prop) [Decidable c1] [Decidable c2] [Decidable c3] [Decidable c4]
    [Decidable c5] [Decidable c6] :
    readsOf ((if c1 then [ChannelEffect.ssh_channel_read_nonblocking r false] else []) ++
        (if c2 then [ChannelEffect.ssh_channel_write d] else []) ++
        (if c3 then [ChannelEffect.enableWritableNotifier] else []) ++
        (if c4 then [ChannelEffect.ssh_channel_send_eof] else []) ++
        (if c5 then [ChannelEffect.readyRead] else []) ++
        (if c6 then [ChannelEffect.bytesWritten n] else [])) =
      (if c1 then [(r, false)] else []) ∧
    writesOf ((if c1 then [ChannelEffect.ssh_channel_read_nonblocking r false] else []) ++
        (if c2 then [ChannelEffect.ssh_channel_write d] else []) ++
        (if c3 then [ChannelEffect.enableWritableNotifier] else []) ++
        (if c4 then [ChannelEffect.ssh_channel_send_eof] else []) ++
        (if c5 then [ChannelEffect.readyRead] else []) ++
        (if c6 then [ChannelEffect.bytesWritten n] else [])) =
      (if c2 then [d] else []) ∧
    bytesWrittenOf ((if c1 then [ChannelEffect.ssh_channel_read_nonblocking r false] else []) ++
        (if c2 then [ChannelEffect.ssh_channel_write d] else []) ++
        (if c3 then [ChannelEffect.enableWritableNotifier] else []) ++
        (if c4 then [ChannelEffect.ssh_channel_send_eof] else []) ++
        (if c5 then [ChannelEffect.readyRead] else []) ++
        (if c6 then [ChannelEffect.bytesWritten n] else [])) =
      (if c6 then [n] else []) := by
  refine ⟨?_, ?_, ?_⟩ <;>
    simp only [readsOf, writesOf, bytesWrittenOf, List.filterMap_append] <;>
    split_ifs <;> rfl

/-- The members after `checkIo` on an open handle, in terms of its two halves. -/
theorem checkIo_fields (ch : LibsshQtChannel) (io : ChannelIo) (hc : ch.channel_ = true) :
    (ch.checkIo io).log =
      ((ch.checkIoRead io).1.checkIoWrite io).1.log ++
      (if (ch.checkIoRead io).2 = true then [ChannelEffect.readyRead] else []) ++
      (if ((ch.checkIoRead io).1.checkIoWrite io).2.1 = true then
        [ChannelEffect.bytesWritten ((ch.checkIoRead io).1.checkIoWrite io).2.2] else []) ∧
    (ch.checkIo io).read_buffer_ = ((ch.checkIoRead io).1.checkIoWrite io).1.read_buffer_ ∧
    (ch.checkIo io).write_buffer_ = ((ch.checkIoRead io).1.checkIoWrite io).1.write_buffer_ ∧
    (ch.checkIo io).buffer_size_ = ((ch.checkIoRead io).1.checkIoWrite io).1.buffer_size_ ∧
    (ch.checkIo io).write_size_ = ((ch.checkIoRead io).1.checkIoWrite io).1.write_size_ ∧
    (ch.checkIo io).channel_ = ((ch.checkIoRead io).1.checkIoWrite io).1.channel_ ∧
    (ch.checkIo io).eof_state_ = ((ch.checkIoRead io).1.checkIoWrite io).1.eof_state_ ∧
    (ch.checkIo io).device_open_ = ((ch.checkIoRead io).1.checkIoWrite io).1.device_open_ := by
  unfold LibsshQtChannel.checkIo LibsshQtChannel.checkIoTransfer
  simp only [hc, Bool.not_true, Bool.false_eq_true, if_false]
  split_ifs <;> simp [LibsshQtChannel.emit]

/-- One `checkIo` on an open handle in closed form: buffers, caps, and the reads,
writes and `bytesWritten` signals it adds to the log. -/
theorem checkIo_spec (ch : LibsshQtChannel) (io : ChannelIo) (hc : ch.channel_ = true) :
    (ch.checkIo io).read_buffer_ = (ch.checkIoRead io).1.read_buffer_ ∧
    (ch.checkIo io).write_buffer_ =
      (if 0 < writeCount ch then
        QByteArray.remove0 ch.write_buffer_
          (io.write (ch.write_buffer_.take (writeCount ch).toNat))
       else ch.write_buffer_) ∧
    (ch.checkIo io).buffer_size_ = ch.buffer_size_ ∧
    (ch.checkIo io).write_size_ = ch.write_size_ ∧
    (ch.checkIo io).channel_ = true ∧
    (ch.checkIo io).log = ch.log ++ effectsSince ch.log (ch.checkIo io).log ∧
    readsOf (effectsSince ch.log (ch.checkIo io).log) =
      (if 0 < readCount ch io then [(readCount ch io, false)] else []) ∧
    writesOf (effectsSince ch.log (ch.checkIo io).log) =
      (if 0 < writeCount ch then [ch.write_buffer_.take (writeCount ch).toNat] else []) ∧
    bytesWrittenOf (effectsSince ch.log (ch.checkIo io).log) =
      (if 0 < writeCount ch ∧ 0 < io.write (ch.write_buffer_.take (writeCount ch).toNat) then
        [io.write (ch.write_buffer_.take (writeCount ch).toNat)] else []) := by
  have hr := checkIoRead_spec ch io
  have hrw : (ch.checkIoRead io).1.write_buffer_ = ch.write_buffer_ := by
    rw [hr]; split_ifs <;> rfl
  have hre : (ch.checkIoRead io).1.eof_state_ = ch.eof_state_ := by
    rw [hr]; split_ifs <;> rfl
  have hrs : (ch.checkIoRead io).1.write_size_ = ch.write_size_ := by
    rw [hr]; split_ifs <;> rfl
  have hrb : (ch.checkIoRead io).1.buffer_size_ = ch.buffer_size_ := by
    rw [hr]; split_ifs <;> rfl
  have hrc : (ch.checkIoRead io).1.channel_ = ch.channel_ := by
    rw [hr]; split_ifs <;> rfl
  have hrl : (ch.checkIoRead io).1.log = ch.log ++
      (if 0 < readCount ch io then [.ssh_channel_read_nonblocking (readCount ch io) false]
       else []) := by
    rw [hr]; split_ifs <;> simp
  have hwc : writeCount (ch.checkIoRead io).1 = writeCount ch := by
    simp [writeCount, hrw, hrs]
  obtain ⟨w1, w2, w3, w4⟩ := checkIoWrite_spec (ch.checkIoRead io).1 io
  obtain ⟨f1, f2, -, f4, f5⟩ := checkIoWrite_frame (ch.checkIoRead io).1 io
  obtain ⟨g1, g2, g3, g4, g5, g6, -, -⟩ := checkIo_fields ch io hc
  rw [hwc, hrw] at w1 w3 w4
  rw [hwc, hrw, hre, hrl] at w2
  rw [w2] at g1
  clear hr
  generalize hX : effectsSince ch.log (ch.checkIo io).log = X
  have hX2 : X = (if 0 < readCount ch io then
          [ChannelEffect.ssh_channel_read_nonblocking (readCount ch io) false] else []) ++
        (if 0 < writeCount ch then
          [ChannelEffect.ssh_channel_write (ch.write_buffer_.take (writeCount ch).toNat)]
          else []) ++
        (if ((ch.checkIoRead io).1.checkIoWrite io).1.write_buffer_ ≠ [] then
          [ChannelEffect.enableWritableNotifier] else []) ++
        (if ch.eof_state_ = .EofQueued ∧
            ((ch.checkIoRead io).1.checkIoWrite io).1.write_buffer_ = [] then
          [ChannelEffect.ssh_channel_send_eof] else []) ++
        (if (ch.checkIoRead io).2 = true then [ChannelEffect.readyRead] else []) ++
        (if ((ch.checkIoRead io).1.checkIoWrite io).2.1 = true then
          [ChannelEffect.bytesWritten ((ch.checkIoRead io).1.checkIoWrite io).2.2] else []) := by
    rw [← hX, g1]
    simp only [List.append_assoc]
    exact effectsSince_append _ _
  refine ⟨g2.trans f1, g3.trans w1, (g4.trans f4).trans hrb, (g5.trans f5).trans hrs,
    (g6.trans f2).trans (hrc.trans hc), ?_, ?_, ?_, ?_⟩
  · rw [g1, hX2]
    simp only [List.append_assoc]
  · rw [hX2]
    exact (effects_shape _ _ _ _ _ _ _ _ _).1
  · rw [hX2]
    exact (effects_shape _ _ _ _ _ _ _ _ _).2.1
  · rw [hX2, (effects_shape _ _ _ _ _ _ _ _ _).2.2, w3, w4]
    by_cases h1 : 0 < writeCount ch
    · by_cases h2 : 0 < io.write (ch.write_buffer_.take (writeCount ch).toNat)
      · simp [h1, h2]
      · simp [h1, h2]
    · simp [h1]

/-- Without a handle `checkIo` does nothing. -/
theorem checkIo_closed (ch : LibsshQtChannel) (io : ChannelIo) (hc : ch.channel_ = false) :
    ch.checkIo io = ch := by
  simp [LibsshQtChannel.checkIo, hc]

/-- No effects since a log that has not grown. -/
theorem effectsSince_self (l : List ChannelEffect) : effectsSince l l = [] := by
  simp [effectsSince]

/-- C6: given that the nonblocking read returns no more than was requested,
`checkIo` never grows the read buffer beyond `buffer_size_` (16384 by default,
so a buffer of at most 16384 bytes stays so), whatever the poll reports; the
only read it makes asks for `min(available, buffer_size_ - size)` bytes, and
only when that is positive. -/
theorem checkIo_read_cap (ch : LibsshQtChannel) (io : ChannelIo)
    (hret : ∀ n, (io.read n).ret ≤ n) :
    LibsshQtChannel.new.buffer_size_ = 16384 ∧
    ((ch.checkIo io).read_buffer_.length : Int) ≤
      max (ch.read_buffer_.length : Int) ch.buffer_size_ ∧
    (ch.buffer_size_ = 16384 → ch.read_buffer_.length ≤ 16384 →
      (ch.checkIo io).read_buffer_.length ≤ 16384) ∧
    readsOf (effectsSince ch.log (ch.checkIo io).log) =
      (if ch.channel_ = true ∧ 0 < readCount ch io then [(readCount ch io, false)] else []) ∧
    (∀ n s, (n, s) ∈ readsOf (effectsSince ch.log (ch.checkIo io).log) →
      s = false ∧ 0 < n ∧ n ≤ io.poll ∧ n ≤ ch.buffer_size_ - ch.read_buffer_.length) := by
  have hbound : ((ch.checkIo io).read_buffer_.length : Int) ≤
      max (ch.read_buffer_.length : Int) ch.buffer_size_ := by
    by_cases hc : ch.channel_ = true
    · obtain ⟨s1, -⟩ := checkIo_spec ch io hc
      rw [s1, checkIoRead_spec]
      by_cases hm : 0 < readCount ch io
      · simp only [hm, if_true]
        have h1 := append_length_le ch.read_buffer_
          (readArray (readCount ch io) (io.read (readCount ch io)).data)
          (io.read (readCount ch io)).ret (readCount ch io).toNat
          (readArray_length _ _)
          (by have := hret (readCount ch io); omega)
        have h2 : readCount ch io ≤ ch.buffer_size_ - ch.read_buffer_.length :=
          min_le_right _ _
        have h3 : ((readCount ch io).toNat : Int) = readCount ch io :=
          Int.toNat_of_nonneg (le_of_lt hm)
        apply le_max_of_le_right
        omega
      · simp only [hm, if_false]
        exact le_max_left _ _
    · rw [checkIo_closed ch io (by simpa using hc)]
      exact le_max_left _ _
  have hreads : readsOf (effectsSince ch.log (ch.checkIo io).log) =
      (if ch.channel_ = true ∧ 0 < readCount ch io then [(readCount ch io, false)]
       else []) := by
    by_cases hc : ch.channel_ = true
    · obtain ⟨-, -, -, -, -, -, s7, -⟩ := checkIo_spec ch io hc
      rw [s7]
      simp [hc]
    · rw [checkIo_closed ch io (by simpa using hc), effectsSince_self]
      simp [hc, readsOf]
  refine ⟨rfl, hbound, ?_, hreads, ?_⟩
  · intro hb hl
    rw [hb] at hbound
    have : ((ch.checkIo io).read_buffer_.length : Int) ≤ 16384 :=
      le_trans hbound (max_le (by exact_mod_cast hl) (le_refl _))
    exact_mod_cast this
  · intro n s hmem
    rw [hreads] at hmem
    split_ifs at hmem with h
    · simp only [List.mem_singleton, Prod.mk.injEq] at hmem
      obtain ⟨rfl, rfl⟩ := hmem
      exact ⟨rfl, h.2, min_le_left _ _, min_le_right _ _⟩
    · simp at hmem

/-- C6 (witness): one byte buffered, 100000 bytes reported available, and a read
that fills every request: the buffer ends at no more than 16384 bytes. -/
theorem checkIo_read_cap_witness :
    (({ LibsshQtChannel.new with channel_ := true, read_buffer_ := [7] }).checkIo
      { acceptAll with
        poll := 100000, read := fun n => ⟨List.replicate n.toNat 65, n⟩ }).read_buffer_.length
      ≤ 16384 :=
  (checkIo_read_cap { LibsshQtChannel.new with channel_ := true, read_buffer_ := [7] }
    { acceptAll with poll := 100000, read := fun n => ⟨List.replicate n.toNat 65, n⟩ }
    (fun n => le_refl n)).2.2.1 (by decide) (by decide)

/-- The log only grows in `checkIo`. -/
theorem checkIo_log_prefix (ch : LibsshQtChannel) (io : ChannelIo) :
    (ch.checkIo io).log = ch.log ++ effectsSince ch.log (ch.checkIo io).log := by
  by_cases hc : ch.channel_ = true
  · exact (checkIo_spec ch io hc).2.2.2.2.2.1
  · rw [checkIo_closed ch io (by simpa using hc), effectsSince_self, List.append_nil]

/-- The log only grows in a run of `checkIo` steps. -/
theorem checkIoRun_log_prefix (ios : List ChannelIo) (ch : LibsshQtChannel) :
    (checkIoRun ios ch).log = ch.log ++ effectsSince ch.log (checkIoRun ios ch).log := by
  induction ios generalizing ch with
  | nil => simp [checkIoRun, effectsSince_self]
  | cons io ios ih =>
    have h1 := checkIo_log_prefix ch io
    have h2 := ih (ch.checkIo io)
    simp only [checkIoRun]
    generalize effectsSince (ch.checkIo io).log (checkIoRun ios (ch.checkIo io)).log = Y at h2
    generalize effectsSince ch.log (ch.checkIo io).log = X at h1
    rw [h2, h1, List.append_assoc, effectsSince_append]

/-- The effects of a run are those of its first step followed by those of the
rest. -/
theorem effectsSince_run_cons (io : ChannelIo) (ios : List ChannelIo) (ch : LibsshQtChannel) :
    effectsSince ch.log (checkIoRun (io :: ios) ch).log =
      effectsSince ch.log (ch.checkIo io).log ++
        effectsSince (ch.checkIo io).log (checkIoRun ios (ch.checkIo io)).log := by
  have h1 := checkIo_log_prefix ch io
  have h2 := checkIoRun_log_prefix ios (ch.checkIo io)
  simp only [checkIoRun]
  generalize effectsSince (ch.checkIo io).log (checkIoRun ios (ch.checkIo io)).log = Y at h2 ⊢
  generalize effectsSince ch.log (ch.checkIo io).log = X at h1 ⊢
  rw [h2, h1, List.append_assoc, effectsSince_append]

/-- Removing `len` bytes from the front drops `len` bytes, none when `len` is
not positive. -/
theorem remove0_eq_drop (buf : List UInt8) (len : Int) :
    QByteArray.remove0 buf len = buf.drop len.toNat := by
  unfold QByteArray.remove0
  split_ifs with h
  · have : len.toNat = 0 := Int.toNat_eq_zero.mpr h
    rw [this, List.drop_zero]
  · rfl

/-- One `checkIo`: the chunk offered is the first `writeCount` bytes of the write
buffer, the bytes the handle reports written leave the front of the buffer,
and `bytesWritten` carries that count. -/
theorem checkIo_write_step (ch : LibsshQtChannel) (io : ChannelIo) :
    (writesOf (effectsSince ch.log (ch.checkIo io).log) =
      if ch.channel_ = true ∧ 0 < writeCount ch then
        [ch.write_buffer_.take (writeCount ch).toNat] else []) ∧
    ((ch.checkIo io).write_buffer_ =
      if ch.channel_ = true ∧ 0 < writeCount ch then
        ch.write_buffer_.drop (io.write (ch.write_buffer_.take (writeCount ch).toNat)).toNat
      else ch.write_buffer_) ∧
    (bytesWrittenOf (effectsSince ch.log (ch.checkIo io).log) =
      if ch.channel_ = true ∧ 0 < writeCount ch ∧
          0 < io.write (ch.write_buffer_.take (writeCount ch).toNat) then
        [io.write (ch.write_buffer_.take (writeCount ch).toNat)] else []) := by
  by_cases hc : ch.channel_ = true
  · obtain ⟨-, s2, -, -, -, -, -, s8, s9⟩ := checkIo_spec ch io hc
    rw [s2, s8, s9]
    simp only [hc, true_and, remove0_eq_drop]
  · rw [checkIo_closed ch io (by simpa using hc), effectsSince_self]
    simp [hc, writesOf, bytesWrittenOf]

/-- Over any run the bytes the handle accepted, followed by the bytes still
buffered, are the bytes that were buffered at the start. -/
theorem acceptedBytes_fifo (ios : List ChannelIo) (ch : LibsshQtChannel)
    (hw : ∀ io ∈ ios, ∀ d, io.write d ≤ d.length) :
    acceptedBytes ios ch ++ (checkIoRun ios ch).write_buffer_ = ch.write_buffer_ := by
  induction ios generalizing ch with
  | nil => simp [acceptedBytes, checkIoRun]
  | cons io ios ih =>
    have hio := hw io (List.mem_cons_self _ _)
    have ih' := ih (ch.checkIo io) (fun i hi => hw i (List.mem_cons_of_mem _ hi))
    obtain ⟨s1, s2, -⟩ := checkIo_write_step ch io
    simp only [acceptedBytes, checkIoRun, List.append_assoc, ih', s1]
    rw [s2]
    split_ifs with h
    · have hle := hio (ch.write_buffer_.take (writeCount ch).toNat)
      simp only [List.map_cons, List.map_nil, List.flatten_cons, List.flatten_nil, List.append_nil,
        List.take_take]
      have hmin : min (io.write (List.take (writeCount ch).toNat ch.write_buffer_)).toNat
          (writeCount ch).toNat =
          (io.write (List.take (writeCount ch).toNat ch.write_buffer_)).toNat := by
        apply min_eq_left
        have := List.length_take_le (writeCount ch).toNat ch.write_buffer_
        omega
      rw [hmin, List.take_append_drop]
    · simp

/-- One `checkIo` against a handle that accepts every chunk whole. -/
theorem checkIo_accept_step (ch : LibsshQtChannel) (io : ChannelIo)
    (hc : ch.channel_ = true) (hio : ∀ d : List UInt8, io.write d = d.length)
    (hwc : 0 < writeCount ch) :
    writesOf (effectsSince ch.log (ch.checkIo io).log) =
      [ch.write_buffer_.take (writeCount ch).toNat] ∧
    (ch.checkIo io).write_buffer_ = ch.write_buffer_.drop (writeCount ch).toNat ∧
    bytesWrittenOf (effectsSince ch.log (ch.checkIo io).log) = [writeCount ch] ∧
    (ch.checkIo io).channel_ = true ∧
    (ch.checkIo io).write_size_ = ch.write_size_ := by
  obtain ⟨s1, s2, s3⟩ := checkIo_write_step ch io
  obtain ⟨-, -, -, t4, t5, -⟩ := checkIo_spec ch io hc
  have hle : writeCount ch ≤ ch.write_buffer_.length := min_le_left _ _
  have hlen : ((ch.write_buffer_.take (writeCount ch).toNat).length : Int) = writeCount ch := by
    rw [List.length_take]
    omega
  have hw : io.write (ch.write_buffer_.take (writeCount ch).toNat) = writeCount ch := by
    rw [hio, hlen]
  rw [hw] at s2 s3
  refine ⟨?_, ?_, ?_, t5, t4⟩
  · rw [s1, if_pos ⟨hc, hwc⟩]
  · rw [s2, if_pos ⟨hc, hwc⟩]
  · rw [s3, if_pos ⟨hc, hwc, hwc⟩]

/-- With an empty write buffer a run of `checkIo` steps writes nothing. -/
theorem checkIoRun_idle (ios : List ChannelIo) (ch : LibsshQtChannel)
    (hb : ch.write_buffer_ = []) :
    writesOf (effectsSince ch.log (checkIoRun ios ch).log) = [] ∧
    bytesWrittenOf (effectsSince ch.log (checkIoRun ios ch).log) = [] ∧
    (checkIoRun ios ch).write_buffer_ = [] := by
  induction ios generalizing ch with
  | nil => simp [checkIoRun, effectsSince_self, writesOf, bytesWrittenOf, hb]
  | cons io ios ih =>
    obtain ⟨s1, s2, s3⟩ := checkIo_write_step ch io
    have hwc : ¬ 0 < writeCount ch := by
      simp [writeCount, hb]
    have h1 : ¬ (ch.channel_ = true ∧ 0 < writeCount ch) := fun h => hwc h.2
    have h2 : ¬ (ch.channel_ = true ∧ 0 < writeCount ch ∧
        0 < io.write (ch.write_buffer_.take (writeCount ch).toNat)) := fun h => hwc h.2.1
    rw [if_neg h1] at s1 s2
    rw [if_neg h2] at s3
    obtain ⟨i1, i2, i3⟩ := ih (ch.checkIo io) (s2.trans hb)
    rw [effectsSince_run_cons]
    refine ⟨?_, ?_, i3⟩
    · simp only [writesOf, List.filterMap_append] at s1 i1 ⊢
      rw [s1, i1]; rfl
    · simp only [bytesWrittenOf, List.filterMap_append] at s3 i2 ⊢
      rw [s3, i2]; rfl

/-- Before EOF is requested `writeData` appends the bytes. -/
theorem writeData_accepted (ch : LibsshQtChannel) (data : List UInt8)
    (he : ch.eof_state_ = .EofNotSent) :
    (ch.writeData data).1.write_buffer_ = ch.write_buffer_ ++ data ∧
    (ch.writeData data).1.channel_ = ch.channel_ ∧
    (ch.writeData data).1.write_size_ = ch.write_size_ := by
  simp [LibsshQtChannel.writeData, he, LibsshQtChannel.emit, QByteArray.append]

/-- Writing 40960 bytes with a 16384 byte cap to a handle that accepts
everything gives writes of 16384, 16384 and 8192 bytes and three
`bytesWritten` signals, however many further steps follow. -/
theorem forty_kib_three_chunks (ch : LibsshQtChannel) (data : List UInt8)
    (ios : List ChannelIo)
    (hc : ch.channel_ = true) (hb : ch.write_buffer_ = [])
    (he : ch.eof_state_ = .EofNotSent) (hws : ch.write_size_ = 16384)
    (hlen : data.length = 40960) (hn : 3 ≤ ios.length)
    (hio : ∀ io ∈ ios, ∀ d : List UInt8, io.write d = d.length) :
    writesOf (effectsSince (ch.writeData data).1.log
        (checkIoRun ios (ch.writeData data).1).log) =
      [data.take 16384, (data.drop 16384).take 16384, data.drop 32768] ∧
    bytesWrittenOf (effectsSince (ch.writeData data).1.log
        (checkIoRun ios (ch.writeData data).1).log) = [16384, 16384, 8192] ∧
    (checkIoRun ios (ch.writeData data).1).write_buffer_ = [] := by
  obtain ⟨d1, d2, d3⟩ := writeData_accepted ch data he
  rw [hb, List.nil_append] at d1
  rw [hc] at d2
  rw [hws] at d3
  generalize (ch.writeData data).1 = c1 at d1 d2 d3 ⊢
  match ios, hn, hio with
  | i1 :: i2 :: i3 :: rest, _, hio =>
    have hi1 := hio i1 (by simp)
    have hi2 := hio i2 (by simp)
    have hi3 := hio i3 (by simp)
    -- first step
    have w1 : writeCount c1 = 16384 := by simp [writeCount, d1, d3, hlen]
    obtain ⟨a1, a2, a3, a4, a5⟩ := checkIo_accept_step c1 i1 d2 hi1 (by rw [w1]; decide)
    rw [w1, d1] at a1 a2
    rw [w1] at a3
    rw [d3] at a5
    -- second step
    have w2 : writeCount (c1.checkIo i1) = 16384 := by
      simp [writeCount, a2, a5, hlen]
    obtain ⟨b1, b2, b3, b4, b5⟩ := checkIo_accept_step (c1.checkIo i1) i2 a4 hi2
      (by rw [w2]; decide)
    rw [w2, a2] at b1 b2
    rw [w2] at b3
    rw [a5] at b5
    -- third step
    have w3 : writeCount ((c1.checkIo i1).checkIo i2) = 8192 := by
      simp [writeCount, b2, b5, hlen]
    obtain ⟨e1, e2, e3, e4, e5⟩ := checkIo_accept_step ((c1.checkIo i1).checkIo i2) i3 b4 hi3
      (by rw [w3]; decide)
    rw [w3, b2] at e1 e2
    rw [w3] at e3
    have e2' : (((c1.checkIo i1).checkIo i2).checkIo i3).write_buffer_ = [] := by
      rw [e2]
      simp [List.drop_drop, hlen]
    obtain ⟨r1, r2, r3⟩ := checkIoRun_idle rest _ e2'
    refine ⟨?_, ?_, r3⟩
    · rw [effectsSince_run_cons, effectsSince_run_cons, effectsSince_run_cons]
      simp only [writesOf, List.filterMap_append] at a1 b1 e1 r1 ⊢
      rw [a1, b1, e1, r1]
      simp [List.drop_drop, hlen]
    · rw [effectsSince_run_cons, effectsSince_run_cons, effectsSince_run_cons]
      simp only [bytesWrittenOf, List.filterMap_append] at a3 b3 e3 r2 ⊢
      rw [a3, b3, e3, r2]
      rfl

/-- Doing nothing is quiet. -/
theorem Quiet.refl (p : LibsshQtProcess) : Quiet p p :=
  ⟨rfl, rfl, [], by simp, by simp⟩

/-- Quiet parts compose. -/
theorem Quiet.trans {p q r : LibsshQtProcess} (h1 : Quiet p q) (h2 : Quiet q r) : Quiet p r := by
  obtain ⟨a1, a2, X, a3, a4⟩ := h1
  obtain ⟨b1, b2, Y, b3, b4⟩ := h2
  refine ⟨b1.trans a1, b2.trans a2, X ++ Y, by rw [b3, a3, List.append_assoc], ?_⟩
  intro e he
  rcases List.mem_append.mp he with h | h
  · exact a4 e h
  · exact b4 e h

/-- The function `handleOutput` only prints. -/
theorem handleOutput_quiet (b : OutputBehaviourFlag) (pre : String) (line : List UInt8) :
    ∀ e ∈ handleOutput b pre line, isFinal e = false := by
  intro e he
  unfold handleOutput at he
  cases b <;> simp only [List.not_mem_nil] at he
  split_ifs at he <;> simp only [List.mem_singleton] at he <;> subst he <;> rfl

/-- The loop of `handleStdoutOutput` is quiet. -/
theorem stdoutLoop_quiet (n : Nat) (p : LibsshQtProcess) : Quiet p (LibsshQtProcess.stdoutLoop n p) := by
  induction n generalizing p with
  | zero => exact Quiet.refl p
  | succ n ih =>
    unfold LibsshQtProcess.stdoutLoop
    split_ifs
    · refine Quiet.trans ?_ (ih _)
      exact ⟨rfl, rfl, _, rfl, handleOutput_quiet _ _ _⟩
    · exact Quiet.refl p

/-- The loop of `handleStderrOutput` is quiet. -/
theorem stderrLoop_quiet (n : Nat) (p : LibsshQtProcess) : Quiet p (LibsshQtProcess.stderrLoop n p) := by
  induction n generalizing p with
  | zero => exact Quiet.refl p
  | succ n ih =>
    unfold LibsshQtProcess.stderrLoop
    split_ifs
    · refine Quiet.trans ?_ (ih _)
      exact ⟨rfl, rfl, _, rfl, handleOutput_quiet _ _ _⟩
    · exact Quiet.refl p

/-- The function `handleStdoutOutput` is quiet. -/
theorem handleStdoutOutput_quiet (p : LibsshQtProcess) : Quiet p p.handleStdoutOutput := by
  unfold LibsshQtProcess.handleStdoutOutput
  split_ifs
  · exact Quiet.refl p
  · exact stdoutLoop_quiet _ p

/-- The function `handleStderrOutput` is quiet. -/
theorem handleStderrOutput_quiet (p : LibsshQtProcess) : Quiet p p.handleStderrOutput := by
  unfold LibsshQtProcess.handleStderrOutput
  split_ifs
  · exact Quiet.refl p
  · exact stderrLoop_quiet _ p

/-- Recording an effect other than the exit status read and `finished` is
quiet. -/
theorem emit_quiet (p : LibsshQtProcess) (e : ChannelEffect) (he : isFinal e = false) :
    Quiet p (p.emit e) :=
  ⟨rfl, rfl, [e], rfl, by simpa using he⟩

/-- The stderr half of `LibsshQtProcess::checkIo` is quiet. -/
theorem checkIoStderr_quiet (p : LibsshQtProcess) (pio : ProcessIo) :
    Quiet p (p.checkIoStderr pio) := by
  have key : ∀ (n : Int) (buf : List UInt8) (b : Bool),
      Quiet p (if b = true then
        (({ p.emit (.ssh_channel_read_nonblocking n true) with stderr_buffer_ := buf }).emit
          .stderrReadyRead).handleStderrOutput
        else { p.emit (.ssh_channel_read_nonblocking n true) with stderr_buffer_ := buf }) := by
    intro n buf b
    have h1 : Quiet p { p.emit (.ssh_channel_read_nonblocking n true) with
        stderr_buffer_ := buf } :=
      ⟨rfl, rfl, [.ssh_channel_read_nonblocking n true], rfl, by simp [isFinal]⟩
    split_ifs
    · exact Quiet.trans h1 (Quiet.trans (emit_quiet _ .stderrReadyRead rfl)
        (handleStderrOutput_quiet _))
    · exact h1
  unfold LibsshQtProcess.checkIoStderr
  dsimp only
  split_ifs with h1 h2 h3 h4 h5
  · simpa [h4] using key _ _ true
  · simpa [h4] using key _ _ false
  · exact Quiet.refl p
  · simpa [h5] using key _ _ true
  · simpa [h5] using key _ _ false
  · exact Quiet.refl p

/-- The transfer part of `checkIo` only adds reads, writes, notifier requests
and the EOF to the log. -/
theorem checkIoTransfer_log (ch : LibsshQtChannel) (io : ChannelIo) :
    ∃ X, (ch.checkIoTransfer io).ch.log = ch.log ++ X ∧ ∀ e ∈ X, isFinal e = false := by
  have hr := checkIoRead_spec ch io
  have hrl : ∃ X, (ch.checkIoRead io).1.log = ch.log ++ X ∧ ∀ e ∈ X, isFinal e = false := by
    rw [hr]
    split_ifs
    · exact ⟨_, rfl, by simp [isFinal]⟩
    · exact ⟨[], by simp, by simp⟩
  obtain ⟨X, hX, hXq⟩ := hrl
  obtain ⟨-, w2, -, -⟩ := checkIoWrite_spec (ch.checkIoRead io).1 io
  refine ⟨X ++ ((if 0 < writeCount (ch.checkIoRead io).1 then
        [ChannelEffect.ssh_channel_write
          ((ch.checkIoRead io).1.write_buffer_.take (writeCount (ch.checkIoRead io).1).toNat)]
        else []) ++
      (if ((ch.checkIoRead io).1.checkIoWrite io).1.write_buffer_ ≠ [] then
        [ChannelEffect.enableWritableNotifier] else []) ++
      (if (ch.checkIoRead io).1.eof_state_ = .EofQueued ∧
          ((ch.checkIoRead io).1.checkIoWrite io).1.write_buffer_ = [] then
        [ChannelEffect.ssh_channel_send_eof] else [])), ?_, ?_⟩
  · show ((ch.checkIoRead io).1.checkIoWrite io).1.log = _
    rw [w2, hX]
    simp only [List.append_assoc]
  · intro e he
    simp only [List.mem_append] at he
    rcases he with he | (he | he) | he
    · exact hXq e he
    · split_ifs at he
      · simp only [List.mem_singleton] at he; subst he; rfl
      · simp at he
    · split_ifs at he
      · simp only [List.mem_singleton] at he; subst he; rfl
      · simp at he
    · split_ifs at he
      · simp only [List.mem_singleton] at he; subst he; rfl
      · simp at he

/-- The function `LibsshQtProcess::checkIo` is quiet. -/
theorem process_checkIo_quiet (p : LibsshQtProcess) (pio : ProcessIo) :
    Quiet p (p.checkIo pio) := by
  unfold LibsshQtProcess.checkIo
  by_cases hc : p.channel_ = true
  · simp only [hc, Bool.not_true, Bool.false_eq_true, if_false]
    obtain ⟨X, hX, hXq⟩ := checkIoTransfer_log p.toLibsshQtChannel pio.io
    have h1 : Quiet p { p with toLibsshQtChannel := (p.toLibsshQtChannel.checkIoTransfer pio.io).ch } :=
      ⟨rfl, rfl, X, hX, hXq⟩
    refine Quiet.trans h1 ?_
    have h2 : ∀ q : LibsshQtProcess, Quiet q
        (if (p.toLibsshQtChannel.checkIoTransfer pio.io).emit_ready_read = true then
          (q.emit .readyRead).handleStdoutOutput else q) := by
      intro q
      split_ifs
      · exact Quiet.trans (emit_quiet q .readyRead rfl) (handleStdoutOutput_quiet _)
      · exact Quiet.refl q
    have h3 : ∀ q : LibsshQtProcess, Quiet q
        (if (p.toLibsshQtChannel.checkIoTransfer pio.io).emit_bytes_written = true then
          q.emit (.bytesWritten (p.toLibsshQtChannel.checkIoTransfer pio.io).written) else q) := by
      intro q
      split_ifs
      · exact emit_quiet q (.bytesWritten _) rfl
      · exact Quiet.refl q
    have h4 : ∀ q : LibsshQtProcess, Quiet q
        (if (!q.channel_) = true then q else q.checkIoStderr pio) := by
      intro q
      split_ifs
      · exact Quiet.refl q
      · exact checkIoStderr_quiet q pio
    exact Quiet.trans (h2 _) (Quiet.trans (h3 _) (h4 _))
  · have hc' : p.channel_ = false := by simpa using hc
    simp only [hc', Bool.not_false, if_true]
    exact Quiet.refl p

/-- From `StateOpen`, `closeChannel` ends in `StateClosed`, keeps the exit code
and neither reads the exit status nor emits `finished`. -/
theorem closeChannel_open (p : LibsshQtProcess) (is_open : Int)
    (hs : p.state_ = .StateOpen) :
    (p.closeChannel is_open).state_ = .StateClosed ∧
    (p.closeChannel is_open).exit_code_ = p.exit_code_ ∧
    ∃ X, (p.closeChannel is_open).log = p.log ++ X ∧ ∀ e ∈ X, isFinal e = false := by
  have h1 : Quiet (p.setState .StateClosing)
      ((((p.setState .StateClosing).emit .readChannelFinished).handleStdoutOutput).handleStderrOutput) :=
    Quiet.trans (emit_quiet _ .readChannelFinished rfl)
      (Quiet.trans (handleStdoutOutput_quiet _) (handleStderrOutput_quiet _))
  have h0 : (p.setState .StateClosing).state_ = .StateClosing ∧
      (p.setState .StateClosing).exit_code_ = p.exit_code_ ∧
      (p.setState .StateClosing).log = p.log := by
    simp [LibsshQtProcess.setState, hs]
  have hres : p.closeChannel is_open =
      ({ { ((((p.setState .StateClosing).emit .readChannelFinished).handleStdoutOutput).handleStderrOutput) with
            toLibsshQtChannel := ((((p.setState .StateClosing).emit
              .readChannelFinished).handleStdoutOutput).handleStderrOutput).toLibsshQtChannel.close
                is_open } with
          stderr_open_ := false }).setState .StateClosed := by
    unfold LibsshQtProcess.closeChannel
    simp [hs]
  obtain ⟨a1, a2, X, a3, a4⟩ := h1
  rw [h0.1] at a1
  rw [h0.2.1] at a2
  rw [h0.2.2] at a3
  generalize ((((p.setState .StateClosing).emit .readChannelFinished).handleStdoutOutput).handleStderrOutput) = q at a1 a2 a3 hres
  have hclose : ∃ Y, (q.toLibsshQtChannel.close is_open).log = q.log ++ Y ∧
      ∀ e ∈ Y, isFinal e = false := by
    unfold LibsshQtChannel.close
    dsimp only
    split_ifs
    · exact ⟨[.ssh_channel_close, .ssh_channel_free], by simp [LibsshQtChannel.emit],
        by simp [isFinal]⟩
    · exact ⟨[.ssh_channel_free], by simp [LibsshQtChannel.emit], by simp [isFinal]⟩
    · exact ⟨[], by simp, by simp⟩
  obtain ⟨Y, hY, hYq⟩ := hclose
  rw [hres]
  refine ⟨?_, ?_, X ++ Y ++ [.closed], ?_, ?_⟩
  · simp [LibsshQtProcess.setState, a1, LibsshQtProcess.emit]
  · simp [LibsshQtProcess.setState, a1, a2, LibsshQtProcess.emit]
  · simp [LibsshQtProcess.setState, a1, LibsshQtProcess.emit, hY, a3]
  · intro e he
    simp only [List.mem_append, List.mem_singleton] at he
    rcases he with (he | he) | he
    · exact a4 e he
    · exact hYq e he
    · subst he; rfl

/-- Effects that are not final hold no `finished` signal and no exit status
read. -/
theorem not_final_lists (X : List ChannelEffect) (h : ∀ e ∈ X, isFinal e = false) :
    finishedOf X = [] ∧ exitStatusReads X = 0 := by
  induction X with
  | nil => exact ⟨rfl, rfl⟩
  | cons e X ih =>
    obtain ⟨i1, i2⟩ := ih (fun x hx => h x (List.mem_cons_of_mem _ hx))
    have he := h e (List.mem_cons_self _ _)
    unfold finishedOf exitStatusReads at *
    cases e <;> simp_all [isFinal]

/-- C9: a `processState` step of a process in `StateOpen` reads the exit status
and emits `finished(exitCode)` exactly when both polls made after `checkIo`
report end-of-stream; it then emits `finished` once, with the exit status the
handle returned, and leaves the process in `StateClosed`, where every later
step does nothing; otherwise it emits no `finished`, stays in `StateOpen` and
keeps the exit code. -/
theorem processState_finished_iff_eof (p : LibsshQtProcess) (pio : ProcessIo) (hs : p.state_ = .StateOpen) :
    (p.processState pio).log = p.log ++ effectsSince p.log (p.processState pio).log ∧
    (pio.eof_poll_stdout = SSH_EOF ∧ pio.eof_poll_stderr = SSH_EOF →
      finishedOf (effectsSince p.log (p.processState pio).log) = [pio.exit_status] ∧
      exitStatusReads (effectsSince p.log (p.processState pio).log) = 1 ∧
      (p.processState pio).state_ = .StateClosed ∧
      (p.processState pio).exitCode = pio.exit_status ∧
      ∀ pio', (p.processState pio).processState pio' = p.processState pio) ∧
    (¬ (pio.eof_poll_stdout = SSH_EOF ∧ pio.eof_poll_stderr = SSH_EOF) →
      finishedOf (effectsSince p.log (p.processState pio).log) = [] ∧
      exitStatusReads (effectsSince p.log (p.processState pio).log) = 0 ∧
      (p.processState pio).state_ = .StateOpen ∧
      (p.processState pio).exitCode = p.exitCode) := by
  obtain ⟨c1, c2, X, c3, c4⟩ := process_checkIo_quiet p pio
  rw [hs] at c1
  obtain ⟨x1, x2⟩ := not_final_lists X c4
  by_cases h : pio.eof_poll_stdout = SSH_EOF ∧ pio.eof_poll_stderr = SSH_EOF
  · obtain ⟨d, hdef⟩ : ∃ d : LibsshQtProcess, d =
        { (p.checkIo pio).emit .ssh_channel_get_exit_status with
          exit_code_ := pio.exit_status } := ⟨_, rfl⟩
    have hd : d.state_ = .StateOpen := by rw [hdef]; exact c1
    have hdl : d.log = p.log ++ X ++ [.ssh_channel_get_exit_status] := by
      rw [hdef]
      show (p.checkIo pio).log ++ [ChannelEffect.ssh_channel_get_exit_status] = _
      rw [c3]
    have hde : d.exit_code_ = pio.exit_status := by rw [hdef]
    obtain ⟨d1, d2, Y, d3, d4⟩ := closeChannel_open d pio.channel_is_open hd
    rw [hde] at d2
    rw [hdl] at d3
    obtain ⟨y1, y2⟩ := not_final_lists Y d4
    have hres : p.processState pio =
        (d.closeChannel pio.channel_is_open).emit (.finished pio.exit_status) := by
      rw [← d2, hdef]
      unfold LibsshQtProcess.processState
      simp only [hs, c1, h, and_self, if_true]
    have hlog : (p.processState pio).log =
        p.log ++ (X ++ [.ssh_channel_get_exit_status] ++ Y ++ [.finished pio.exit_status]) := by
      rw [hres]
      show (d.closeChannel pio.channel_is_open).log ++ [ChannelEffect.finished pio.exit_status] = _
      rw [d3]
      simp only [List.append_assoc]
    have hE : effectsSince p.log (p.processState pio).log =
        X ++ [.ssh_channel_get_exit_status] ++ Y ++ [.finished pio.exit_status] := by
      rw [hlog]; exact effectsSince_append _ _
    refine ⟨by rw [hE, hlog], fun _ => ⟨?_, ?_, ?_, ?_, ?_⟩, fun hn => absurd h hn⟩
    · rw [hE]
      unfold finishedOf at x1 y1 ⊢
      simp only [List.filterMap_append, x1, y1]
      rfl
    · rw [hE]
      unfold exitStatusReads at x2 y2 ⊢
      simp only [List.count_append, x2, y2]
      rfl
    · rw [hres]; exact d1
    · rw [hres]; exact d2
    · intro pio'
      have hc : (p.processState pio).state_ = .StateClosed := by rw [hres]; exact d1
      generalize p.processState pio = q at hc
      unfold LibsshQtProcess.processState
      simp only [hc]
  · have hres : p.processState pio = p.checkIo pio := by
      unfold LibsshQtProcess.processState
      simp only [hs, c1, h, and_false, if_false]
    have hE : effectsSince p.log (p.processState pio).log = X := by
      rw [hres, c3]; exact effectsSince_append _ _
    refine ⟨by rw [hE, hres, c3], fun hy => absurd hy h, fun _ => ⟨?_, ?_, ?_, ?_⟩⟩
    · rw [hE]; exact x1
    · rw [hE]; exact x2
    · rw [hres]; exact c1
    · rw [hres]; exact c2

/-- C9 (witness): an open process finishes with code 0 when both sub-streams
poll end-of-stream, and does not when stderr does not. -/
theorem processState_finished_iff_eof_witness :
    (finishedOf (effectsSince openProcess.log (openProcess.processState remoteEof).log) = [0] ∧
      (openProcess.processState remoteEof).state_ = .StateClosed) ∧
    finishedOf (effectsSince openProcess.log
      (openProcess.processState { remoteEof with eof_poll_stderr := 0 }).log) = [] :=
  ⟨⟨((processState_finished_iff_eof openProcess remoteEof (by decide)).2.1 (by decide)).1,
    ((processState_finished_iff_eof openProcess remoteEof (by decide)).2.1 (by decide)).2.2.1⟩,
   ((processState_finished_iff_eof openProcess { remoteEof with eof_poll_stderr := 0 } (by decide)).2.2 (by decide)).1⟩

/-- C7: each `checkIo` step offers the handle the first `min(remaining, w)`
bytes of the write buffer (nothing when that is not positive) and removes from
the front exactly the bytes the handle reports written; so over any run the
bytes the handle accepted, in order, followed by the bytes still buffered are
the bytes that were buffered (FIFO); and 40960 bytes written with `w = 16384`
to a handle that accepts everything leave in three writes of 16384, 16384 and
8192 bytes with three `bytesWritten` signals. -/
theorem checkIo_write_fifo :
    (∀ (ch : LibsshQtChannel) (io : ChannelIo),
      (writesOf (effectsSince ch.log (ch.checkIo io).log) =
        if ch.channel_ = true ∧ 0 < writeCount ch then
          [ch.write_buffer_.take (writeCount ch).toNat] else []) ∧
      ((ch.checkIo io).write_buffer_ =
        if ch.channel_ = true ∧ 0 < writeCount ch then
          ch.write_buffer_.drop (io.write (ch.write_buffer_.take (writeCount ch).toNat)).toNat
        else ch.write_buffer_) ∧
      (bytesWrittenOf (effectsSince ch.log (ch.checkIo io).log) =
        if ch.channel_ = true ∧ 0 < writeCount ch ∧
            0 < io.write (ch.write_buffer_.take (writeCount ch).toNat) then
          [io.write (ch.write_buffer_.take (writeCount ch).toNat)] else [])) ∧
    (∀ (ios : List ChannelIo) (ch : LibsshQtChannel),
      (∀ io ∈ ios, ∀ d : List UInt8, io.write d ≤ d.length) →
      acceptedBytes ios ch ++ (checkIoRun ios ch).write_buffer_ = ch.write_buffer_) ∧
    (∀ (ch : LibsshQtChannel) (data : List UInt8) (ios : List ChannelIo),
      ch.channel_ = true → ch.write_buffer_ = [] → ch.eof_state_ = .EofNotSent →
      ch.write_size_ = 16384 → data.length = 40960 → 3 ≤ ios.length →
      (∀ io ∈ ios, ∀ d : List UInt8, io.write d = d.length) →
      writesOf (effectsSince (ch.writeData data).1.log
          (checkIoRun ios (ch.writeData data).1).log) =
        [data.take 16384, (data.drop 16384).take 16384, data.drop 32768] ∧
      bytesWrittenOf (effectsSince (ch.writeData data).1.log
          (checkIoRun ios (ch.writeData data).1).log) = [16384, 16384, 8192] ∧
      (checkIoRun ios (ch.writeData data).1).write_buffer_ = []) :=
  ⟨checkIo_write_step, acceptedBytes_fifo, forty_kib_three_chunks⟩

/-- C7 (witness): 40960 bytes on a fresh open channel and three steps of a
handle that accepts everything give three `bytesWritten` signals of 16384,
16384 and 8192; and one such step on three buffered bytes accepts them in
order. -/
theorem checkIo_write_fifo_witness :
    bytesWrittenOf (effectsSince (idleChannel.writeData (List.replicate 40960 7)).1.log
        (checkIoRun [acceptAll, acceptAll, acceptAll]
          (idleChannel.writeData (List.replicate 40960 7)).1).log) = [16384, 16384, 8192] ∧
    acceptedBytes [acceptAll] { idleChannel with write_buffer_ := [1, 2, 3] } ++
        (checkIoRun [acceptAll] { idleChannel with write_buffer_ := [1, 2, 3] }).write_buffer_ =
      [1, 2, 3] :=
  ⟨(checkIo_write_fifo.2.2 idleChannel (List.replicate 40960 7)
      [acceptAll, acceptAll, acceptAll] rfl rfl rfl rfl (List.length_replicate _ _)
      (by decide) (by simp [acceptAll])).2.1,
   checkIo_write_fifo.2.1 [acceptAll] { idleChannel with write_buffer_ := [1, 2, 3] }
      (by simp [acceptAll])⟩

/-! ## Theorems about the transition tables -/

/-- When the target differs from the current state, `setState` stores it and
appends the notification of the target state, if it has one. -/
theorem setState_log (c : LibsshQtClient) (t : StateFlag) (h : c.state_ ≠ t) :
    (c.setState t).log = c.log ++ (stateNotification t).toList ∧
    (c.setState t).state_ = t := by
  unfold LibsshQtClient.setState
  rw [if_neg h]
  cases t <;> simp [stateNotification, LibsshQtClient.emit]

/-- C11: for every session state and target `t`, `setState t` with `t` different
from the current state stores `t` and appends exactly the notification of `t`
(one for Closed, UnknownHost, AuthChoose, AuthFailed, Opened and Error, each
its own, none for the other states); with `t` equal to the current state it
changes nothing and emits nothing. -/
theorem setState_notification_per_entry (c : LibsshQtClient) (t : StateFlag) :
    (c.state_ ≠ t →
      (c.setState t).state_ = t ∧
      (c.setState t).log = c.log ++ (stateNotification t).toList) ∧
    (c.state_ = t → c.setState t = c) ∧
    (t ∈ [StateFlag.StateClosed, .StateUnknownHost, .StateAuthChoose, .StateAuthFailed,
        .StateOpened, .StateError] ↔ (stateNotification t).isSome = true) ∧
    (∀ t', (stateNotification t).isSome = true → stateNotification t = stateNotification t' →
      t = t') := by
  refine ⟨fun h => ⟨(setState_log c t h).2, (setState_log c t h).1⟩, ?_, ?_, ?_⟩
  · intro h
    simp [LibsshQtClient.setState, h]
  · cases t <;> simp [stateNotification]
  · intro t'
    cases t <;> cases t' <;> simp [stateNotification]

/-- C11 at a fresh session: entering `StateError` emits `error` once, re-entering
`StateClosed` changes nothing. -/
theorem setState_notification_per_entry_witness :
    ((LibsshQtClient.new.setState .StateError).state_ = .StateError ∧
      (LibsshQtClient.new.setState .StateError).log = [.error]) ∧
    LibsshQtClient.new.setState .StateClosed = LibsshQtClient.new :=
  ⟨(setState_notification_per_entry LibsshQtClient.new .StateError).1 (by decide),
   (setState_notification_per_entry LibsshQtClient.new .StateClosed).2.1 (by decide)⟩

/-- The function `setUpNotifiers` leaves both notifiers present and touches
neither the state, the log, the running flag nor the timer. -/
theorem setUpNotifiers_spec (c : LibsshQtClient) :
    (c.setUpNotifiers).write_notifier_ ≠ none ∧ (c.setUpNotifiers).read_notifier_ ≠ none ∧
    (c.setUpNotifiers).state_ = c.state_ ∧ (c.setUpNotifiers).log = c.log ∧
    (c.setUpNotifiers).process_state_running_ = c.process_state_running_ ∧
    (c.setUpNotifiers).timer_ = c.timer_ := by
  unfold LibsshQtClient.setUpNotifiers
  dsimp only
  cases h1 : c.read_notifier_ <;> cases h2 : c.write_notifier_ <;> simp [h1, h2]

/-- The function `enableWritableNotifier` only touches the writable notifier:
inside a `processState` run it sets the deferred flag, outside it enables an
existing notifier. -/
theorem enableWritableNotifier_spec (c : LibsshQtClient) :
    (c.enableWritableNotifier).state_ = c.state_ ∧
    (c.enableWritableNotifier).log = c.log ∧
    (c.enableWritableNotifier).timer_ = c.timer_ ∧
    (c.enableWritableNotifier).use_auths_ = c.use_auths_ ∧
    (c.enableWritableNotifier).failed_auths_ = c.failed_auths_ ∧
    (c.enableWritableNotifier).process_state_running_ = c.process_state_running_ ∧
    (c.process_state_running_ = true → (c.enableWritableNotifier).enable_writable_nofifier_ = true) ∧
    (c.process_state_running_ = false → c.write_notifier_ ≠ none →
      (c.enableWritableNotifier).write_notifier_ = some true) := by
  unfold LibsshQtClient.enableWritableNotifier
  cases h1 : c.process_state_running_ <;> cases h2 : c.write_notifier_ <;> simp [h1, h2]

/-- The notifier set-up of the connect step changes neither state, log, running
flag nor timer, and leaves a writable notifier unless the connect failed. -/
theorem afterConnectCall_spec (c : LibsshQtClient) (rc : Int) :
    (afterConnectCall c rc).state_ = c.state_ ∧ (afterConnectCall c rc).log = c.log ∧
    (afterConnectCall c rc).process_state_running_ = c.process_state_running_ ∧
    (afterConnectCall c rc).timer_ = c.timer_ ∧
    (rc ≠ SSH_ERROR → (afterConnectCall c rc).write_notifier_ ≠ none) := by
  unfold afterConnectCall
  obtain ⟨n1, n2, n3, n4, n5, n6⟩ := setUpNotifiers_spec c
  split_ifs with h
  · exact ⟨n3, n4, n5, n6, fun _ => n1⟩
  · refine ⟨rfl, rfl, rfl, rfl, fun hrc => ?_⟩
    simp only [not_and, not_or] at h
    exact (h hrc).2

/-- Closed form of one `processState` step in `StateConnecting`. -/
theorem connecting_step_eq (c : LibsshQtClient) (rc : Int)
    (hs : c.state_ = .StateConnecting) :
    c.processState rc =
      if rc = SSH_AGAIN then (afterConnectCall c rc).enableWritableNotifier
      else if rc = SSH_ERROR then (afterConnectCall c rc).setState .StateError
      else if rc = SSH_OK then ((afterConnectCall c rc).setState .StateIsKnown).timerStart
      else (afterConnectCall c rc).emit .critical := by
  unfold LibsshQtClient.processState afterConnectCall
  simp only [hs]

/-- C12: for every session in `StateConnecting`, one `processState` step on the
connect result: `SSH_AGAIN` leaves the state `StateConnecting`, emits nothing
and requests the writable notification (the deferred flag inside a running
step, the enabled notifier otherwise); `SSH_ERROR` moves to `StateError`
(emitting `error`); `SSH_OK` moves to `StateIsKnown` and starts the timer that
schedules the next step. -/
theorem connecting_step_transitions (c : LibsshQtClient) (hs : c.state_ = .StateConnecting) :
    ((c.processState SSH_AGAIN).state_ = .StateConnecting ∧
      (c.processState SSH_AGAIN).log = c.log ∧
      (c.process_state_running_ = true →
        (c.processState SSH_AGAIN).enable_writable_nofifier_ = true) ∧
      (c.process_state_running_ = false →
        (c.processState SSH_AGAIN).write_notifier_ = some true)) ∧
    ((c.processState SSH_ERROR).state_ = .StateError ∧
      (c.processState SSH_ERROR).log = c.log ++ [.error]) ∧
    ((c.processState SSH_OK).state_ = .StateIsKnown ∧
      (c.processState SSH_OK).timer_ = true ∧
      (c.processState SSH_OK).log = c.log) := by
  obtain ⟨a1, a2, a3, a4, a5⟩ := afterConnectCall_spec c SSH_AGAIN
  obtain ⟨b1, b2, -, -, -⟩ := afterConnectCall_spec c SSH_ERROR
  obtain ⟨d1, d2, -, -, -⟩ := afterConnectCall_spec c SSH_OK
  obtain ⟨e1, e2, -, -, -, -, e7, e8⟩ := enableWritableNotifier_spec (afterConnectCall c SSH_AGAIN)
  refine ⟨?_, ?_, ?_⟩
  · rw [connecting_step_eq c _ hs, if_pos rfl]
    refine ⟨by rw [e1, a1, hs], by rw [e2, a2], fun h => e7 (a3.trans h),
      fun h => e8 (a3.trans h) (a5 (by decide))⟩
  · rw [connecting_step_eq c _ hs, if_neg (by decide), if_pos rfl]
    have hne : (afterConnectCall c SSH_ERROR).state_ ≠ .StateError := by rw [b1, hs]; decide
    obtain ⟨s1, s2⟩ := setState_log _ _ hne
    exact ⟨s2, by rw [s1, b2]; rfl⟩
  · rw [connecting_step_eq c _ hs, if_neg (by decide), if_neg (by decide), if_pos rfl]
    have hne : (afterConnectCall c SSH_OK).state_ ≠ .StateIsKnown := by rw [d1, hs]; decide
    obtain ⟨s1, s2⟩ := setState_log _ _ hne
    exact ⟨s2, rfl, by rw [show ((afterConnectCall c SSH_OK).setState .StateIsKnown).timerStart.log
      = ((afterConnectCall c SSH_OK).setState .StateIsKnown).log from rfl, s1, d2]; simp [stateNotification]⟩

/-- The function `tryNextAuth` leaves the host verification result, the
succeeded method and the connection options alone. -/
theorem tryNextAuth_frame (c : LibsshQtClient) :
    (c.tryNextAuth).unknown_host_type_ = c.unknown_host_type_ ∧
    (c.tryNextAuth).succeeded_auth_ = c.succeeded_auth_ ∧
    (c.tryNextAuth).hostname_ = c.hostname_ ∧
    (c.tryNextAuth).username_ = c.username_ ∧
    (c.tryNextAuth).port_ = c.port_ ∧
    (c.tryNextAuth).password_ = c.password_ := by
  unfold LibsshQtClient.tryNextAuth
  have hS : ∀ (d : LibsshQtClient) (s : StateFlag),
      (d.setState s).unknown_host_type_ = d.unknown_host_type_ ∧
      (d.setState s).succeeded_auth_ = d.succeeded_auth_ ∧
      (d.setState s).hostname_ = d.hostname_ ∧
      (d.setState s).username_ = d.username_ ∧
      (d.setState s).port_ = d.port_ ∧
      (d.setState s).password_ = d.password_ := by
    intro d s
    unfold LibsshQtClient.setState
    split_ifs
    · exact ⟨rfl, rfl, rfl, rfl, rfl, rfl⟩
    · cases s <;> exact ⟨rfl, rfl, rfl, rfl, rfl, rfl⟩
  dsimp only
  split_ifs <;> split <;>
    first
    | exact hS _ _
    | exact ⟨rfl, rfl, rfl, rfl, rfl, rfl⟩

/-- C13: for every session in `StateIsKnown`, one `processState` step on the
host-known check: known stores `HostKnown` and runs `tryNextAuth`; not-known,
key-changed, key-type-changed and known-hosts-file-missing each move to
`StateUnknownHost` with `unknownHostType` equal to that result (emitting
`unknownHost`); the internal error moves to `StateError`. -/
theorem host_check_step_transitions (c : LibsshQtClient) (hs : c.state_ = .StateIsKnown) :
    (c.processState SSH_SERVER_KNOWN_OK =
        ({ c with unknown_host_type_ := .HostKnown }).tryNextAuth ∧
      (c.processState SSH_SERVER_KNOWN_OK).unknownHostType = .HostKnown) ∧
    (∀ rc h, (rc, h) ∈ [(SSH_SERVER_NOT_KNOWN, HostFlag.HostUnknown),
          (SSH_SERVER_KNOWN_CHANGED, HostFlag.HostKeyChanged),
          (SSH_SERVER_FOUND_OTHER, HostFlag.HostKeyTypeChanged),
          (SSH_SERVER_FILE_NOT_FOUND, HostFlag.HostKnownHostsFileMissing)] →
      (c.processState rc).state_ = .StateUnknownHost ∧
      (c.processState rc).unknownHostType = h ∧
      (c.processState rc).log = c.log ++ [.unknownHost]) ∧
    ((c.processState SSH_SERVER_ERROR).state_ = .StateError ∧
      (c.processState SSH_SERVER_ERROR).log = c.log ++ [.error]) := by
  refine ⟨?_, ?_, ?_⟩
  · have h1 : c.processState SSH_SERVER_KNOWN_OK =
        ({ c with unknown_host_type_ := .HostKnown }).tryNextAuth := by
      unfold LibsshQtClient.processState
      simp [hs, SSH_SERVER_KNOWN_OK, SSH_SERVER_ERROR, SSH_SERVER_NOT_KNOWN,
        SSH_SERVER_KNOWN_CHANGED, SSH_SERVER_FOUND_OTHER, SSH_SERVER_FILE_NOT_FOUND]
    refine ⟨h1, ?_⟩
    rw [h1]
    exact (tryNextAuth_frame _).1
  · intro rc h hmem
    simp only [List.mem_cons, Prod.mk.injEq, List.mem_singleton, List.not_mem_nil,
      or_false] at hmem
    rcases hmem with ⟨rfl, rfl⟩ | ⟨rfl, rfl⟩ | ⟨rfl, rfl⟩ | ⟨rfl, rfl⟩ <;>
      · unfold LibsshQtClient.processState
        simp [hs, LibsshQtClient.setState, LibsshQtClient.emit, LibsshQtClient.unknownHostType,
          HostFlag.ofInt, SSH_SERVER_KNOWN_OK, SSH_SERVER_ERROR, SSH_SERVER_NOT_KNOWN,
          SSH_SERVER_KNOWN_CHANGED, SSH_SERVER_FOUND_OTHER, SSH_SERVER_FILE_NOT_FOUND]
  · unfold LibsshQtClient.processState
    simp [hs, LibsshQtClient.setState, LibsshQtClient.emit, SSH_SERVER_ERROR]

/-- In the three authentication states that make a libssh call, one
`processState` step is `handleAuthResponse` for the method of that state. -/
theorem auth_step_eq (c : LibsshQtClient) (rc : Int)
    (hs : c.state_ = .StateAuthNone ∨ c.state_ = .StateAuthAutoPubkey ∨
      c.state_ = .StateAuthPassword) :
    c.processState rc = c.handleAuthResponse rc (authMethodOfState c.state_) := by
  unfold LibsshQtClient.processState
  rcases hs with hs | hs | hs <;> simp [hs, authMethodOfState]

/-- C14: for every session in `StateAuthNone`, `StateAuthAutoPubkey` or
`StateAuthPassword` and every result of the auth call: retry leaves the state
unchanged and requests the writable notification; hard error moves to
`StateError`; denied and partial success both add the current method to
`failedAuths` and run `tryNextAuth`, which dispatches the next requested
method; success records the method in `succeeded_auth_` and moves to
`StateOpened`. -/
theorem auth_step_transitions (c : LibsshQtClient)
    (hs : c.state_ = .StateAuthNone ∨ c.state_ = .StateAuthAutoPubkey ∨
      c.state_ = .StateAuthPassword) :
    (c.processState SSH_AUTH_AGAIN = c.enableWritableNotifier ∧
      (c.processState SSH_AUTH_AGAIN).state_ = c.state_ ∧
      (c.process_state_running_ = true →
        (c.processState SSH_AUTH_AGAIN).enable_writable_nofifier_ = true) ∧
      (c.process_state_running_ = false → c.write_notifier_ ≠ none →
        (c.processState SSH_AUTH_AGAIN).write_notifier_ = some true)) ∧
    ((c.processState SSH_AUTH_ERROR).state_ = .StateError ∧
      (c.processState SSH_AUTH_ERROR).log = c.log ++ [.error]) ∧
    (∀ rc, rc = SSH_AUTH_DENIED ∨ rc = SSH_AUTH_PARTIAL →
      c.processState rc = c.tryNextAuth ∧
      (c.processState rc).failedAuths = c.failed_auths_.set (authMethodOfState c.state_) ∧
      (c.processState rc).failedAuths.test (authMethodOfState c.state_) = true ∧
      (c.processState rc).use_auths_ = c.use_auths_.clear c.use_auths_.first ∧
      authMethodOfState (c.processState rc).state_ = c.use_auths_.first) ∧
    ((c.processState SSH_AUTH_SUCCESS).state_ = .StateOpened ∧
      (c.processState SSH_AUTH_SUCCESS).succeeded_auth_ = authMethodOfState c.state_ ∧
      (c.processState SSH_AUTH_SUCCESS).timer_ = true ∧
      (c.processState SSH_AUTH_SUCCESS).log = c.log ++ [.opened] ∧
      (c.processState SSH_AUTH_SUCCESS).failedAuths = c.failed_auths_) := by
  have hp := fun rc => auth_step_eq c rc hs
  obtain ⟨e1, -, -, -, -, -, e7, e8⟩ := enableWritableNotifier_spec c
  have hm : authMethodOfState c.state_ ≠ .UseAuthEmpty := by
    rcases hs with hs | hs | hs <;> rw [hs] <;> decide
  refine ⟨?_, ?_, ?_, ?_⟩
  · have h : c.processState SSH_AUTH_AGAIN = c.enableWritableNotifier := by
      rw [hp]; simp [LibsshQtClient.handleAuthResponse]
    rw [h]
    exact ⟨rfl, e1, e7, e8⟩
  · have h : c.processState SSH_AUTH_ERROR = c.setState .StateError := by
      rw [hp]; simp [LibsshQtClient.handleAuthResponse, SSH_AUTH_ERROR, SSH_AUTH_AGAIN]
    have hne : c.state_ ≠ .StateError := by
      rcases hs with hs | hs | hs <;> rw [hs] <;> decide
    obtain ⟨s1, s2⟩ := setState_log c _ hne
    rw [h]
    exact ⟨s2, by rw [s1]; rfl⟩
  · intro rc hrc
    have h : c.processState rc = c.tryNextAuth := by
      rw [hp]
      rcases hrc with rfl | rfl <;>
        simp [LibsshQtClient.handleAuthResponse, SSH_AUTH_ERROR, SSH_AUTH_AGAIN,
          SSH_AUTH_DENIED, SSH_AUTH_PARTIAL]
    obtain ⟨t1, t2, t3, -, -, -⟩ := tryNextAuth_spec c
    rw [h]
    refine ⟨rfl, t1, ?_, t2, t3⟩
    rw [LibsshQtClient.failedAuths, t1, UseAuths.test_set]
    simp [hm]
  · have h : c.processState SSH_AUTH_SUCCESS =
        (({ c with succeeded_auth_ := authMethodOfState c.state_ }).setState
          .StateOpened).timerStart := by
      rw [hp]
      simp [LibsshQtClient.handleAuthResponse, SSH_AUTH_ERROR, SSH_AUTH_AGAIN,
        SSH_AUTH_DENIED, SSH_AUTH_PARTIAL, SSH_AUTH_SUCCESS]
    have hne : ({ c with succeeded_auth_ := authMethodOfState c.state_ }).state_ ≠
        .StateOpened := by
      show c.state_ ≠ _
      rcases hs with hs | hs | hs <;> rw [hs] <;> decide
    obtain ⟨s1, s2⟩ := setState_log _ _ hne
    rw [h]
    refine ⟨s2, ?_, rfl, ?_, ?_⟩
    · simp [LibsshQtClient.timerStart, LibsshQtClient.setState, hne, LibsshQtClient.emit]
    · show (LibsshQtClient.setState _ _).log = _
      rw [s1]; rfl
    · simp [LibsshQtClient.failedAuths, LibsshQtClient.timerStart, LibsshQtClient.setState,
        hne, LibsshQtClient.emit]

/-- The function `LibsshQtProcess::setState` stores the target and keeps the
handle, both open flags and the exit code; with the target equal to the
current state it changes nothing. -/
theorem process_setState_spec (p : LibsshQtProcess) (t : ProcessStateFlag) :
    (p.setState t).state_ = t ∧
    (p.setState t).channel_ = p.channel_ ∧
    (p.setState t).device_open_ = p.device_open_ ∧
    (p.setState t).stderr_open_ = p.stderr_open_ ∧
    (p.setState t).exit_code_ = p.exit_code_ ∧
    (p.state_ = t → p.setState t = p) := by
  unfold LibsshQtProcess.setState
  split_ifs with h
  · exact ⟨h, rfl, rfl, rfl, rfl, fun _ => rfl⟩
  · cases t <;> exact ⟨rfl, rfl, rfl, rfl, rfl, fun h' => absurd h' h⟩

/-- The calls made by the `StateOpening` step before the result is looked at. -/
theorem afterOpenCall_spec (p : LibsshQtProcess) :
    (afterOpenCall p).state_ = p.state_ ∧ (afterOpenCall p).exit_code_ = p.exit_code_ ∧
    (afterOpenCall p).channel_ = true ∧
    (afterOpenCall p).log =
      p.log ++ (if p.channel_ = true then [] else [.ssh_channel_new]) ++
        [.ssh_channel_open_session] := by
  unfold afterOpenCall
  cases h : p.channel_ <;> simp [LibsshQtProcess.emit, h]

/-- Closed form of one `processState` step in `StateOpening`, when a channel
handle exists or can be created. -/
theorem opening_step_eq (p : LibsshQtProcess) (pio : ProcessIo)
    (hs : p.state_ = .StateOpening) (hok : p.channel_ = true ∨ pio.channel_new_ok = true) :
    p.processState pio =
      if pio.rc = SSH_AGAIN then (afterOpenCall p).emit .enableWritableNotifier
      else if pio.rc = SSH_ERROR then (afterOpenCall p).setState .StateError
      else if pio.rc = SSH_OK then
        { (afterOpenCall p).setState .StateExec with timer_ := true }
      else (afterOpenCall p).emit .critical := by
  have hfat : (!p.channel_ && !pio.channel_new_ok) = false := by
    rcases hok with h | h <;> simp [h]
  unfold LibsshQtProcess.processState afterOpenCall
  simp only [hs, hfat, Bool.false_eq_true, if_false]

/-- Closed form of one `processState` step in `StateExec`. -/
theorem exec_step_eq (p : LibsshQtProcess) (pio : ProcessIo)
    (hs : p.state_ = .StateExec) :
    p.processState pio =
      if pio.rc = SSH_AGAIN then (afterExecCall p).emit .enableWritableNotifier
      else if pio.rc = SSH_ERROR then (afterExecCall p).setState .StateError
      else if pio.rc = SSH_OK then
        { ({ ({ afterExecCall p with
                toLibsshQtChannel := (afterExecCall p).toLibsshQtChannel.«open» }) with
              stderr_open_ := true }).setState .StateOpen with timer_ := true }
      else (afterExecCall p).emit .critical := by
  unfold LibsshQtProcess.processState afterExecCall
  simp only [hs]

/-- C15: for every process, one `processState` step: in `StateWaitClient` it moves
to `StateOpening` when the session is `StateOpened` and changes nothing
otherwise; in `StateOpening` (with a channel handle present or created) the
channel-open result retry stays and requests the writable notification, error
moves to `StateError`, success moves to `StateExec`; in `StateExec` the
exec-request result retry stays and requests the writable notification, error
moves to `StateError`, success opens the primary and the stderr stream and
moves to `StateOpen`. -/
theorem process_step_transitions (p : LibsshQtProcess) (pio : ProcessIo) :
    (p.state_ = .StateWaitClient →
      (pio.client_state = .StateOpened → (p.processState pio).state_ = .StateOpening) ∧
      (pio.client_state ≠ .StateOpened → p.processState pio = p)) ∧
    (p.state_ = .StateOpening → (p.channel_ = true ∨ pio.channel_new_ok = true) →
      (pio.rc = SSH_AGAIN → (p.processState pio).state_ = .StateOpening ∧
        (p.processState pio).log.getLast? = some .enableWritableNotifier) ∧
      (pio.rc = SSH_ERROR → (p.processState pio).state_ = .StateError) ∧
      (pio.rc = SSH_OK → (p.processState pio).state_ = .StateExec)) ∧
    (p.state_ = .StateExec →
      (pio.rc = SSH_AGAIN → (p.processState pio).state_ = .StateExec ∧
        (p.processState pio).log.getLast? = some .enableWritableNotifier) ∧
      (pio.rc = SSH_ERROR → (p.processState pio).state_ = .StateError) ∧
      (pio.rc = SSH_OK → (p.processState pio).state_ = .StateOpen ∧
        (p.processState pio).device_open_ = true ∧
        (p.processState pio).stderr_open_ = true)) := by
  refine ⟨?_, ?_, ?_⟩
  · intro hs
    constructor
    · intro hc
      unfold LibsshQtProcess.processState
      simp only [hs, hc, if_true]
      exact (process_setState_spec p _).1
    · intro hc
      unfold LibsshQtProcess.processState
      simp only [hs, hc, if_false]
  · intro hs hok
    obtain ⟨a1, -, -, -⟩ := afterOpenCall_spec p
    refine ⟨?_, ?_, ?_⟩
    · intro hrc
      rw [opening_step_eq p pio hs hok, if_pos hrc]
      exact ⟨a1.trans hs, by simp [LibsshQtProcess.emit]⟩
    · intro hrc
      rw [opening_step_eq p pio hs hok, hrc, if_neg (by decide), if_pos rfl]
      exact (process_setState_spec _ _).1
    · intro hrc
      rw [opening_step_eq p pio hs hok, hrc, if_neg (by decide), if_neg (by decide),
        if_pos rfl]
      exact (process_setState_spec _ _).1
  · intro hs
    refine ⟨?_, ?_, ?_⟩
    · intro hrc
      rw [exec_step_eq p pio hs, if_pos hrc]
      exact ⟨hs, by simp [LibsshQtProcess.emit]⟩
    · intro hrc
      rw [exec_step_eq p pio hs, hrc, if_neg (by decide), if_pos rfl]
      exact (process_setState_spec _ _).1
    · intro hrc
      rw [exec_step_eq p pio hs, hrc, if_neg (by decide), if_neg (by decide), if_pos rfl]
      obtain ⟨s1, -, s3, s4, -, -⟩ := process_setState_spec
        ({ ({ afterExecCall p with
              toLibsshQtChannel := (afterExecCall p).toLibsshQtChannel.«open» }) with
            stderr_open_ := true }) .StateOpen
      exact ⟨s1, s3, s4⟩

/-- From a state other than `StateClosed` and `StateClosing`,
`disconnectFromHost` reaches `StateClosing`, emits `doCleanup`, releases the
notifiers and the connection, and then enters `StateClosed`. -/
theorem disconnectFromHost_open (c : LibsshQtClient)
    (h : c.state_ ≠ .StateClosed ∧ c.state_ ≠ .StateClosing) :
    (∃ mid : LibsshQtClient, mid.state_ = .StateClosing ∧
      mid.log = c.log ++ [.doCleanup, .ssh_disconnect] ∧
      mid.read_notifier_ = none ∧ mid.write_notifier_ = none ∧
      c.disconnectFromHost = mid.setState .StateClosed) ∧
    (c.disconnectFromHost).state_ = .StateClosed ∧
    (c.disconnectFromHost).log = c.log ++ [.doCleanup, .ssh_disconnect, .closed] ∧
    (c.disconnectFromHost).read_notifier_ = none ∧
    (c.disconnectFromHost).write_notifier_ = none := by
  obtain ⟨s1, s2⟩ := setState_log c .StateClosing h.2
  have hd : c.disconnectFromHost =
      ({ ({ ((c.setState .StateClosing).emit .doCleanup) with read_notifier_ := none }) with
          write_notifier_ := none }.emit .ssh_disconnect).setState .StateClosed := by
    unfold LibsshQtClient.disconnectFromHost
    rw [if_pos h]
  obtain ⟨mid, hmid⟩ : ∃ mid : LibsshQtClient, mid =
      ({ ({ ((c.setState .StateClosing).emit .doCleanup) with read_notifier_ := none }) with
          write_notifier_ := none }.emit .ssh_disconnect) := ⟨_, rfl⟩
  rw [← hmid] at hd
  have m1 : mid.state_ = .StateClosing := by rw [hmid]; exact s2
  have m2 : mid.log = c.log ++ [.doCleanup, .ssh_disconnect] := by
    rw [hmid]
    show ((c.setState .StateClosing).log ++ [ClientEffect.doCleanup]) ++
      [ClientEffect.ssh_disconnect] = _
    rw [s1]
    simp [stateNotification]
  have m3 : mid.read_notifier_ = none := by rw [hmid]; rfl
  have m4 : mid.write_notifier_ = none := by rw [hmid]; rfl
  have hne : mid.state_ ≠ .StateClosed := by rw [m1]; decide
  obtain ⟨t1, t2⟩ := setState_log mid .StateClosed hne
  have t3 : (mid.setState .StateClosed).read_notifier_ = none ∧
      (mid.setState .StateClosed).write_notifier_ = none := by
    simp [LibsshQtClient.setState, hne, LibsshQtClient.emit, m3, m4]
  refine ⟨⟨mid, m1, m2, m3, m4, hd⟩, ?_⟩
  rw [hd]
  refine ⟨t2, ?_, t3.1, t3.2⟩
  rw [t1, m2]
  simp [stateNotification]

/-- C17: for every session in `StateError`, a `processState` step and every
`connectToHost` overload change nothing, enabling or disabling any auth method
leaves the state `StateError`, `disconnectFromHost` moves to `StateClosed`,
and `connectToHost` is accepted after that. -/
theorem error_state_terminal_until_disconnect (c : LibsshQtClient) (hs : c.state_ = .StateError) :
    (∀ rc, c.processState rc = c) ∧
    c.connectToHost = c ∧
    (∀ hostName rcHost rcPort, c.connectToHostName hostName rcHost rcPort = c) ∧
    (∀ hostName port rcHost rcPort, c.connectToHostPort hostName port rcHost rcPort = c) ∧
    (∀ enabled auth, (c.enableDisableAuth enabled auth).state_ = .StateError) ∧
    (∀ enabled password,
      (c.useNoneAuth enabled).state_ = .StateError ∧
      (c.useAutoKeyAuth enabled).state_ = .StateError ∧
      (c.usePasswordAuth enabled password).state_ = .StateError ∧
      (c.useInteractiveAuth enabled).state_ = .StateError) ∧
    (c.disconnectFromHost).state_ = .StateClosed ∧
    (c.disconnectFromHost.connectToHost).state_ = .StateConnecting := by
  have hE : ∀ enabled auth, (c.enableDisableAuth enabled auth).state_ = .StateError := by
    intro enabled auth
    unfold LibsshQtClient.enableDisableAuth
    cases enabled <;> simp [hs]
  have hD : (c.disconnectFromHost).state_ = .StateClosed :=
    (disconnectFromHost_open c ⟨by rw [hs]; decide, by rw [hs]; decide⟩).2.1
  refine ⟨?_, ?_, ?_, ?_, hE, ?_, hD, ?_⟩
  · intro rc
    unfold LibsshQtClient.processState
    simp only [hs]
  · simp [LibsshQtClient.connectToHost, hs]
  · intro hostName rcHost rcPort
    simp [LibsshQtClient.connectToHostName, hs]
  · intro hostName port rcHost rcPort
    simp [LibsshQtClient.connectToHostPort, hs]
  · intro enabled password
    exact ⟨hE _ _, hE _ _, hE _ _, hE _ _⟩
  · unfold LibsshQtClient.connectToHost
    rw [if_pos hD]
    have hne : (c.disconnectFromHost).state_ ≠ .StateConnecting := by rw [hD]; decide
    exact (setState_log _ _ hne).2

/-- C18: for every unrecognized result code of connect, the host-known check, an
auth call, channel-open or exec-request, the step leaves the session state,
the process state and the requested and failed auth methods unchanged and
adds no state notification to the log: only the critical diagnostic (and, for
a process, the libssh calls made before the result is looked at). -/
theorem unrecognized_result_code_is_noop :
    (∀ (c : LibsshQtClient) (rc : Int), c.state_ = .StateConnecting →
      rc ≠ SSH_AGAIN → rc ≠ SSH_ERROR → rc ≠ SSH_OK →
      (c.processState rc).state_ = c.state_ ∧
      (c.processState rc).use_auths_ = c.use_auths_ ∧
      (c.processState rc).failed_auths_ = c.failed_auths_ ∧
      (c.processState rc).log = c.log ++ [.critical]) ∧
    (∀ (c : LibsshQtClient) (rc : Int), c.state_ = .StateIsKnown →
      rc ≠ SSH_SERVER_ERROR → rc ≠ SSH_SERVER_NOT_KNOWN → rc ≠ SSH_SERVER_KNOWN_CHANGED →
      rc ≠ SSH_SERVER_FOUND_OTHER → rc ≠ SSH_SERVER_FILE_NOT_FOUND →
      rc ≠ SSH_SERVER_KNOWN_OK →
      c.processState rc = c.emit .critical) ∧
    (∀ (c : LibsshQtClient) (rc : Int),
      (c.state_ = .StateAuthNone ∨ c.state_ = .StateAuthAutoPubkey ∨
        c.state_ = .StateAuthPassword) →
      rc ≠ SSH_AUTH_AGAIN → rc ≠ SSH_AUTH_ERROR → rc ≠ SSH_AUTH_DENIED →
      rc ≠ SSH_AUTH_PARTIAL → rc ≠ SSH_AUTH_SUCCESS →
      c.processState rc = c.emit .critical) ∧
    (∀ (p : LibsshQtProcess) (pio : ProcessIo), p.state_ = .StateOpening →
      (p.channel_ = true ∨ pio.channel_new_ok = true) →
      pio.rc ≠ SSH_AGAIN → pio.rc ≠ SSH_ERROR → pio.rc ≠ SSH_OK →
      (p.processState pio).state_ = p.state_ ∧
      (p.processState pio).log =
        p.log ++ (if p.channel_ = true then [] else [.ssh_channel_new]) ++
          [.ssh_channel_open_session] ++ [.critical]) ∧
    (∀ (p : LibsshQtProcess) (pio : ProcessIo), p.state_ = .StateExec →
      pio.rc ≠ SSH_AGAIN → pio.rc ≠ SSH_ERROR → pio.rc ≠ SSH_OK →
      (p.processState pio).state_ = p.state_ ∧
      (p.processState pio).log =
        p.log ++ [.ssh_channel_request_exec p.command_, .critical]) := by
  refine ⟨?_, ?_, ?_, ?_, ?_⟩
  · intro c rc hs h1 h2 h3
    obtain ⟨a1, a2, -, -, -⟩ := afterConnectCall_spec c rc
    have hu : (afterConnectCall c rc).use_auths_ = c.use_auths_ ∧
        (afterConnectCall c rc).failed_auths_ = c.failed_auths_ := by
      unfold afterConnectCall LibsshQtClient.setUpNotifiers
      dsimp only
      split_ifs <;> exact ⟨rfl, rfl⟩
    rw [connecting_step_eq c rc hs, if_neg h1, if_neg h2, if_neg h3]
    refine ⟨a1, hu.1, hu.2, ?_⟩
    show (afterConnectCall c rc).log ++ [ClientEffect.critical] = _
    rw [a2]
  · intro c rc hs h1 h2 h3 h4 h5 h6
    unfold LibsshQtClient.processState
    simp only [hs, h1, h2, h3, h4, h5, h6, or_self, if_false]
  · intro c rc hs h1 h2 h3 h4 h5
    rw [auth_step_eq c rc hs]
    unfold LibsshQtClient.handleAuthResponse
    simp only [h1, h2, h3, h4, h5, if_false]
  · intro p pio hs hok h1 h2 h3
    obtain ⟨a1, -, -, a4⟩ := afterOpenCall_spec p
    rw [opening_step_eq p pio hs hok, if_neg h1, if_neg h2, if_neg h3]
    refine ⟨a1, ?_⟩
    show (afterOpenCall p).log ++ [ChannelEffect.critical] = _
    rw [a4]
  · intro p pio hs h1 h2 h3
    rw [exec_step_eq p pio hs, if_neg h1, if_neg h2, if_neg h3]
    refine ⟨rfl, ?_⟩
    simp [LibsshQtProcess.emit, afterExecCall]

/-- C19: for every process state, `handleClientError` moves the process to
`StateClientError`, which differs from `StateError`; it emits `error` on
entry, and every later `processState` step, whatever libssh reports, leaves
the process as it is. -/
theorem handleClientError_terminal (p : LibsshQtProcess) :
    (p.handleClientError).state_ = .StateClientError ∧
    ProcessStateFlag.StateClientError ≠ ProcessStateFlag.StateError ∧
    (p.state_ ≠ .StateClientError → (p.handleClientError).log = p.log ++ [.error]) ∧
    (∀ pio, (p.handleClientError).processState pio = p.handleClientError) ∧
    (∀ pios : List ProcessIo,
      (pios.foldl LibsshQtProcess.processState p.handleClientError).state_ =
        .StateClientError) := by
  have h1 : (p.handleClientError).state_ = .StateClientError :=
    (process_setState_spec p _).1
  have h2 : ∀ q : LibsshQtProcess, q.state_ = .StateClientError →
      ∀ pio, q.processState pio = q := by
    intro q hq pio
    unfold LibsshQtProcess.processState
    simp only [hq]
  refine ⟨h1, by decide, ?_, h2 _ h1, ?_⟩
  · intro hne
    simp [LibsshQtProcess.handleClientError, LibsshQtProcess.setState, hne,
      LibsshQtProcess.emit]
  · intro pios
    induction pios with
    | nil => exact h1
    | cons pio pios ih =>
      rw [List.foldl_cons, h2 _ h1]
      exact ih

/-- As `atEnd()` is true on a device that is not open, `canReadLine` reduces
to its newline and cap tests. -/
theorem canReadLine_eq (ch : LibsshQtChannel) :
    ch.canReadLine =
      (ch.read_buffer_.contains 10 || decide (ch.buffer_size_ ≤ ch.read_buffer_.length)) := by
  unfold LibsshQtChannel.canReadLine LibsshQtChannel.atEnd
  cases ch.device_open_ <;> simp

/-- The stderr stream's `canReadLine` likewise reduces to its newline and cap
tests. -/
theorem stderrCanReadLine_eq (p : LibsshQtProcess) :
    p.stderrCanReadLine =
      (p.stderr_buffer_.contains 10 || decide (p.buffer_size_ ≤ p.stderr_buffer_.length)) := by
  unfold LibsshQtProcess.stderrCanReadLine
  cases p.stderr_open_ <;> simp

/-- C20: a process whose command printed the single byte `a` and exited ends in
`StateClosed` with the primary stream closed and `a` unread in the read
buffer, and `canReadLine` is false there; the stderr stream, closed with `a`
unread, gives false as well. The clause for a closed stream with unread data
never holds. -/
theorem canReadLine_closed_with_unread_data :
    (openProcess.processState unterminatedOutput).state_ = .StateClosed ∧
    (openProcess.processState unterminatedOutput).device_open_ = false ∧
    (openProcess.processState unterminatedOutput).read_buffer_ = [97] ∧
    (openProcess.processState unterminatedOutput).canReadLine = false ∧
    ({ openProcess with stderr_buffer_ := [97], stderr_open_ := false }).stderrCanReadLine =
      false := by
  decide

/-- C12 at a session on which `connectToHost` was just called. -/
theorem connecting_step_transitions_witness :
    (firstAttempt.processState SSH_OK).state_ = .StateIsKnown ∧
    (firstAttempt.processState SSH_ERROR).state_ = .StateError ∧
    (firstAttempt.processState SSH_AGAIN).write_notifier_ = some true :=
  ⟨(connecting_step_transitions firstAttempt (by decide)).2.2.1, (connecting_step_transitions firstAttempt (by decide)).2.1.1,
   (connecting_step_transitions firstAttempt (by decide)).1.2.2.2 (by decide)⟩

/-- C13 at a session whose connect has just succeeded. -/
theorem host_check_step_transitions_witness :
    (firstAttempt.processState SSH_OK).state_ = .StateIsKnown ∧
    ((firstAttempt.processState SSH_OK).processState SSH_SERVER_KNOWN_CHANGED).unknownHostType =
      .HostKeyChanged ∧
    ((firstAttempt.processState SSH_OK).processState SSH_SERVER_ERROR).state_ = .StateError :=
  ⟨by decide,
   ((host_check_step_transitions (firstAttempt.processState SSH_OK) (by decide)).2.1 SSH_SERVER_KNOWN_CHANGED
      .HostKeyChanged (by decide)).2.1,
   (host_check_step_transitions (firstAttempt.processState SSH_OK) (by decide)).2.2.1⟩

/-- C14 at a session that is trying the None method. -/
theorem auth_step_transitions_witness :
    tryingNone.state_ = .StateAuthNone ∧
    (tryingNone.processState SSH_AUTH_SUCCESS).state_ = .StateOpened ∧
    (tryingNone.processState SSH_AUTH_PARTIAL).failedAuths.test .UseAuthNone = true ∧
    (tryingNone.processState SSH_AUTH_ERROR).state_ = .StateError :=
  ⟨by decide, (auth_step_transitions tryingNone (Or.inl (by decide))).2.2.2.1,
   ((auth_step_transitions tryingNone (Or.inl (by decide))).2.2.1 SSH_AUTH_PARTIAL (Or.inr rfl)).2.2.1,
   (auth_step_transitions tryingNone (Or.inl (by decide))).2.1.1⟩

/-- C15 along the start of a process on an opened session: `StateWaitClient`,
`StateOpening`, `StateExec`, `StateOpen`. -/
theorem process_step_transitions_witness :
    (LibsshQtProcess.new.openChannel.processState remoteEof).state_ = .StateOpening ∧
    ((LibsshQtProcess.new.openChannel.processState remoteEof).processState remoteEof).state_ =
      .StateExec ∧
    (((LibsshQtProcess.new.openChannel.processState remoteEof).processState
      remoteEof).processState remoteEof).state_ = .StateOpen :=
  ⟨((process_step_transitions LibsshQtProcess.new.openChannel remoteEof).1 (by decide)).1 (by decide),
   ((process_step_transitions (LibsshQtProcess.new.openChannel.processState remoteEof) remoteEof).2.1 (by decide)
      (Or.inr (by decide))).2.2 (by decide),
   (((process_step_transitions ((LibsshQtProcess.new.openChannel.processState remoteEof).processState remoteEof)
      remoteEof).2.2 (by decide)).2.2 (by decide)).1⟩

/-- C17 at a session whose connect failed. -/
theorem error_state_terminal_until_disconnect_witness :
    (firstAttempt.processState SSH_ERROR).state_ = .StateError ∧
    ((firstAttempt.processState SSH_ERROR).connectToHost).state_ = .StateError ∧
    (((firstAttempt.processState SSH_ERROR).disconnectFromHost).connectToHost).state_ =
      .StateConnecting :=
  ⟨by decide,
   by rw [(error_state_terminal_until_disconnect (firstAttempt.processState SSH_ERROR) (by decide)).2.1]; decide,
   (error_state_terminal_until_disconnect (firstAttempt.processState SSH_ERROR) (by decide)).2.2.2.2.2.2.2⟩

/-- C18 at a connecting session with result code 7 and at a session trying the
None method with `SSH_AUTH_INFO`. -/
theorem unrecognized_result_code_is_noop_witness :
    (firstAttempt.processState 7).state_ = firstAttempt.state_ ∧
    tryingNone.processState SSH_AUTH_INFO = tryingNone.emit .critical :=
  ⟨(unrecognized_result_code_is_noop.1 firstAttempt 7 (by decide) (by decide) (by decide) (by decide)).1,
   unrecognized_result_code_is_noop.2.2.1 tryingNone SSH_AUTH_INFO (Or.inl (by decide)) (by decide) (by decide) (by decide)
     (by decide) (by decide)⟩

/-- C19 at a process in `StateOpen`. -/
theorem handleClientError_terminal_witness :
    (openProcess.handleClientError).state_ = .StateClientError ∧
    (openProcess.handleClientError).log = openProcess.log ++ [.error] :=
  ⟨(handleClientError_terminal openProcess).1, (handleClientError_terminal openProcess).2.2.1 (by decide)⟩

/-! ## Theorems about reads, close, the exit code, guards and frames -/

/-- For a request `maxlen ≥ 0` on a buffer `b`, the count `readData` computes is
`min maxlen |b|`, the copy is the first that many bytes and `remove(0, _)`
leaves the rest. -/
theorem remove0_take_drop (b : List UInt8) (maxlen : Int) (h : 0 ≤ maxlen) :
    (if maxlen > (b.length : Int) then (b.length : Int) else maxlen) =
      ((min maxlen.toNat b.length : Nat) : Int) ∧
    QByteArray.remove0 b (if maxlen > (b.length : Int) then (b.length : Int) else maxlen) =
      b.drop (min maxlen.toNat b.length) ∧
    b.take (if maxlen > (b.length : Int) then (b.length : Int) else maxlen).toNat =
      b.take (min maxlen.toNat b.length) := by
  obtain ⟨m, rfl⟩ := Int.eq_ofNat_of_zero_le h
  have hc : (if (m : Int) > (b.length : Int) then (b.length : Int) else (m : Int)) =
      ((min m b.length : Nat) : Int) := by
    split_ifs with hlt
    · have : b.length ≤ m := by omega
      simp [Nat.min_eq_right this]
    · have : m ≤ b.length := by omega
      simp [Nat.min_eq_left this]
  have ht : (m : Int).toNat = m := Int.toNat_ofNat m
  rw [ht]
  refine ⟨hc, ?_, ?_⟩
  · rw [hc]
    unfold QByteArray.remove0
    split_ifs with h0
    · have : min m b.length = 0 := by omega
      rw [this]
      rfl
    · rw [Int.toNat_ofNat]
  · rw [hc, Int.toNat_ofNat]

/-- C21: for every read buffer content and every `maxlen ≥ 0`, `readData maxlen`
returns `n = min maxlen |b|`, copies out the first `n` bytes, leaves the other
bytes in the buffer in order (copy ++ rest is the old buffer) and calls
`queueCheckIo`, which starts the timer of the process; the stderr `readData`
does the same on the stderr buffer. -/
theorem readData_consumes_front (p : LibsshQtProcess) (maxlen : Int) (h : 0 ≤ maxlen) :
    ((p.readData maxlen).ret = (min maxlen.toNat p.read_buffer_.length : Nat) ∧
      (p.readData maxlen).data = p.read_buffer_.take (min maxlen.toNat p.read_buffer_.length) ∧
      (p.readData maxlen).p.read_buffer_ =
        p.read_buffer_.drop (min maxlen.toNat p.read_buffer_.length) ∧
      (p.readData maxlen).data ++ (p.readData maxlen).p.read_buffer_ = p.read_buffer_ ∧
      (p.readData maxlen).p.timer_ = true ∧
      (p.readData maxlen).p.stderr_buffer_ = p.stderr_buffer_) ∧
    ((p.stderrReadData maxlen).ret = (min maxlen.toNat p.stderr_buffer_.length : Nat) ∧
      (p.stderrReadData maxlen).data =
        p.stderr_buffer_.take (min maxlen.toNat p.stderr_buffer_.length) ∧
      (p.stderrReadData maxlen).p.stderr_buffer_ =
        p.stderr_buffer_.drop (min maxlen.toNat p.stderr_buffer_.length) ∧
      (p.stderrReadData maxlen).data ++ (p.stderrReadData maxlen).p.stderr_buffer_ =
        p.stderr_buffer_ ∧
      (p.stderrReadData maxlen).p.timer_ = true ∧
      (p.stderrReadData maxlen).p.read_buffer_ = p.read_buffer_) ∧
    ((p.toLibsshQtChannel.readData maxlen).2 =
        p.read_buffer_.take (min maxlen.toNat p.read_buffer_.length) ∧
      (p.toLibsshQtChannel.readData maxlen).1.read_buffer_ =
        p.read_buffer_.drop (min maxlen.toNat p.read_buffer_.length) ∧
      (p.toLibsshQtChannel.readData maxlen).1.log = p.log ++ [.queueCheckIo]) := by
  obtain ⟨a1, a2, a3⟩ := remove0_take_drop p.read_buffer_ maxlen h
  obtain ⟨b1, b2, b3⟩ := remove0_take_drop p.stderr_buffer_ maxlen h
  have r2 : (p.readData maxlen).data =
      p.read_buffer_.take (min maxlen.toNat p.read_buffer_.length) := a3
  have r3 : (p.readData maxlen).p.read_buffer_ =
      p.read_buffer_.drop (min maxlen.toNat p.read_buffer_.length) := a2
  have e2 : (p.stderrReadData maxlen).data =
      p.stderr_buffer_.take (min maxlen.toNat p.stderr_buffer_.length) := b3
  have e3 : (p.stderrReadData maxlen).p.stderr_buffer_ =
      p.stderr_buffer_.drop (min maxlen.toNat p.stderr_buffer_.length) := b2
  refine ⟨⟨a1, r2, r3, ?_, rfl, rfl⟩, ⟨b1, e2, e3, ?_, rfl, rfl⟩, ⟨a3, a2, rfl⟩⟩
  · rw [r2, r3, List.take_append_drop]
  · rw [e2, e3, List.take_append_drop]

/-- C21 at a three-byte read buffer with `maxlen = 2` and a two-byte stderr
buffer with `maxlen = 7`. -/
theorem readData_consumes_front_witness :
    (({ openProcess with read_buffer_ := [1, 2, 3] }).readData 2).ret = 2 ∧
    (({ openProcess with read_buffer_ := [1, 2, 3] }).readData 2).data = [1, 2] ∧
    (({ openProcess with read_buffer_ := [1, 2, 3] }).readData 2).p.read_buffer_ = [3] ∧
    (({ openProcess with stderr_buffer_ := [4, 5] }).stderrReadData 7).data = [4, 5] :=
  ⟨(readData_consumes_front { openProcess with read_buffer_ := [1, 2, 3] } 2 (by decide)).1.1,
   (readData_consumes_front { openProcess with read_buffer_ := [1, 2, 3] } 2 (by decide)).1.2.1,
   (readData_consumes_front { openProcess with read_buffer_ := [1, 2, 3] } 2 (by decide)).1.2.2.1,
   (readData_consumes_front { openProcess with stderr_buffer_ := [4, 5] } 7 (by decide)).2.1.2.1⟩

/-- The function `close` leaves no handle; without a handle it changes nothing,
with one it closes the device, calls `ssh_channel_close` when libssh reports
the channel open, and frees the handle. -/
theorem close_spec (ch : LibsshQtChannel) (is_open : Int) :
    (ch.close is_open).channel_ = false ∧
    (ch.channel_ = false → ch.close is_open = ch) ∧
    (ch.channel_ = true → (ch.close is_open).device_open_ = false ∧
      (ch.close is_open).log =
        ch.log ++ (if is_open ≠ 0 then [ChannelEffect.ssh_channel_close] else []) ++
          [.ssh_channel_free]) := by
  unfold LibsshQtChannel.close
  by_cases hc : ch.channel_ = true
  · rw [if_pos hc]
    refine ⟨rfl, fun h => ?_, fun _ => ⟨rfl, ?_⟩⟩
    · rw [hc] at h
      exact absurd h (by decide)
    · split_ifs <;> simp [LibsshQtChannel.emit]
  · rw [if_neg hc]
    exact ⟨by simpa using hc, fun _ => rfl, fun h => absurd h hc⟩

/-- The function `closeChannel` changes nothing in `StateClosed` and
`StateClosing`, and ends in `StateClosed` from every other state. -/
theorem closeChannel_state (p : LibsshQtProcess) (is_open : Int) :
    ((p.state_ = .StateClosed ∨ p.state_ = .StateClosing) → p.closeChannel is_open = p) ∧
    ((p.state_ ≠ .StateClosed ∧ p.state_ ≠ .StateClosing) →
      (p.closeChannel is_open).state_ = .StateClosed) := by
  constructor
  · intro h
    unfold LibsshQtProcess.closeChannel
    rw [if_neg]
    rintro ⟨a, b⟩
    rcases h with h | h
    · exact a h
    · exact b h
  · intro h
    unfold LibsshQtProcess.closeChannel
    rw [if_pos h]
    exact (process_setState_spec _ _).1

/-- C22: for every channel state, `close` after `close` equals a single `close`
and the two together free the handle once (not at all when there was none);
for every process state, `closeChannel` after `closeChannel` equals a single
`closeChannel` and the second call emits nothing. -/
theorem close_idempotent :
    (∀ (ch : LibsshQtChannel) (i1 i2 : Int),
      (ch.close i1).close i2 = ch.close i1 ∧
      (effectsSince ch.log ((ch.close i1).close i2).log).count .ssh_channel_free =
        (if ch.channel_ = true then 1 else 0)) ∧
    (∀ (p : LibsshQtProcess) (i1 i2 : Int),
      (p.closeChannel i1).closeChannel i2 = p.closeChannel i1 ∧
      effectsSince (p.closeChannel i1).log ((p.closeChannel i1).closeChannel i2).log = []) := by
  constructor
  · intro ch i1 i2
    obtain ⟨h1, h2, h3⟩ := close_spec ch i1
    have hid : (ch.close i1).close i2 = ch.close i1 := (close_spec (ch.close i1) i2).2.1 h1
    refine ⟨hid, ?_⟩
    rw [hid]
    by_cases hc : ch.channel_ = true
    · rw [(h3 hc).2, if_pos hc]
      unfold effectsSince
      rw [List.append_assoc, List.drop_left]
      split_ifs <;> decide
    · rw [h2 (by simpa using hc), if_neg hc]
      simp [effectsSince]
  · intro p i1 i2
    have hid : (p.closeChannel i1).closeChannel i2 = p.closeChannel i1 := by
      by_cases h : p.state_ ≠ .StateClosed ∧ p.state_ ≠ .StateClosing
      · exact (closeChannel_state _ i2).1 (Or.inl ((closeChannel_state p i1).2 h))
      · have h' : p.state_ = .StateClosed ∨ p.state_ = .StateClosing := by
          by_contra hn
          simp only [not_or] at hn
          exact h hn
        rw [(closeChannel_state p i1).1 h', (closeChannel_state p i2).1 h']
    refine ⟨hid, ?_⟩
    rw [hid]
    simp [effectsSince]

/-- The function `closeChannel` leaves the exit code alone. -/
theorem closeChannel_exit_code (p : LibsshQtProcess) (is_open : Int) :
    (p.closeChannel is_open).exit_code_ = p.exit_code_ := by
  unfold LibsshQtProcess.closeChannel
  split_ifs with h
  · dsimp only
    rw [(process_setState_spec _ _).2.2.2.2.1]
    show (LibsshQtProcess.handleStderrOutput _).exit_code_ = _
    rw [(handleStderrOutput_quiet _).2.1, (handleStdoutOutput_quiet _).2.1]
    show (LibsshQtProcess.setState _ _).exit_code_ = _
    exact (process_setState_spec _ _).2.2.2.2.1
  · rfl

/-- One `processState` step stores the exit status exactly when the state is
`StateOpen` and both polls after `checkIo` report end-of-stream, and leaves
the exit code alone otherwise. -/
theorem processState_exit_code (p : LibsshQtProcess) (pio : ProcessIo) :
    (p.processState pio).exit_code_ =
      if p.state_ = .StateOpen ∧ pio.eof_poll_stdout = SSH_EOF ∧ pio.eof_poll_stderr = SSH_EOF
      then pio.exit_status else p.exit_code_ := by
  have hS := fun (q : LibsshQtProcess) t => (process_setState_spec q t).2.2.2.2.1
  have hn : p.state_ ≠ .StateOpen →
      (if p.state_ = .StateOpen ∧ pio.eof_poll_stdout = SSH_EOF ∧ pio.eof_poll_stderr = SSH_EOF
        then pio.exit_status else p.exit_code_) = p.exit_code_ :=
    fun h => if_neg (fun hd => h hd.1)
  unfold LibsshQtProcess.processState
  split
  case h_1 hs => rw [hn (by rw [hs]; decide)]
  case h_2 hs => rw [hn (by rw [hs]; decide)]
  case h_3 hs => rw [hn (by rw [hs]; decide)]
  case h_4 hs => rw [hn (by rw [hs]; decide)]
  case h_5 hs =>
    rw [hn (by rw [hs]; decide)]
    split_ifs
    · exact hS _ _
    · rfl
  case h_6 hs =>
    rw [hn (by rw [hs]; decide)]
    dsimp only
    split_ifs <;> simp [LibsshQtProcess.emit, hS]
  case h_7 hs =>
    rw [hn (by rw [hs]; decide)]
    dsimp only
    split_ifs <;> simp [LibsshQtProcess.emit, hS]
  case h_8 hs =>
    obtain ⟨q1, q2, -⟩ := process_checkIo_quiet p pio
    dsimp only
    rw [q1]
    by_cases hd : p.state_ = .StateOpen ∧ pio.eof_poll_stdout = SSH_EOF ∧
        pio.eof_poll_stderr = SSH_EOF
    · rw [if_pos hd, if_pos hd]
      show (LibsshQtProcess.closeChannel _ _).exit_code_ = _
      rw [closeChannel_exit_code]
    · rw [if_neg hd, if_neg hd]
      exact q2

/-- Of all operations on a process only the step that detects remote EOF changes
the exit code. -/
theorem applyProcessOp_exit_code (p : LibsshQtProcess) (op : ProcessOp) :
    (applyProcessOp p op).exit_code_ =
      match op with
      | .step pio => if detectsEof p op = true then pio.exit_status else p.exit_code_
      | _ => p.exit_code_ := by
  cases op with
  | openChannel =>
    show (p.openChannel).exit_code_ = p.exit_code_
    unfold LibsshQtProcess.openChannel
    split_ifs
    · exact (process_setState_spec _ _).2.2.2.2.1
    · rfl
  | closeChannel is_open => exact closeChannel_exit_code p is_open
  | handleClientError => exact (process_setState_spec _ _).2.2.2.2.1
  | setCommand command => rfl
  | readData maxlen => rfl
  | stderrReadData maxlen => rfl
  | writeData data => rfl
  | sendEof => rfl
  | step pio =>
    show (p.processState pio).exit_code_ = _
    rw [processState_exit_code]
    simp only [detectsEof, decide_eq_true_eq]

/-- Every state reached before remote EOF is detected has the exit code the
sequence started with. -/
theorem statesBeforeEof_exit_code (ops : List ProcessOp) (p : LibsshQtProcess) :
    ∀ q ∈ statesBeforeEof ops p, q.exit_code_ = p.exit_code_ := by
  induction ops generalizing p with
  | nil =>
    intro q hq
    simp only [statesBeforeEof, List.mem_singleton] at hq
    rw [hq]
  | cons op ops ih =>
    intro q hq
    unfold statesBeforeEof at hq
    by_cases hd : detectsEof p op = true
    · rw [if_pos hd, List.mem_singleton] at hq
      rw [hq]
    · rw [if_neg hd, List.mem_cons] at hq
      rcases hq with hq | hq
      · rw [hq]
      · rw [ih _ q hq, applyProcessOp_exit_code]
        cases op <;> simp only []
        rw [if_neg hd]

/-- C23 as stated fails for a second run: after a run that ended with exit
status 0, `openChannel` starts a new run in which `exitCode()` is 0, not -1,
before any end-of-stream has been detected. -/
theorem exitCode_second_run_counterexample : ¬ ExitCodeSentinel finishedRun [] := by
  intro h
  have := h finishedRun.openChannel (by simp [statesBeforeEof])
  revert this
  decide

/-- C23, amended: for every process whose exit code is -1 when `openChannel` is
called (as it is after the constructor), `exitCode()` is -1 in every state
reached before a step detects remote EOF on both sub-streams; every operation
other than that step leaves the exit code unchanged, and that step stores the
exit status. -/
theorem exitCode_sentinel_until_eof (p : LibsshQtProcess) (ops : List ProcessOp) (h : p.exitCode = -1) :
    ExitCodeSentinel p ops ∧
    LibsshQtProcess.new.exitCode = -1 ∧
    (∀ op, detectsEof p op = false → (applyProcessOp p op).exitCode = p.exitCode) ∧
    (∀ pio, detectsEof p (.step pio) = true → (p.processState pio).exitCode = pio.exit_status) := by
  refine ⟨?_, rfl, ?_, ?_⟩
  · intro q hq
    have h1 := statesBeforeEof_exit_code ops _ q hq
    have h2 : (p.openChannel).exit_code_ = p.exit_code_ :=
      applyProcessOp_exit_code p .openChannel
    show q.exit_code_ = -1
    rw [h1, h2]
    exact h
  · intro op hd
    show (applyProcessOp p op).exit_code_ = p.exit_code_
    rw [applyProcessOp_exit_code]
    cases op <;> simp only []
    rw [if_neg (by simp [hd])]
  · intro pio hd
    show (p.processState pio).exit_code_ = _
    have := applyProcessOp_exit_code p (.step pio)
    simp only [hd, if_true] at this
    exact this

/-- C23 at a fresh process that is opened and stepped through `StateOpening`
and `StateExec`. -/
theorem exitCode_sentinel_until_eof_witness :
    ExitCodeSentinel LibsshQtProcess.new [.step remoteEof, .step remoteEof, .step remoteEof] ∧
    ((LibsshQtProcess.new.openChannel.processState remoteEof).processState remoteEof).exitCode =
      -1 :=
  ⟨(exitCode_sentinel_until_eof LibsshQtProcess.new [.step remoteEof, .step remoteEof, .step remoteEof] rfl).1,
   by decide⟩

/-- With the stderr policy `OutputManual`, a stderr read of `requested > 0`
bytes appends all `requested` cells of the local array, whatever count the
read returned. -/
theorem checkIoStderr_buffer (p : LibsshQtProcess) (pio : ProcessIo)
    (hm : p.stderr_behaviour_ = .OutputManual)
    (hpos : 0 < min pio.poll_stderr (p.buffer_size_ - p.stderr_buffer_.length)) :
    (p.checkIoStderr pio).stderr_buffer_ =
      p.stderr_buffer_ ++
        readArray (min pio.poll_stderr (p.buffer_size_ - p.stderr_buffer_.length))
          (pio.read_stderr
            (min pio.poll_stderr (p.buffer_size_ - p.stderr_buffer_.length))).data := by
  have h1 : pio.poll_stderr > 0 := by
    have := min_le_left pio.poll_stderr (p.buffer_size_ - p.stderr_buffer_.length)
    omega
  have h2 : (if pio.poll_stderr > p.buffer_size_ - p.stderr_buffer_.length
      then p.buffer_size_ - p.stderr_buffer_.length else pio.poll_stderr) =
      min pio.poll_stderr (p.buffer_size_ - p.stderr_buffer_.length) := by
    split_ifs with h
    · rw [min_eq_right (le_of_lt h)]
    · rw [min_eq_left (not_lt.mp h)]
  unfold LibsshQtProcess.checkIoStderr
  simp only [h1, if_true, h2, gt_iff_lt, hpos]
  have hq : ∀ q : LibsshQtProcess, q.stderr_behaviour_ = .OutputManual →
      q.handleStderrOutput = q := by
    intro q hq
    simp [LibsshQtProcess.handleStderrOutput, hq]
  have ha : ∀ (buf str : List UInt8) (n : Int), 0 < n → str.length = n.toNat →
      QByteArray.append buf str n = buf ++ str := by
    intro buf str n hn hl
    unfold QByteArray.append
    rw [if_neg (by omega), ← hl, List.take_length]
  split_ifs
  · rw [hq _ (by simpa [LibsshQtProcess.emit] using hm)]
    exact ha _ _ _ hpos (by simp [readArray])
  · exact ha _ _ _ hpos (by simp [readArray])

/-- C24: when the stderr poll reports 4 bytes and the read returns 1 (the byte
`a`), `checkIo` appends 4 bytes to the stderr buffer (the byte read and three
cells the read never filled) and emits the stderr `readyRead`; when the read
returns 0 it still appends 4 bytes. -/
theorem checkIoStderr_appends_requested_count :
    (openProcess.checkIo shortStderrRead).stderr_buffer_ = [97, 0, 0, 0] ∧
    (shortStderrRead.read_stderr 4).ret = 1 ∧
    (shortStderrRead.read_stderr 4).data = [97] ∧
    effectsSince openProcess.log (openProcess.checkIo shortStderrRead).log =
      [.ssh_channel_read_nonblocking 4 true, .stderrReadyRead] ∧
    (openProcess.checkIo
      { shortStderrRead with read_stderr := fun _ => ⟨[], 0⟩ }).stderr_buffer_.length = 4 := by
  decide

/-- C27: on a fresh channel, whose write cap is 16384, `setWriteSize 100` stores
100, and a following `setWriteSize 8192` stores 4096; `setReadBufferSize 100`
stores 4096. -/
theorem setWriteSize_tests_member :
    LibsshQtChannel.new.getWriteSize = 16384 ∧
    (LibsshQtChannel.new.setWriteSize 100).getWriteSize = 100 ∧
    ((LibsshQtChannel.new.setWriteSize 100).setWriteSize 8192).getWriteSize = 4096 ∧
    (LibsshQtChannel.new.setReadBufferSize 100).getBufferSize = 4096 := by
  decide

/-- The function `setWriteSize` stores its argument whenever the cap stored
before the call is at least 4096, and 4096 otherwise. -/
theorem setWriteSize_eq (ch : LibsshQtChannel) (n : Int) :
    (ch.setWriteSize n).getWriteSize = if ch.write_size_ ≥ 4096 then n else 4096 := by
  unfold LibsshQtChannel.setWriteSize LibsshQtChannel.getWriteSize
  split_ifs <;> rfl

/-- The function `setState` touches only the state and the log. -/
theorem setState_frame (d : LibsshQtClient) (s : StateFlag) :
    (d.setState s).process_state_running_ = d.process_state_running_ ∧
    (d.setState s).enable_writable_nofifier_ = d.enable_writable_nofifier_ ∧
    (d.setState s).username_ = d.username_ ∧
    (d.setState s).hostname_ = d.hostname_ ∧
    (d.setState s).port_ = d.port_ ∧
    (d.setState s).password_ = d.password_ ∧
    (d.setState s).read_notifier_ = d.read_notifier_ ∧
    (d.setState s).write_notifier_ = d.write_notifier_ ∧
    (d.setState s).unknown_host_type_ = d.unknown_host_type_ ∧
    (d.setState s).use_auths_ = d.use_auths_ ∧
    (d.setState s).failed_auths_ = d.failed_auths_ ∧
    (d.setState s).succeeded_auth_ = d.succeeded_auth_ ∧
    (d.setState s).timer_ = d.timer_ := by
  unfold LibsshQtClient.setState
  split_ifs
  · exact ⟨rfl, rfl, rfl, rfl, rfl, rfl, rfl, rfl, rfl, rfl, rfl, rfl, rfl⟩
  · cases s <;> exact ⟨rfl, rfl, rfl, rfl, rfl, rfl, rfl, rfl, rfl, rfl, rfl, rfl, rfl⟩

/-- The function `tryNextAuth` leaves the running flag alone. -/
theorem tryNextAuth_running (c : LibsshQtClient) :
    (c.tryNextAuth).process_state_running_ = c.process_state_running_ := by
  unfold LibsshQtClient.tryNextAuth
  dsimp only
  split_ifs <;> split <;>
    first
    | exact (setState_frame _ _).1
    | rfl

/-- One `processState` step leaves the running flag alone. -/
theorem processState_running (c : LibsshQtClient) (rc : Int) :
    (c.processState rc).process_state_running_ = c.process_state_running_ := by
  have hS := fun (d : LibsshQtClient) s => (setState_frame d s).1
  have hW := fun (d : LibsshQtClient) => (enableWritableNotifier_spec d).2.2.2.2.2.1
  have hA : ∀ (d : LibsshQtClient) (a : UseAuthFlag),
      (d.handleAuthResponse rc a).process_state_running_ = d.process_state_running_ := by
    intro d a
    unfold LibsshQtClient.handleAuthResponse
    split_ifs
    · exact hW d
    · exact hS _ _
    · exact tryNextAuth_running d
    · exact tryNextAuth_running d
    · exact hS _ _
    · rfl
  unfold LibsshQtClient.processState
  split
  case h_7 hs =>
    show (ite _ _ _ : LibsshQtClient).process_state_running_ = _
    have h0 : ∀ d : LibsshQtClient, d.process_state_running_ = c.process_state_running_ →
        (if rc = SSH_AGAIN then d.enableWritableNotifier
          else if rc = SSH_ERROR then d.setState .StateError
          else if rc = SSH_OK then (d.setState .StateIsKnown).timerStart
          else d.emit .critical).process_state_running_ = c.process_state_running_ := by
      intro d hd
      split_ifs
      · rw [hW, hd]
      · rw [hS, hd]
      · exact (hS _ _).trans hd
      · exact hd
    apply h0
    split_ifs
    · exact (setUpNotifiers_spec c).2.2.2.2.1
    · rfl
  case h_8 hs =>
    split_ifs
    · exact hS _ _
    · exact hS _ _
    · exact tryNextAuth_running _
    · rfl
  case h_9 hs => exact tryNextAuth_running c
  case h_10 hs => exact hA _ _
  case h_11 hs => exact hA _ _
  case h_12 hs => exact hA _ _
  all_goals rfl

/-- The function `processStateGuard` returns at once while the running flag is
set.  While it is clear it runs one `processState` step with the flag set;
it has no result when the step leaves `enable_writable_nofifier_` set and
`write_notifier_` null, and otherwise clears the flag, keeps state, auth
bookkeeping and log as the step left them and enables the writable notifier
when `enable_writable_nofifier_` is set.  A call of `enableWritableNotifier`
while the flag is set only records the request. -/
theorem processStateGuard_spec (c : LibsshQtClient) (rc : Int) :
    (c.process_state_running_ = true → c.processStateGuard rc = some c) ∧
    (c.process_state_running_ = false →
      (({ c with process_state_running_ := true }).processState rc).process_state_running_ =
        true ∧
      ((({ c with process_state_running_ := true }).processState
          rc).enable_writable_nofifier_ = true →
        (({ c with process_state_running_ := true }).processState rc).write_notifier_ = none →
        c.processStateGuard rc = none) ∧
      (((({ c with process_state_running_ := true }).processState
          rc).enable_writable_nofifier_ = true →
        (({ c with process_state_running_ := true }).processState rc).write_notifier_ ≠ none) →
        ∃ r, c.processStateGuard rc = some r ∧
          r.process_state_running_ = false ∧
          r.state_ = (({ c with process_state_running_ := true }).processState rc).state_ ∧
          r.use_auths_ =
            (({ c with process_state_running_ := true }).processState rc).use_auths_ ∧
          r.failed_auths_ =
            (({ c with process_state_running_ := true }).processState rc).failed_auths_ ∧
          r.log = (({ c with process_state_running_ := true }).processState rc).log ∧
          r.read_notifier_ =
            (({ c with process_state_running_ := true }).processState rc).read_notifier_ ∧
          r.write_notifier_ =
            (if (({ c with process_state_running_ := true }).processState
                rc).enable_writable_nofifier_ = true
              then some true
              else (({ c with process_state_running_ := true }).processState
                rc).write_notifier_))) ∧
    (c.process_state_running_ = true →
      c.enableWritableNotifier = { c with enable_writable_nofifier_ := true } ∧
      (c.enableWritableNotifier).write_notifier_ = c.write_notifier_) := by
  refine ⟨?_, ?_, ?_⟩
  · intro h
    unfold LibsshQtClient.processStateGuard
    rw [if_pos h]
  · intro h
    obtain ⟨q, hq⟩ : ∃ q, q = ({ c with process_state_running_ := true }).processState rc :=
      ⟨_, rfl⟩
    have hg : c.processStateGuard rc =
        if q.enable_writable_nofifier_ = true then
          match q.write_notifier_ with
          | some _ => some { ({ q with process_state_running_ := false }) with
              write_notifier_ := some true }
          | none => none
        else some { q with process_state_running_ := false } := by
      unfold LibsshQtClient.processStateGuard
      rw [if_neg (by simp [h])]
      subst hq
      rfl
    rw [← hq, hg]
    refine ⟨by rw [hq, processState_running], ?_, ?_⟩
    · intro he hw
      rw [if_pos he, hw]
    · intro hn
      by_cases he : q.enable_writable_nofifier_ = true
      · rw [if_pos he, if_pos he]
        cases hw : q.write_notifier_ with
        | none => exact absurd hw (hn he)
        | some b => exact ⟨_, rfl, rfl, rfl, rfl, rfl, rfl, rfl, rfl⟩
      · rw [if_neg he, if_neg he]
        exact ⟨_, rfl, rfl, rfl, rfl, rfl, rfl, rfl, rfl⟩
  · intro h
    unfold LibsshQtClient.enableWritableNotifier
    rw [if_pos h]
    exact ⟨rfl, rfl⟩

/-- C25: on a session whose earlier connection attempt left
`enable_writable_nofifier_` set and whose notifiers `disconnectFromHost` has
deleted (connect, one guarded step with retry, disconnect, connect), the
guarded step in which `ssh_connect` fails runs the step, which enters
`StateError`, and then dereferences the null `write_notifier_`:
`processStateGuard` has no result there, whereas `enableWritableNotifier` on
the same session tests the pointer and changes nothing. -/
theorem processStateGuard_null_write_notifier :
    (LibsshQtClient.new.connectToHost.processStateGuard SSH_AGAIN).map
        (fun c => c.disconnectFromHost.connectToHost) = some staleWritableRequest ∧
    staleWritableRequest.process_state_running_ = false ∧
    (({ staleWritableRequest with process_state_running_ := true }).processState
      SSH_ERROR).state_ = .StateError ∧
    staleWritableRequest.processStateGuard SSH_ERROR = none ∧
    staleWritableRequest.enableWritableNotifier = staleWritableRequest := by
  decide

/-- Outside `StateAuthChoose` and `StateAuthFailed`, enabling or disabling an
auth method leaves the state and the failed methods alone. -/
theorem enableDisableAuth_state (c : LibsshQtClient) (enabled : Bool) (auth : UseAuthFlag)
    (h1 : c.state_ ≠ .StateAuthChoose) (h2 : c.state_ ≠ .StateAuthFailed) :
    (c.enableDisableAuth enabled auth).state_ = c.state_ ∧
    (c.enableDisableAuth enabled auth).failed_auths_ = c.failed_auths_ := by
  obtain ⟨-, e2, e3, -, e5, e6⟩ := enableDisableAuth_spec c auth
  cases enabled
  · exact ⟨e6, e5⟩
  · refine ⟨?_, e2⟩
    rw [e3, if_neg]
    rintro (h | h)
    · exact h1 h
    · exact h2 h

/-- Outside `StateClosed` every `connectToHost` overload changes nothing. -/
theorem connectToHost_not_closed (c : LibsshQtClient) (h : c.state_ ≠ .StateClosed) :
    c.connectToHost = c ∧
    (∀ hostName rcHost rcPort, c.connectToHostName hostName rcHost rcPort = c) ∧
    (∀ hostName port rcHost rcPort, c.connectToHostPort hostName port rcHost rcPort = c) := by
  refine ⟨?_, ?_, ?_⟩
  · unfold LibsshQtClient.connectToHost
    rw [if_neg h]
  · intro hostName rcHost rcPort
    unfold LibsshQtClient.connectToHostName
    rw [if_neg h]
  · intro hostName port rcHost rcPort
    unfold LibsshQtClient.connectToHostPort
    rw [if_neg h]

/-- The function `markCurrentHostKnown` leaves the state alone, returns true
exactly for `SSH_OK`, and changes nothing for `SSH_OK` and `SSH_ERROR`. -/
theorem markCurrentHostKnown_spec (c : LibsshQtClient) (rc : Int) :
    (c.markCurrentHostKnown rc).1.state_ = c.state_ ∧
    ((c.markCurrentHostKnown rc).2 = true ↔ rc = SSH_OK) ∧
    (rc = SSH_OK ∨ rc = SSH_ERROR → (c.markCurrentHostKnown rc).1 = c) := by
  unfold LibsshQtClient.markCurrentHostKnown
  by_cases h1 : rc = SSH_OK
  · rw [if_pos h1]
    exact ⟨rfl, by simp [h1], fun _ => rfl⟩
  · rw [if_neg h1]
    by_cases h2 : rc = SSH_ERROR
    · rw [if_pos h2]
      exact ⟨rfl, by simp [h1], fun _ => rfl⟩
    · rw [if_neg h2]
      refine ⟨rfl, by simp [h1], fun h => ?_⟩
      rcases h with h | h
      · exact absurd h h1
      · exact absurd h h2

/-- C26: for every session in `StateUnknownHost`, a `processState` step changes
nothing, `markCurrentHostKnown` leaves the state whatever it returns (on
success it returns true and changes nothing), every `connectToHost` overload
changes nothing, enabling or disabling any auth method leaves the state, and
so does every sequence of these operations; `disconnectFromHost` moves to
`StateClosed`. -/
theorem unknown_host_state_stuck_until_disconnect (c : LibsshQtClient) (hs : c.state_ = .StateUnknownHost) :
    (∀ rc, c.processState rc = c) ∧
    (∀ rc, (c.markCurrentHostKnown rc).1.state_ = .StateUnknownHost) ∧
    c.markCurrentHostKnown SSH_OK = (c, true) ∧
    c.connectToHost = c ∧
    (∀ hostName rcHost rcPort, c.connectToHostName hostName rcHost rcPort = c) ∧
    (∀ hostName port rcHost rcPort, c.connectToHostPort hostName port rcHost rcPort = c) ∧
    (∀ enabled auth, (c.enableDisableAuth enabled auth).state_ = .StateUnknownHost) ∧
    (∀ ops : List HostDecisionOp,
      (ops.foldl applyHostDecisionOp c).state_ = .StateUnknownHost) ∧
    (c.disconnectFromHost).state_ = .StateClosed := by
  have step : ∀ d : LibsshQtClient, d.state_ = .StateUnknownHost →
      ∀ op, (applyHostDecisionOp d op).state_ = .StateUnknownHost := by
    intro d hd op
    have hc := connectToHost_not_closed d (by rw [hd]; decide)
    cases op with
    | step rc =>
      show (d.processState rc).state_ = _
      unfold LibsshQtClient.processState
      simp only [hd]
    | markCurrentHostKnown rc => exact (markCurrentHostKnown_spec d rc).1.trans hd
    | connectToHost =>
      show (d.connectToHost).state_ = _
      rw [hc.1, hd]
    | connectToHostName hostName rcHost rcPort =>
      show (d.connectToHostName hostName rcHost rcPort).state_ = _
      rw [hc.2.1, hd]
    | connectToHostPort hostName port rcHost rcPort =>
      show (d.connectToHostPort hostName port rcHost rcPort).state_ = _
      rw [hc.2.2, hd]
    | enableDisableAuth enabled auth =>
      exact (enableDisableAuth_state d enabled auth (by rw [hd]; decide)
        (by rw [hd]; decide)).1.trans hd
  have hc := connectToHost_not_closed c (by rw [hs]; decide)
  refine ⟨?_, fun rc => step c hs (.markCurrentHostKnown rc), ?_, hc.1, hc.2.1, hc.2.2,
    fun enabled auth => step c hs (.enableDisableAuth enabled auth), ?_, ?_⟩
  · intro rc
    unfold LibsshQtClient.processState
    simp only [hs]
  · unfold LibsshQtClient.markCurrentHostKnown
    rw [if_pos rfl]
  · intro ops
    induction ops generalizing c with
    | nil => exact hs
    | cons op ops ih =>
      rw [List.foldl_cons]
      exact ih _ (step c hs op) (connectToHost_not_closed _ (by rw [step c hs op]; decide))
  · exact (disconnectFromHost_open c ⟨by rw [hs]; decide, by rw [hs]; decide⟩).2.1

/-- C26 at a session whose host key changed: marking the host known, stepping,
enabling the password method and connecting leave it in `StateUnknownHost`. -/
theorem unknown_host_state_stuck_until_disconnect_witness :
    hostKeyChanged.state_ = .StateUnknownHost ∧
    ([HostDecisionOp.markCurrentHostKnown SSH_OK, .step SSH_OK,
      .enableDisableAuth true .UseAuthPassword, .connectToHost, .step SSH_AUTH_SUCCESS].foldl
      applyHostDecisionOp hostKeyChanged).state_ = .StateUnknownHost :=
  ⟨by decide, (unknown_host_state_stuck_until_disconnect hostKeyChanged (by decide)).2.2.2.2.2.2.2.1 _⟩

/-- C28: for every session state, `disconnectFromHost` leaves `failedAuths()`, the
requested auth methods, the password, `unknownHostType()`, `hostname()`,
`username()` and `port()` unchanged, as well as the succeeded method, the
timer and the guard flags; the failed methods are still there after the next
`connectToHost`. -/
theorem disconnectFromHost_frame (c : LibsshQtClient) :
    (c.disconnectFromHost).failedAuths = c.failedAuths ∧
    (c.disconnectFromHost).use_auths_ = c.use_auths_ ∧
    (c.disconnectFromHost).password_ = c.password_ ∧
    (c.disconnectFromHost).unknownHostType = c.unknownHostType ∧
    (c.disconnectFromHost).hostname = c.hostname ∧
    (c.disconnectFromHost).username = c.username ∧
    (c.disconnectFromHost).port = c.port ∧
    (c.disconnectFromHost).succeeded_auth_ = c.succeeded_auth_ ∧
    (c.disconnectFromHost).timer_ = c.timer_ ∧
    (c.disconnectFromHost).process_state_running_ = c.process_state_running_ ∧
    (c.disconnectFromHost).enable_writable_nofifier_ = c.enable_writable_nofifier_ ∧
    (c.disconnectFromHost.connectToHost).failedAuths = c.failedAuths := by
  have key : (c.disconnectFromHost).failed_auths_ = c.failed_auths_ ∧
      (c.disconnectFromHost).use_auths_ = c.use_auths_ ∧
      (c.disconnectFromHost).password_ = c.password_ ∧
      (c.disconnectFromHost).unknown_host_type_ = c.unknown_host_type_ ∧
      (c.disconnectFromHost).hostname_ = c.hostname_ ∧
      (c.disconnectFromHost).username_ = c.username_ ∧
      (c.disconnectFromHost).port_ = c.port_ ∧
      (c.disconnectFromHost).succeeded_auth_ = c.succeeded_auth_ ∧
      (c.disconnectFromHost).timer_ = c.timer_ ∧
      (c.disconnectFromHost).process_state_running_ = c.process_state_running_ ∧
      (c.disconnectFromHost).enable_writable_nofifier_ = c.enable_writable_nofifier_ := by
    by_cases h : c.state_ ≠ .StateClosed ∧ c.state_ ≠ .StateClosing
    · obtain ⟨⟨mid, -, -, -, -, hd⟩, -⟩ := disconnectFromHost_open c h
      obtain ⟨a1, a2, a3, a4, a5, a6, -, -, a9, a10, a11, a12, a13⟩ :=
        setState_frame c .StateClosing
      unfold LibsshQtClient.disconnectFromHost
      rw [if_pos h]
      dsimp only
      obtain ⟨b1, b2, b3, b4, b5, b6, -, -, b9, b10, b11, b12, b13⟩ := setState_frame
        (({ ({ ((c.setState .StateClosing).emit .doCleanup) with read_notifier_ := none }) with
          write_notifier_ := none }).emit .ssh_disconnect) .StateClosed
      exact ⟨b11.trans a11, b10.trans a10, b6.trans a6, b9.trans a9, b4.trans a4, b3.trans a3,
        b5.trans a5, b12.trans a12, b13.trans a13, b1.trans a1, b2.trans a2⟩
    · unfold LibsshQtClient.disconnectFromHost
      rw [if_neg h]
      exact ⟨rfl, rfl, rfl, rfl, rfl, rfl, rfl, rfl, rfl, rfl, rfl⟩
  obtain ⟨k1, k2, k3, k4, k5, k6, k7, k8, k9, k10, k11⟩ := key
  refine ⟨k1, k2, k3, k4, k5, k6, k7, k8, k9, k10, k11, ?_⟩
  show (c.disconnectFromHost.connectToHost).failed_auths_ = c.failed_auths_
  unfold LibsshQtClient.connectToHost
  split_ifs
  · show (LibsshQtClient.setState _ _).failed_auths_ = _
    rw [(setState_frame _ _).2.2.2.2.2.2.2.2.2.2.1, k1]
  · exact k1

/-- In `StateAuthInteractive` every result of `processStateGuard` keeps the
state, the failed methods and the read notifier, and there is a result
whenever the writable notifier exists. -/
theorem guard_interactive (d : LibsshQtClient) (rc : Int)
    (hd : d.state_ = .StateAuthInteractive) :
    (∀ r, d.processStateGuard rc = some r →
      r.state_ = .StateAuthInteractive ∧ r.failed_auths_ = d.failed_auths_ ∧
      r.read_notifier_ = d.read_notifier_ ∧
      (d.write_notifier_ ≠ none → r.write_notifier_ ≠ none)) ∧
    (d.write_notifier_ ≠ none → ∃ r, d.processStateGuard rc = some r) := by
  have hp : ({ d with process_state_running_ := true }).processState rc =
      { d with process_state_running_ := true } := by
    unfold LibsshQtClient.processState
    simp only [hd]
  have hg : d.processStateGuard rc =
      if d.process_state_running_ = true then some d
      else if d.enable_writable_nofifier_ = true then
        match d.write_notifier_ with
        | some _ => some { ({ d with process_state_running_ := false }) with
            write_notifier_ := some true }
        | none => none
      else some { d with process_state_running_ := false } := by
    unfold LibsshQtClient.processStateGuard
    dsimp only
    rw [hp]
  rw [hg]
  constructor
  · intro r hr
    split_ifs at hr with h1 h2
    · rw [← Option.some.inj hr]
      exact ⟨hd, rfl, rfl, fun h => h⟩
    · cases hw : d.write_notifier_ with
      | none => rw [hw] at hr; exact absurd hr (by simp)
      | some b =>
        rw [hw] at hr
        rw [← Option.some.inj hr]
        exact ⟨hd, rfl, rfl, fun _ => by simp⟩
    · rw [← Option.some.inj hr]
      exact ⟨hd, rfl, rfl, fun h => h⟩
  · intro hw
    split_ifs
    · exact ⟨_, rfl⟩
    · cases hw' : d.write_notifier_ with
      | none => exact absurd hw' hw
      | some b => exact ⟨_, rfl⟩
    · exact ⟨_, rfl⟩

/-- C29: for every session in `StateAuthInteractive`, a `processState` step
changes nothing, whatever libssh reports, and so does every sequence of
steps; every result of the guard and of both socket slots keeps the state and
`failedAuths()`, and with both notifiers present (as they are once the connect
step has succeeded) each of them has a result, which keeps both notifiers;
enabling or disabling an auth method leaves the state and `failedAuths()`,
`connectToHost` changes nothing and `disconnectFromHost` moves to
`StateClosed`. -/
theorem auth_interactive_state_stuck (c : LibsshQtClient) (hs : c.state_ = .StateAuthInteractive) :
    (∀ rc, c.processState rc = c) ∧
    (∀ rcs : List Int, rcs.foldl LibsshQtClient.processState c = c) ∧
    (∀ rc r, c.processStateGuard rc = some r →
      r.state_ = .StateAuthInteractive ∧ r.failedAuths = c.failedAuths) ∧
    (∀ rc r, c.handleSocketReadable rc = some r →
      r.state_ = .StateAuthInteractive ∧ r.failedAuths = c.failedAuths) ∧
    (∀ rc r, c.handleSocketWritable rc = some r →
      r.state_ = .StateAuthInteractive ∧ r.failedAuths = c.failedAuths) ∧
    (c.read_notifier_ ≠ none → c.write_notifier_ ≠ none → ∀ rc,
      (∃ r, c.processStateGuard rc = some r ∧ r.state_ = .StateAuthInteractive ∧
        r.failedAuths = c.failedAuths ∧ r.read_notifier_ ≠ none ∧ r.write_notifier_ ≠ none) ∧
      (∃ r, c.handleSocketReadable rc = some r ∧ r.state_ = .StateAuthInteractive ∧
        r.failedAuths = c.failedAuths ∧ r.read_notifier_ ≠ none ∧ r.write_notifier_ ≠ none) ∧
      (∃ r, c.handleSocketWritable rc = some r ∧ r.state_ = .StateAuthInteractive ∧
        r.failedAuths = c.failedAuths ∧ r.read_notifier_ ≠ none ∧ r.write_notifier_ ≠ none)) ∧
    (∀ enabled auth, (c.enableDisableAuth enabled auth).state_ = .StateAuthInteractive ∧
      (c.enableDisableAuth enabled auth).failedAuths = c.failedAuths) ∧
    c.connectToHost = c ∧
    (c.disconnectFromHost).state_ = .StateClosed := by
  have hp : ∀ d : LibsshQtClient, d.state_ = .StateAuthInteractive →
      ∀ rc, d.processState rc = d := by
    intro d hd rc
    unfold LibsshQtClient.processState
    simp only [hd]
  have hR : ∀ rc r, c.handleSocketReadable rc = some r →
      r.state_ = .StateAuthInteractive ∧ r.failed_auths_ = c.failed_auths_ ∧
      r.read_notifier_ ≠ none ∧ (c.write_notifier_ ≠ none → r.write_notifier_ ≠ none) := by
    intro rc r hr
    unfold LibsshQtClient.handleSocketReadable at hr
    cases hn : c.read_notifier_ with
    | none => rw [hn] at hr; exact absurd hr (by simp)
    | some b =>
      rw [hn] at hr
      dsimp only at hr
      cases hg : ({ c with read_notifier_ := some false }).processStateGuard rc with
      | none => rw [hg] at hr; exact absurd hr (by simp)
      | some q =>
        rw [hg] at hr
        obtain ⟨g1, g2, g3, g4⟩ :=
          (guard_interactive { c with read_notifier_ := some false } rc hs).1 q hg
        dsimp only at hr
        have g3' : q.read_notifier_ = some false := g3
        rw [g3'] at hr
        rw [← Option.some.inj hr]
        exact ⟨g1, g2, by simp, g4⟩
  have hW : ∀ rc r, c.handleSocketWritable rc = some r →
      r.state_ = .StateAuthInteractive ∧ r.failed_auths_ = c.failed_auths_ ∧
      r.read_notifier_ = c.read_notifier_ ∧ r.write_notifier_ ≠ none := by
    intro rc r hr
    unfold LibsshQtClient.handleSocketWritable at hr
    dsimp only at hr
    cases hn : c.write_notifier_ with
    | none => rw [hn] at hr; exact absurd hr (by simp)
    | some b =>
      rw [hn] at hr
      dsimp only at hr
      obtain ⟨g1, g2, g3, g4⟩ := (guard_interactive _ rc (by exact hs)).1 r hr
      exact ⟨g1, g2, g3, g4 (by simp)⟩
  refine ⟨hp c hs, ?_, ?_, ?_, ?_, ?_, ?_,
    (connectToHost_not_closed c (by rw [hs]; decide)).1,
    (disconnectFromHost_open c ⟨by rw [hs]; decide, by rw [hs]; decide⟩).2.1⟩
  · intro rcs
    induction rcs with
    | nil => rfl
    | cons rc rcs ih => rw [List.foldl_cons, hp c hs rc]; exact ih
  · intro rc r hr
    obtain ⟨g1, g2, -, -⟩ := (guard_interactive c rc hs).1 r hr
    exact ⟨g1, g2⟩
  · intro rc r hr
    obtain ⟨g1, g2, -, -⟩ := hR rc r hr
    exact ⟨g1, g2⟩
  · intro rc r hr
    obtain ⟨g1, g2, -, -⟩ := hW rc r hr
    exact ⟨g1, g2⟩
  · intro hrn hwn rc
    refine ⟨?_, ?_, ?_⟩
    · obtain ⟨r, hr⟩ := (guard_interactive c rc hs).2 hwn
      obtain ⟨g1, g2, g3, g4⟩ := (guard_interactive c rc hs).1 r hr
      exact ⟨r, hr, g1, g2, by rw [g3]; exact hrn, g4 hwn⟩
    · have hex : ∃ r, c.handleSocketReadable rc = some r := by
        unfold LibsshQtClient.handleSocketReadable
        cases hn : c.read_notifier_ with
        | none => exact absurd hn hrn
        | some b =>
          dsimp only
          obtain ⟨q, hq⟩ := (guard_interactive { c with read_notifier_ := some false } rc hs).2
            hwn
          obtain ⟨-, -, g3, -⟩ :=
            (guard_interactive { c with read_notifier_ := some false } rc hs).1 q hq
          have g3' : q.read_notifier_ = some false := g3
          rw [hq]
          dsimp only
          rw [g3']
          exact ⟨_, rfl⟩
      obtain ⟨r, hr⟩ := hex
      obtain ⟨g1, g2, g3, g4⟩ := hR rc r hr
      exact ⟨r, hr, g1, g2, g3, g4 hwn⟩
    · have hex : ∃ r, c.handleSocketWritable rc = some r := by
        unfold LibsshQtClient.handleSocketWritable
        dsimp only
        cases hn : c.write_notifier_ with
        | none => exact absurd hn hwn
        | some b =>
          dsimp only
          exact (guard_interactive _ rc (by exact hs)).2 (by simp)
      obtain ⟨r, hr⟩ := hex
      obtain ⟨g1, g2, g3, g4⟩ := hW rc r hr
      exact ⟨r, hr, g1, g2, by rw [g3]; exact hrn, g4⟩
  · intro enabled auth
    have := enableDisableAuth_state c enabled auth (by rw [hs]; decide) (by rw [hs]; decide)
    exact ⟨this.1.trans hs, this.2⟩

/-- C29 at a session that requested only the Interactive method: it is
dispatched to `StateAuthInteractive`, stays there under steps and under the
guard, and Interactive is not a failed method. -/
theorem auth_interactive_state_stuck_witness :
    tryingInteractive.state_ = .StateAuthInteractive ∧
    [SSH_AUTH_SUCCESS, SSH_AUTH_DENIED, SSH_AUTH_ERROR].foldl LibsshQtClient.processState
      tryingInteractive = tryingInteractive ∧
    tryingInteractive.failedAuths.test .UseAuthInteractive = false ∧
    (∃ r, tryingInteractive.processStateGuard SSH_AUTH_SUCCESS = some r ∧
      r.state_ = .StateAuthInteractive ∧ r.failedAuths = tryingInteractive.failedAuths ∧
      r.read_notifier_ ≠ none ∧ r.write_notifier_ ≠ none) :=
  ⟨by decide, (auth_interactive_state_stuck tryingInteractive (by decide)).2.1 _, by decide,
   ((auth_interactive_state_stuck tryingInteractive (by decide)).2.2.2.2.2.1 (by decide) (by decide)
      SSH_AUTH_SUCCESS).1⟩

/-- C30: for every session in `StateClosed`, `connectToHost(hostName)` stores the
host name, sets the port to 22 and moves to `StateConnecting`;
`connectToHost(hostName, p)` does the same with port `p mod 65536`, which is
`p` for `p ≤ 65535`; in every other state all three overloads change
nothing. -/
theorem connectToHost_overloads (c : LibsshQtClient) (hostName : String) (p : Nat) (rcHost rcPort : Int) :
    (c.state_ = .StateClosed →
      (c.connectToHostName hostName rcHost rcPort).hostname = hostName ∧
      (c.connectToHostName hostName rcHost rcPort).port = 22 ∧
      (c.connectToHostName hostName rcHost rcPort).state_ = .StateConnecting) ∧
    (c.state_ = .StateClosed →
      (c.connectToHostPort hostName p rcHost rcPort).hostname = hostName ∧
      (c.connectToHostPort hostName p rcHost rcPort).port = p % 65536 ∧
      (p ≤ 65535 → (c.connectToHostPort hostName p rcHost rcPort).port = p) ∧
      (c.connectToHostPort hostName p rcHost rcPort).state_ = .StateConnecting) ∧
    (c.state_ ≠ .StateClosed →
      c.connectToHost = c ∧
      c.connectToHostName hostName rcHost rcPort = c ∧
      c.connectToHostPort hostName p rcHost rcPort = c) := by
  have hconn : ∀ d : LibsshQtClient, d.state_ = .StateClosed →
      (d.connectToHost).hostname_ = d.hostname_ ∧ (d.connectToHost).port_ = d.port_ ∧
      (d.connectToHost).state_ = .StateConnecting := by
    intro d hd
    unfold LibsshQtClient.connectToHost
    rw [if_pos hd]
    obtain ⟨-, -, -, f4, f5, -⟩ := setState_frame d .StateConnecting
    exact ⟨f4, f5, (setState_log d _ (by rw [hd]; decide)).2⟩
  have hset : ∀ (port : Int),
      ((c.setHostname hostName rcHost).setPort port rcPort).hostname_ = hostName ∧
      ((c.setHostname hostName rcHost).setPort port rcPort).port_ = (port % 65536).toNat ∧
      ((c.setHostname hostName rcHost).setPort port rcPort).state_ = c.state_ := by
    intro port
    unfold LibsshQtClient.setPort LibsshQtClient.setHostname
    obtain ⟨s1, -, s3, s4⟩ := setter_fields
      { (LibsshQtClient.LIBSSHQT_SET_OPT { c with hostname_ := hostName } .SSH_OPTIONS_HOST
          rcHost) with port_ := (port % 65536).toNat } .SSH_OPTIONS_PORT rcPort
    obtain ⟨t1, -, -, t4⟩ := setter_fields { c with hostname_ := hostName } .SSH_OPTIONS_HOST
      rcHost
    exact ⟨s1.trans t1, s3, s4.trans t4⟩
  refine ⟨?_, ?_, ?_⟩
  · intro hs
    obtain ⟨h1, h2, h3⟩ := hset 22
    obtain ⟨g1, g2, g3⟩ := hconn _ (h3.trans hs)
    unfold LibsshQtClient.connectToHostName
    rw [if_pos hs]
    exact ⟨g1.trans h1, g2.trans h2, g3⟩
  · intro hs
    obtain ⟨h1, h2, h3⟩ := hset ((p % 4294967296 : Nat) : Int)
    obtain ⟨g1, g2, g3⟩ := hconn _ (h3.trans hs)
    have hp : (c.connectToHostPort hostName p rcHost rcPort).port = p % 65536 := by
      unfold LibsshQtClient.connectToHostPort
      rw [if_pos hs]
      show (LibsshQtClient.connectToHost _).port_ = _
      have : (((p % 4294967296 : Nat) : Int) % 65536).toNat = p % 65536 := by omega
      rw [← this, ← h2]
      exact g2
    refine ⟨?_, hp, fun hle => by rw [hp]; omega, ?_⟩
    · unfold LibsshQtClient.connectToHostPort
      rw [if_pos hs]
      exact g1.trans h1
    · unfold LibsshQtClient.connectToHostPort
      rw [if_pos hs]
      exact g3
  · intro hs
    obtain ⟨a, b, d⟩ := connectToHost_not_closed c hs
    exact ⟨a, b _ _ _, d _ _ _ _⟩

/-- C30 at a fresh session, at one configured for port 2222, with port 65558,
and at a connecting session. -/
theorem connectToHost_overloads_witness :
    (LibsshQtClient.new.connectToHostName "a" 0 0).port = 22 ∧
    ((LibsshQtClient.new.setPort 2222 0).connectToHostName "a" 0 0).port = 22 ∧
    (LibsshQtClient.new.connectToHostPort "a" 65558 0 0).port = 22 ∧
    firstAttempt.connectToHostPort "b" 2222 0 0 = firstAttempt :=
  ⟨((connectToHost_overloads LibsshQtClient.new "a" 0 0 0).1 rfl).2.1,
   ((connectToHost_overloads (LibsshQtClient.new.setPort 2222 0) "a" 0 0 0).1 (by decide)).2.1,
   ((connectToHost_overloads LibsshQtClient.new "a" 65558 0 0).2.1 rfl).2.1,
   ((connectToHost_overloads firstAttempt "b" 2222 0 0).2.2 (by decide)).2.2⟩
